import Mathlib

/-!
# Xe device coredump

A shallow embedding of `drivers/gpu/drm/xe/xe_devcoredump.c` and the properties of its
capture / deferred render / read / delete pipeline.

Conventions of the embedding:

* a C string or byte buffer is a `Text` (`List Char`), one element per `char`;
* a pointer that may be `NULL` is an `Option`;
* the device state that the C code mutates through pointers is passed explicitly
  (`xe_device`), and every call into a collaborator that has an effect outside the
  coredump (provider `free` functions, allocator, work queue, log) is appended to
  `xe_device.calls`, in program order;
* collaborators whose code is not part of this file (snapshot providers, clock,
  allocator, build constants) are the fields of `Env`;
* a `NULL` dereference makes a function return `none`.

Two smaller embeddings follow the definitions of `Xe`: namespace `SimpleCard` for the
clock handling of `simple_util_startup` and the array layout of `simple_util_init_priv`
in `sound/soc/generic/simple-card-utils.c`, and namespace `Meson8b` for
`meson8b_init_rgmii_delays` in `drivers/net/ethernet/stmicro/stmmac/dwmac-meson8b.c`.
All definitions come first, then the theorems, namespace by namespace.
-/

set_option autoImplicit false

namespace Xe

/-! ## Data model -/

/-- One element per C `char`. -/
abbrev Text := List Char

/-- Largest value of a C `int`. -/
def INT_MAX : Nat := 2147483647

/-- The errno returned (negated) when no device / no report is available. -/
def ENODEV : Int := 19

/-- Provider-owned snapshot of the GuC CT channel; opaque to the coredump code. -/
structure xe_guc_ct_snapshot where
  token : Nat
deriving DecidableEq, Repr

/-- Provider-owned snapshot of the exec queue; opaque to the coredump code. -/
structure xe_guc_submit_exec_queue_snapshot where
  token : Nat
deriving DecidableEq, Repr

/-- Provider-owned snapshot of the job; opaque to the coredump code. -/
structure xe_sched_job_snapshot where
  token : Nat
deriving DecidableEq, Repr

/-- Provider-owned snapshot of one hardware engine; opaque to the coredump code. -/
structure xe_hw_engine_snapshot where
  token : Nat
deriving DecidableEq, Repr

/-- Provider-owned snapshot of the VM; opaque to the coredump code. -/
structure xe_vm_snapshot where
  token : Nat
deriving DecidableEq, Repr

/-- The fields of `struct xe_hw_engine` that the coredump code reads. -/
structure xe_hw_engine where
  hwe_class : Nat
  logical_instance : Nat
  live : Nat
deriving DecidableEq, Repr

/-- The live GuC CT channel (`gt->uc.guc.ct`). -/
structure xe_guc_ct where
  live : Nat
deriving DecidableEq, Repr

/-- The fields of `struct xe_gt` that the coredump code reads.  `hw_engines[id]` is
`none` for an engine that `xe_hw_engine_is_valid` rejects. -/
structure xe_gt where
  info_id : Nat
  tile_id : Nat
  guc_ct : xe_guc_ct
  hw_engines : List (Option xe_hw_engine)
deriving DecidableEq, Repr

/-- The user context attached to a VM (`struct xe_file`). -/
structure xe_file where
  process_name : Text
deriving DecidableEq, Repr

/-- The fields of `struct xe_vm` that the coredump code reads. -/
structure xe_vm where
  xef : Option xe_file
  live : Nat
deriving DecidableEq, Repr

/-- The fields of `struct xe_exec_queue` that the coredump code reads. -/
structure xe_exec_queue where
  gt : xe_gt
  hwe : xe_hw_engine
  vm : Option xe_vm
  logical_mask : Nat
  width : Nat
  live : Nat
deriving DecidableEq, Repr

/-- The faulty job handed to `xe_devcoredump`. -/
structure xe_sched_job where
  q : xe_exec_queue
  live : Nat
deriving DecidableEq, Repr

/-- The aggregate `struct xe_devcoredump_snapshot`.  `work_pending` is the pending bit
of the embedded `work`; `read_size` / `read_buffer` are `read.size` / `read.buffer`. -/
structure xe_devcoredump_snapshot where
  snapshot_time : Int
  boot_time : Int
  process_name : Text
  gt : Option xe_gt
  work_pending : Bool
  ct : Option xe_guc_ct_snapshot
  ge : Option xe_guc_submit_exec_queue_snapshot
  job : Option xe_sched_job_snapshot
  hwe : List (Option xe_hw_engine_snapshot)
  vm : Option xe_vm_snapshot
  read_size : Nat
  read_buffer : Option Text
deriving DecidableEq, Repr

/-- The per-device `struct xe_devcoredump`: the latch and the aggregate. -/
structure struct_xe_devcoredump where
  captured : Bool
  snapshot : xe_devcoredump_snapshot
deriving DecidableEq, Repr

/-- Calls into collaborators that have an effect outside the coredump state. -/
inductive Call where
  | drm_dbg (msg : String)
  | drm_info (msg : String)
  | drm_info_card (msg : String) (index : Nat)
  | xe_gt_info (msg : String)
  | INIT_WORK
  | queue_work
  | flush_work
  | cancel_work_sync
  | dev_coredumpm_timeout
  | xe_pm_runtime_get
  | xe_pm_runtime_put
  | xe_force_wake_get
  | xe_force_wake_put (fw_ref : Nat)
  | dma_fence_begin_signalling
  | dma_fence_end_signalling
  | kvmalloc (size : Nat)
  | kvfree (p : Option Text)
  | xe_guc_ct_snapshot_free (p : Option xe_guc_ct_snapshot)
  | xe_guc_exec_queue_snapshot_free (p : Option xe_guc_submit_exec_queue_snapshot)
  | xe_sched_job_snapshot_free (p : Option xe_sched_job_snapshot)
  | xe_hw_engine_snapshot_free (p : xe_hw_engine_snapshot)
  | xe_vm_snapshot_free (p : Option xe_vm_snapshot)
deriving DecidableEq, Repr

/-- The device: its embedded coredump, the DRM minor index, and the log of calls made
into collaborators so far. -/
structure xe_device where
  devcoredump : struct_xe_devcoredump
  primary_index : Nat
  calls : List Call
deriving DecidableEq, Repr

/-- Collaborators and build constants whose code is outside this file.  The capture
functions read live state; `kvmalloc n` is `none` when the allocation fails and
otherwise gives the (uninitialised) content of the `n` fresh bytes. -/
structure Env where
  XE_NUM_HW_ENGINES : Nat
  XE_HW_ENGINE_MAX_INSTANCE : Nat
  TASK_COMM_LEN : Nat
  UTS_RELEASE : Text
  KBUILD_MODNAME : Text
  ktime_get_real : Int
  ktime_get_boottime : Int
  xe_force_wake_get : xe_gt → Nat
  xe_force_wake_ref_has_domain : Nat → Bool
  xe_guc_ct_snapshot_capture : xe_guc_ct → Bool → Option xe_guc_ct_snapshot
  xe_guc_exec_queue_snapshot_capture : xe_exec_queue → Option xe_guc_submit_exec_queue_snapshot
  xe_sched_job_snapshot_capture : xe_sched_job → Option xe_sched_job_snapshot
  xe_vm_snapshot_capture : Option xe_vm → Option xe_vm_snapshot
  xe_hw_engine_snapshot_capture : xe_hw_engine → Option xe_hw_engine_snapshot
  xe_vm_snapshot_capture_delayed : xe_vm_snapshot → xe_vm_snapshot
  xe_guc_exec_queue_snapshot_capture_delayed :
    xe_guc_submit_exec_queue_snapshot → xe_guc_submit_exec_queue_snapshot
  xe_device_snapshot_print : Text
  xe_guc_ct_snapshot_print : Option xe_guc_ct_snapshot → Text
  xe_guc_exec_queue_snapshot_print : Option xe_guc_submit_exec_queue_snapshot → Text
  xe_sched_job_snapshot_print : Option xe_sched_job_snapshot → Text
  xe_hw_engine_snapshot_print : xe_hw_engine_snapshot → Text
  xe_vm_snapshot_print : Option xe_vm_snapshot → Text
  kvmalloc : Nat → Option (Nat → Char)

/-- The aggregate of the device (`&xe->devcoredump.snapshot`). -/
def xe_device.ss (xe : xe_device) : xe_devcoredump_snapshot :=
  xe.devcoredump.snapshot

/-- Store a new aggregate in the device. -/
def xe_device.set_ss (xe : xe_device) (ss : xe_devcoredump_snapshot) : xe_device :=
  { xe with devcoredump := { xe.devcoredump with snapshot := ss } }

/-- Record a call into a collaborator. -/
def xe_device.call (xe : xe_device) (c : Call) : xe_device :=
  { xe with calls := xe.calls ++ [c] }

/-- Record several calls into collaborators, in order. -/
def xe_device.add_calls (xe : xe_device) (cs : List Call) : xe_device :=
  { xe with calls := xe.calls ++ cs }

/-- Store the latch (`coredump->captured = b`). -/
def xe_device.set_captured (xe : xe_device) (b : Bool) : xe_device :=
  { xe with devcoredump := { xe.devcoredump with captured := b } }

/-- The aggregate after `memset(&coredump->snapshot, 0, sizeof(coredump->snapshot))`. -/
def snapshot_zero (env : Env) : xe_devcoredump_snapshot :=
  { snapshot_time := 0
    boot_time := 0
    process_name := []
    gt := none
    work_pending := false
    ct := none
    ge := none
    job := none
    hwe := List.replicate env.XE_NUM_HW_ENGINES none
    vm := none
    read_size := 0
    read_buffer := none }

/-- The kernel macro `BIT(n)`. -/
def BIT (n : Nat) : Nat := 1 <<< n

/-- Truncation to a `u32`. -/
def u32 (x : Nat) : Nat := x % 2 ^ 32

/-- The effect of `memcpy(dst + pos, src, len(src))` on the buffer `dst`. -/
def memcpy (dst : Text) (pos : Nat) (src : Text) : Text :=
  dst.take pos ++ src ++ dst.drop (pos + src.length)

/-! ## The coredump printer -/

/-- The `struct drm_print_iterator` behind the coredump printer. -/
structure drm_print_iterator where
  data : Option Text
  start : Nat
  remain : Nat
  offset : Nat
deriving DecidableEq, Repr

/-- Modelled from the spec: `drm_coredump_printer` (drm_print.c is not among the
sources).  The printer is the "sink" of the two-pass render; creating it resets the
internal offset of the iterator. -/
def drm_coredump_printer (iter : drm_print_iterator) : drm_print_iterator :=
  { iter with offset := 0 }

/-- Modelled from the spec: `drm_puts` on the coredump printer (drm_print.c is not among
the sources): "a counting sink (size-only) and a buffer-writing sink, both driven by the
identical rendering logic".  With `data = NULL` only the counters move; otherwise the
bytes that fall in the window `[start, start + remain)` are copied as well. -/
def drm_puts (p : drm_print_iterator) (str : Text) : drm_print_iterator :=
  if p.remain = 0 then p
  else if p.offset < p.start then
    if p.offset + str.length ≤ p.start then
      { p with offset := p.offset + str.length }
    else
      let copy := min (str.length - (p.start - p.offset)) p.remain
      { p with
        data := p.data.map fun d => memcpy d 0 ((str.drop (p.start - p.offset)).take copy)
        offset := p.start + copy
        remain := p.remain - copy }
  else
    let pos := p.offset - p.start
    let len := min str.length p.remain
    { p with
      data := p.data.map fun d => memcpy d pos (str.take len)
      offset := p.offset + len
      remain := p.remain - len }

/-- A `struct timespec64`. -/
structure timespec64 where
  tv_sec : Int
  tv_nsec : Int
deriving DecidableEq, Repr

/-- Modelled from the spec: `ktime_to_timespec64` (not among the sources): the
`<sec>.<nsec>` split of a nanosecond count, `tv_nsec` in `[0, 10^9)`. -/
def ktime_to_timespec64 (t : Int) : timespec64 :=
  { tv_sec := Int.fdiv t 1000000000, tv_nsec := Int.fmod t 1000000000 }

/-- Modelled from the spec: the `%d` / `%lld` conversion of `drm_printf` (not among the
sources): signed decimal. -/
def fmt_lld (x : Int) : Text :=
  if x < 0 then '-' :: Nat.toDigits 10 x.natAbs else Nat.toDigits 10 x.natAbs

/-- Modelled from the spec: the `%09ld` conversion of `drm_printf` (not among the
sources) for a non-negative value: decimal, left-padded with zeros to nine digits. -/
def fmt_09ld (x : Int) : Text :=
  List.replicate (9 - (Nat.toDigits 10 x.toNat).length) '0' ++ Nat.toDigits 10 x.toNat

/-! ## xe_devcoredump.c -/

/-- The loop `for (i = 0; i < XE_NUM_HW_ENGINES; i++) if (ss->hwe[i]) print` of
`__xe_devcoredump_read`, one iteration. -/
def read_hwe_step (env : Env) (ss : xe_devcoredump_snapshot) (p : drm_print_iterator)
    (i : Nat) : drm_print_iterator :=
  match ss.hwe[i]? with
  | some (some h) => drm_puts p (env.xe_hw_engine_snapshot_print h)
  | _ => p

/-- The function `__xe_devcoredump_read(buffer, count, coredump)`: render the aggregate
through the coredump printer.  Returns `count - iter.remain` and the final content of
`buffer`; `none` when `ss->gt` is `NULL` (it is dereferenced).  The source leaves
`iter.offset` unset; `drm_coredump_printer` sets it. -/
def __xe_devcoredump_read (env : Env) (buffer : Option Text) (count : Nat)
    (xe : xe_device) : Option (Nat × Option Text) :=
  let ss := xe.ss
  match ss.gt with
  | none => none
  | some gt =>
    let iter : drm_print_iterator := { data := buffer, start := 0, remain := count, offset := 0 }
    let p := drm_coredump_printer iter
    let p := drm_puts p "**** Xe Device Coredump ****\n".toList
    let p := drm_puts p ("kernel: ".toList ++ env.UTS_RELEASE ++ "\n".toList)
    let p := drm_puts p ("module: ".toList ++ env.KBUILD_MODNAME ++ "\n".toList)
    let ts := ktime_to_timespec64 ss.snapshot_time
    let p := drm_puts p ("Snapshot time: ".toList ++ fmt_lld ts.tv_sec ++ ".".toList
      ++ fmt_09ld ts.tv_nsec ++ "\n".toList)
    let ts := ktime_to_timespec64 ss.boot_time
    let p := drm_puts p ("Uptime: ".toList ++ fmt_lld ts.tv_sec ++ ".".toList
      ++ fmt_09ld ts.tv_nsec ++ "\n".toList)
    let p := drm_puts p ("Process: ".toList ++ ss.process_name ++ "\n".toList)
    let p := drm_puts p env.xe_device_snapshot_print
    let p := drm_puts p ("\n**** GT #".toList ++ fmt_lld gt.info_id ++ " ****\n".toList)
    let p := drm_puts p ("\tTile: ".toList ++ fmt_lld gt.tile_id ++ "\n".toList)
    let p := drm_puts p "\n**** GuC CT ****\n".toList
    let p := drm_puts p (env.xe_guc_ct_snapshot_print ss.ct)
    let p := drm_puts p "\n**** Contexts ****\n".toList
    let p := drm_puts p (env.xe_guc_exec_queue_snapshot_print ss.ge)
    let p := drm_puts p "\n**** Job ****\n".toList
    let p := drm_puts p (env.xe_sched_job_snapshot_print ss.job)
    let p := drm_puts p "\n**** HW Engines ****\n".toList
    let p := (List.range env.XE_NUM_HW_ENGINES).foldl (read_hwe_step env ss) p
    let p := drm_puts p "\n**** VM state ****\n".toList
    let p := drm_puts p (env.xe_vm_snapshot_print ss.vm)
    some (count - p.remain, p.data)

/-- The loop body of `xe_devcoredump_snapshot_free`:
`if (ss->hwe[i]) { xe_hw_engine_snapshot_free(ss->hwe[i]); ss->hwe[i] = NULL; }`. -/
def snapshot_free_hwe_step (xe : xe_device) (i : Nat) : xe_device :=
  match xe.ss.hwe[i]? with
  | some (some h) =>
    let xe := xe.call (.xe_hw_engine_snapshot_free h)
    xe.set_ss { xe.ss with hwe := xe.ss.hwe.set i none }
  | _ => xe

/-- The function `xe_devcoredump_snapshot_free(ss)`: release every component snapshot of
the aggregate and empty its slot. -/
def xe_devcoredump_snapshot_free (env : Env) (xe : xe_device) : xe_device :=
  let xe := xe.call (.xe_guc_ct_snapshot_free xe.ss.ct)
  let xe := xe.set_ss { xe.ss with ct := none }
  let xe := xe.call (.xe_guc_exec_queue_snapshot_free xe.ss.ge)
  let xe := xe.set_ss { xe.ss with ge := none }
  let xe := xe.call (.xe_sched_job_snapshot_free xe.ss.job)
  let xe := xe.set_ss { xe.ss with job := none }
  let xe := (List.range env.XE_NUM_HW_ENGINES).foldl snapshot_free_hwe_step xe
  let xe := xe.call (.xe_vm_snapshot_free xe.ss.vm)
  xe.set_ss { xe.ss with vm := none }

/-- The worker `xe_devcoredump_deferred_snap_work(work)`: register the report, enrich, render in
two passes, release the component snapshots.  `none` when `ss->gt` is `NULL` (it is
dereferenced by `gt_to_xe(ss->gt)`). -/
def xe_devcoredump_deferred_snap_work (env : Env) (xe : xe_device) : Option xe_device :=
  match xe.ss.gt with
  | none => none
  | some gt =>
    let xe := xe.call .dev_coredumpm_timeout
    let xe := xe.call .xe_pm_runtime_get
    let fw_ref := env.xe_force_wake_get gt
    let xe := xe.call .xe_force_wake_get
    let xe := xe.add_calls (if !env.xe_force_wake_ref_has_domain fw_ref then
        [.xe_gt_info "failed to get forcewake for coredump capture\n"] else [])
    let xe := xe.set_ss { xe.ss with vm := xe.ss.vm.map env.xe_vm_snapshot_capture_delayed }
    let xe := xe.set_ss
      { xe.ss with ge := xe.ss.ge.map env.xe_guc_exec_queue_snapshot_capture_delayed }
    let xe := xe.call (.xe_force_wake_put fw_ref)
    let xe := xe.call .xe_pm_runtime_put
    match __xe_devcoredump_read env none INT_MAX xe with
    | none => none
    | some (size, _) =>
      let xe := xe.set_ss { xe.ss with read_size := size }
      let xe := xe.call (.kvmalloc xe.ss.read_size)
      match env.kvmalloc xe.ss.read_size with
      | none => some (xe.set_ss { xe.ss with read_buffer := none })
      | some fresh =>
        let xe := xe.set_ss
          { xe.ss with read_buffer := some ((List.range xe.ss.read_size).map fresh) }
        match __xe_devcoredump_read env xe.ss.read_buffer xe.ss.read_size xe with
        | none => none
        | some (_, buf) =>
          let xe := xe.set_ss { xe.ss with read_buffer := buf }
          some (xe_devcoredump_snapshot_free env xe)

/-- Modelled from the spec: the work queue (not among the sources) runs a queued work
item once: it clears the pending bit and calls the work function. -/
def process_one_work (env : Env) (xe : xe_device) : Option xe_device :=
  xe_devcoredump_deferred_snap_work env (xe.set_ss { xe.ss with work_pending := false })

/-- Modelled from the spec: `flush_work` (not among the sources), join semantics: "must
wait for any in-flight deferred render to finish before servicing".  In this sequential
model a pending work item is run to completion. -/
def flush_work (env : Env) (xe : xe_device) : Option xe_device :=
  let xe := xe.call .flush_work
  if xe.ss.work_pending then process_one_work env xe else some xe

/-- Modelled from the spec: `cancel_work_sync` (not among the sources): "cancels/waits
out any in-flight render".  In this sequential model a pending work item is dropped. -/
def cancel_work_sync (xe : xe_device) : xe_device :=
  let xe := xe.call .cancel_work_sync
  xe.set_ss { xe.ss with work_pending := false }

/-- What `xe_devcoredump_read` hands back: its return value, the caller's destination
buffer, and the device behind `data`. -/
structure read_result where
  ret : Int
  buffer : Text
  data : Option xe_device
deriving DecidableEq, Repr

/-- The read callback `xe_devcoredump_read(buffer, offset, count, data, datalen)`, for
`offset ≥ 0` (`datalen` is not used by the code).
`none` when the flushed worker dereferences `NULL`. -/
def xe_devcoredump_read (env : Env) (buffer : Text) (offset : Nat) (count : Nat)
    (data : Option xe_device) : Option read_result :=
  match data with
  | none => some { ret := -ENODEV, buffer := buffer, data := none }
  | some xe =>
    match flush_work env xe with
    | none => none
    | some xe =>
      match xe.ss.read_buffer with
      | none => some { ret := -ENODEV, buffer := buffer, data := some xe }
      | some rb =>
        if offset ≥ xe.ss.read_size then
          some { ret := 0, buffer := buffer, data := some xe }
        else
          let byte_copied :=
            if count < xe.ss.read_size - offset then count else xe.ss.read_size - offset
          some { ret := (byte_copied : Int)
                 buffer := memcpy buffer 0 ((rb.drop offset).take byte_copied)
                 data := some xe }

/-- The delete callback `xe_devcoredump_free(data)`.  `coredump_to_xe` is a `container_of`, never `NULL`
for a non-`NULL` `data`. -/
def xe_devcoredump_free (env : Env) (data : Option xe_device) : Option xe_device :=
  match data with
  | none => none
  | some xe =>
    let xe := cancel_work_sync xe
    let xe := xe_devcoredump_snapshot_free env xe
    let xe := xe.call (.kvfree xe.ss.read_buffer)
    let xe := xe.set_ss (snapshot_zero env)
    let xe := xe.set_captured false
    some (xe.call (.drm_info "Xe device coredump has been deleted.\n"))

/-- Modelled from the spec: `strscpy(dst, src)` into a `char[size]` (not among the
sources): "bounded string"; at most `size - 1` characters are kept. -/
def strscpy (size : Nat) (src : Text) : Text :=
  src.take (size - 1)

/-- The mask expansion loop of `devcoredump_snapshot`:
`for (i = 0; q->width > 1 && i < XE_HW_ENGINE_MAX_INSTANCE;)`.  Returns the final
`(i, adj_logical_mask)`; `fuel` bounds the number of iterations. -/
def expand_mask_loop (width width_mask max_instance : Nat) : Nat → Nat → Nat → Nat × Nat
  | 0, i, adj => (i, adj)
  | fuel + 1, i, adj =>
    if width > 1 ∧ i < max_instance then
      if adj &&& BIT i ≠ 0 then
        expand_mask_loop width width_mask max_instance fuel (i + width)
          (u32 (adj ||| (width_mask <<< i)))
      else
        expand_mask_loop width width_mask max_instance fuel (i + 1) adj
    else (i, adj)

/-- The adjusted logical engine mask computed by `devcoredump_snapshot`:
`adj_logical_mask = q->logical_mask; width_mask = (0x1 << q->width) - 1;` then the loop.
Every iteration advances `i`, so `XE_HW_ENGINE_MAX_INSTANCE` iterations are enough.
Both masks are `u32`.  For `q->width ≥ 32` the C shift is undefined; this total
function then takes the exact value truncated to 32 bits, and `adj_logical_mask_strict`
below gives no value there. -/
def adj_logical_mask (env : Env) (q : xe_exec_queue) : Nat :=
  let adj := u32 q.logical_mask
  let width_mask := u32 ((1 <<< q.width) - 1)
  (expand_mask_loop q.width width_mask env.XE_HW_ENGINE_MAX_INSTANCE
    env.XE_HW_ENGINE_MAX_INSTANCE 0 adj).2

/-- The C expression `(0x1 << q->width) - 1` that initialises the `u32 width_mask`:
`0x1` is a 32-bit `int`, and C gives the shift a value only for a count below the width
of the type, so there is none when `q->width` is 32 or more. -/
def width_mask (width : Nat) : Option Nat :=
  if width < 32 then some (u32 ((1 <<< width) - 1)) else none

/-- The adjusted logical engine mask of `devcoredump_snapshot` with the undefined shift
made explicit: `none` when `width_mask` has no value, else the result of the loop. -/
def adj_logical_mask_strict (env : Env) (q : xe_exec_queue) : Option Nat :=
  match width_mask q.width with
  | none => none
  | some wm =>
    some (expand_mask_loop q.width wm env.XE_HW_ENGINE_MAX_INSTANCE
      env.XE_HW_ENGINE_MAX_INSTANCE 0 (u32 q.logical_mask)).2

/-- The positions `i` at which the mask expansion loop of `devcoredump_snapshot` takes
the branch `adj_logical_mask |= width_mask << i; i += q->width;`, in the order of the
scan; the traversal is that of `expand_mask_loop`. -/
def expand_mask_hits (width width_mask max_instance : Nat) : Nat → Nat → Nat → List Nat
  | 0, _, _ => []
  | fuel + 1, i, adj =>
    if width > 1 ∧ i < max_instance then
      if adj &&& BIT i ≠ 0 then
        i :: expand_mask_hits width width_mask max_instance fuel (i + width)
          (u32 (adj ||| (width_mask <<< i)))
      else
        expand_mask_hits width width_mask max_instance fuel (i + 1) adj
    else []

/-- The positions at which `devcoredump_snapshot` widens the mask of the queue `q`. -/
def widened_at (env : Env) (q : xe_exec_queue) : List Nat :=
  expand_mask_hits q.width (u32 ((1 <<< q.width) - 1)) env.XE_HW_ENGINE_MAX_INSTANCE
    env.XE_HW_ENGINE_MAX_INSTANCE 0 (u32 q.logical_mask)

/-- One iteration of `for_each_hw_engine(hwe, q->gt, id)` in `devcoredump_snapshot`;
an engine that is not valid is skipped. -/
def snapshot_hwe_step (env : Env) (q : xe_exec_queue) (adj : Nat)
    (ss : xe_devcoredump_snapshot) (id : Nat) : xe_devcoredump_snapshot :=
  match q.gt.hw_engines[id]? with
  | some (some hwe) =>
    if hwe.hwe_class ≠ q.hwe.hwe_class ∨ BIT hwe.logical_instance &&& adj = 0 then
      { ss with hwe := ss.hwe.set id none }
    else
      { ss with hwe := ss.hwe.set id (env.xe_hw_engine_snapshot_capture hwe) }
  | _ => ss

/-- The function `devcoredump_snapshot(coredump, job)`: the fast phase of the capture. -/
def devcoredump_snapshot (env : Env) (xe : xe_device) (job : xe_sched_job) : xe_device :=
  let q := job.q
  let process_name : Text := "no process".toList
  let xe := xe.set_ss { xe.ss with snapshot_time := env.ktime_get_real }
  let xe := xe.set_ss { xe.ss with boot_time := env.ktime_get_boottime }
  let process_name :=
    match q.vm with
    | some vm =>
      match vm.xef with
      | some xef => xef.process_name
      | none => process_name
    | none => process_name
  let xe := xe.set_ss { xe.ss with process_name := strscpy env.TASK_COMM_LEN process_name }
  let xe := xe.set_ss { xe.ss with gt := some q.gt }
  let xe := xe.call .INIT_WORK
  let xe := xe.set_ss { xe.ss with work_pending := false }
  let xe := xe.call .dma_fence_begin_signalling
  let adj := adj_logical_mask env q
  let fw_ref := env.xe_force_wake_get q.gt
  let xe := xe.call .xe_force_wake_get
  let xe := xe.set_ss
    { xe.ss with ct := env.xe_guc_ct_snapshot_capture q.gt.guc_ct true }
  let xe := xe.set_ss { xe.ss with ge := env.xe_guc_exec_queue_snapshot_capture q }
  let xe := xe.set_ss { xe.ss with job := env.xe_sched_job_snapshot_capture job }
  let xe := xe.set_ss { xe.ss with vm := env.xe_vm_snapshot_capture q.vm }
  let xe := xe.set_ss
    ((List.range env.XE_NUM_HW_ENGINES).foldl (snapshot_hwe_step env q adj) xe.ss)
  let xe := xe.call .queue_work
  let xe := xe.set_ss { xe.ss with work_pending := true }
  let xe := xe.call (.xe_force_wake_put fw_ref)
  xe.call .dma_fence_end_signalling

/-- The states of the device inside `devcoredump_snapshot`, from entry to return,
oldest first, one after each statement (the engine loop counts as one). -/
def devcoredump_snapshot_trace (env : Env) (xe : xe_device) (job : xe_sched_job) :
    List xe_device :=
  let q := job.q
  let process_name : Text := "no process".toList
  let x1 := xe.set_ss { xe.ss with snapshot_time := env.ktime_get_real }
  let x2 := x1.set_ss { x1.ss with boot_time := env.ktime_get_boottime }
  let process_name :=
    match q.vm with
    | some vm =>
      match vm.xef with
      | some xef => xef.process_name
      | none => process_name
    | none => process_name
  let x3 := x2.set_ss { x2.ss with process_name := strscpy env.TASK_COMM_LEN process_name }
  let x4 := x3.set_ss { x3.ss with gt := some q.gt }
  let x5 := (x4.call .INIT_WORK).set_ss { x4.ss with work_pending := false }
  let x6 := x5.call .dma_fence_begin_signalling
  let adj := adj_logical_mask env q
  let fw_ref := env.xe_force_wake_get q.gt
  let x7 := x6.call .xe_force_wake_get
  let x8 := x7.set_ss { x7.ss with ct := env.xe_guc_ct_snapshot_capture q.gt.guc_ct true }
  let x9 := x8.set_ss { x8.ss with ge := env.xe_guc_exec_queue_snapshot_capture q }
  let x10 := x9.set_ss { x9.ss with job := env.xe_sched_job_snapshot_capture job }
  let x11 := x10.set_ss { x10.ss with vm := env.xe_vm_snapshot_capture q.vm }
  let x12 := x11.set_ss
    ((List.range env.XE_NUM_HW_ENGINES).foldl (snapshot_hwe_step env q adj) x11.ss)
  let x13 := (x12.call .queue_work).set_ss { x12.ss with work_pending := true }
  let x14 := x13.call (.xe_force_wake_put fw_ref)
  let x15 := x14.call .dma_fence_end_signalling
  [xe, x1, x2, x3, x4, x5, x6, x7, x8, x9, x10, x11, x12, x13, x14, x15]

/-- The places at which `xe_devcoredump_trace` records the device: on entry, after the
`drm_dbg` of the duplicate path, after `coredump->captured = true`, inside the call of
`devcoredump_snapshot`, and after each of the two `drm_info`. -/
inductive xe_devcoredump_point where
  | entry
  | logged_duplicate
  | latched
  | inside_snapshot
  | logged_created
  | logged_path
deriving DecidableEq, Repr

/-- The body of `xe_devcoredump(job)`, statement by statement: the states of the device
from entry to return, oldest first, each with the place it was recorded at.  The states
inside the call `devcoredump_snapshot(coredump, job)` are those of
`devcoredump_snapshot_trace`, from its entry state to the one it returns. -/
def xe_devcoredump_trace (env : Env) (xe : xe_device) (job : xe_sched_job) :
    List (xe_devcoredump_point × xe_device) :=
  if xe.devcoredump.captured then
    [(.entry, xe),
     (.logged_duplicate, xe.call (.drm_dbg
        "Multiple hangs are occurring, but only the first snapshot was taken\n"))]
  else
    let x1 := xe.set_captured true
    let x2 := devcoredump_snapshot env x1 job
    let x3 := x2.call (.drm_info "Xe device coredump has been created\n")
    let x4 := x3.call
      (.drm_info_card "Check your /sys/class/drm/card%d/device/devcoredump/data\n"
        x3.primary_index)
    [(.entry, xe), (.latched, x1)]
      ++ (devcoredump_snapshot_trace env x1 job).map (fun s => (.inside_snapshot, s))
      ++ [(.logged_created, x3), (.logged_path, x4)]

/-- The entry point `xe_devcoredump(job)`: take the snapshot of the first failure, ignore
later ones.  The state it returns is the last one of `xe_devcoredump_trace`. -/
def xe_devcoredump (env : Env) (xe : xe_device) (job : xe_sched_job) : xe_device :=
  match (xe_devcoredump_trace env xe job).getLast? with
  | some (_, s) => s
  | none => xe

/-- The calls `xe_hw_engine_snapshot_free(ss->hwe[i])` made for a range of slots: one
per populated slot, in slot order. -/
def hwe_free_calls (l : List (Option xe_hw_engine_snapshot)) : List Call :=
  l.filterMap fun o => o.map Call.xe_hw_engine_snapshot_free

/-- The state of the coredump printer created over `buffer` with room for `count`
bytes, after the text `t` has been printed to it. -/
def sink_after (buffer : Option Text) (count : Nat) (t : Text) : drm_print_iterator :=
  { data := buffer.map fun d => memcpy d 0 (t.take count)
    start := 0
    remain := count - min t.length count
    offset := min t.length count }

/-- The text of the populated engine slots, in slot order. -/
def engines_text (env : Env) : List (Option xe_hw_engine_snapshot) → Text
  | [] => []
  | none :: l => engines_text env l
  | some h :: l => env.xe_hw_engine_snapshot_print h ++ engines_text env l

/-- The complete report of an aggregate, following the report format: the banners and
sections in their fixed order, the engine section holding the populated slots among
the first `XE_NUM_HW_ENGINES`, in slot order. -/
def coredump_text (env : Env) (ss : xe_devcoredump_snapshot) (gt : xe_gt) : Text :=
  "**** Xe Device Coredump ****\n".toList
  ++ ("kernel: ".toList ++ env.UTS_RELEASE ++ "\n".toList)
  ++ ("module: ".toList ++ env.KBUILD_MODNAME ++ "\n".toList)
  ++ ("Snapshot time: ".toList ++ fmt_lld (ktime_to_timespec64 ss.snapshot_time).tv_sec
      ++ ".".toList ++ fmt_09ld (ktime_to_timespec64 ss.snapshot_time).tv_nsec ++ "\n".toList)
  ++ ("Uptime: ".toList ++ fmt_lld (ktime_to_timespec64 ss.boot_time).tv_sec
      ++ ".".toList ++ fmt_09ld (ktime_to_timespec64 ss.boot_time).tv_nsec ++ "\n".toList)
  ++ ("Process: ".toList ++ ss.process_name ++ "\n".toList)
  ++ env.xe_device_snapshot_print
  ++ ("\n**** GT #".toList ++ fmt_lld gt.info_id ++ " ****\n".toList)
  ++ ("\tTile: ".toList ++ fmt_lld gt.tile_id ++ "\n".toList)
  ++ "\n**** GuC CT ****\n".toList
  ++ env.xe_guc_ct_snapshot_print ss.ct
  ++ "\n**** Contexts ****\n".toList
  ++ env.xe_guc_exec_queue_snapshot_print ss.ge
  ++ "\n**** Job ****\n".toList
  ++ env.xe_sched_job_snapshot_print ss.job
  ++ "\n**** HW Engines ****\n".toList
  ++ engines_text env (ss.hwe.take env.XE_NUM_HW_ENGINES)
  ++ "\n**** VM state ****\n".toList
  ++ env.xe_vm_snapshot_print ss.vm

/-- The calls into collaborators made by `xe_devcoredump_snapshot_free` on an
aggregate. -/
def snapshot_free_calls (env : Env) (ss : xe_devcoredump_snapshot) : List Call :=
  [.xe_guc_ct_snapshot_free ss.ct, .xe_guc_exec_queue_snapshot_free ss.ge,
    .xe_sched_job_snapshot_free ss.job]
  ++ hwe_free_calls (ss.hwe.take env.XE_NUM_HW_ENGINES)
  ++ [.xe_vm_snapshot_free ss.vm]

/-- The aggregate left by `xe_devcoredump_snapshot_free`. -/
def snapshot_freed (env : Env) (ss : xe_devcoredump_snapshot) : xe_devcoredump_snapshot :=
  { ss with
    ct := none
    ge := none
    job := none
    hwe := List.replicate (min env.XE_NUM_HW_ENGINES ss.hwe.length) none
      ++ ss.hwe.drop env.XE_NUM_HW_ENGINES
    vm := none }

/-- The aggregate after the enrichment step of the worker
(`xe_vm_snapshot_capture_delayed`, `xe_guc_exec_queue_snapshot_capture_delayed`), which
updates the VM and queue snapshots in place. -/
def snapshot_enriched (env : Env) (ss : xe_devcoredump_snapshot) : xe_devcoredump_snapshot :=
  { ss with
    vm := ss.vm.map env.xe_vm_snapshot_capture_delayed
    ge := ss.ge.map env.xe_guc_exec_queue_snapshot_capture_delayed }

/-- The calls the worker makes up to and including the allocation of `size` bytes. -/
def snap_work_calls (env : Env) (gt : xe_gt) (size : Nat) : List Call :=
  [.dev_coredumpm_timeout, .xe_pm_runtime_get, .xe_force_wake_get]
  ++ (if !env.xe_force_wake_ref_has_domain (env.xe_force_wake_get gt) then
        [.xe_gt_info "failed to get forcewake for coredump capture\n"] else [])
  ++ [.xe_force_wake_put (env.xe_force_wake_get gt), .xe_pm_runtime_put, .kvmalloc size]

/-- The report the worker renders: the text of the enriched aggregate. -/
def report_text (env : Env) (ss : xe_devcoredump_snapshot) (gt : xe_gt) : Text :=
  coredump_text env (snapshot_enriched env ss) gt

/-- The size the worker computes for the report: the size-only pass is given room for
`INT_MAX` bytes. -/
def report_size (env : Env) (ss : xe_devcoredump_snapshot) (gt : xe_gt) : Nat :=
  min (report_text env ss gt).length INT_MAX

/-- The worker up to `xe_pm_runtime_put`: registration, runtime PM, forcewake, delayed
captures. -/
def snap_work_enrich (env : Env) (gt : xe_gt) (xe : xe_device) : xe_device :=
  let xe := xe.call .dev_coredumpm_timeout
  let xe := xe.call .xe_pm_runtime_get
  let fw_ref := env.xe_force_wake_get gt
  let xe := xe.call .xe_force_wake_get
  let xe := xe.add_calls (if !env.xe_force_wake_ref_has_domain fw_ref then
      [.xe_gt_info "failed to get forcewake for coredump capture\n"] else [])
  let xe := xe.set_ss { xe.ss with vm := xe.ss.vm.map env.xe_vm_snapshot_capture_delayed }
  let xe := xe.set_ss
    { xe.ss with ge := xe.ss.ge.map env.xe_guc_exec_queue_snapshot_capture_delayed }
  let xe := xe.call (.xe_force_wake_put fw_ref)
  xe.call .xe_pm_runtime_put

/-- The worker after a successful allocation: the second pass and the release. -/
def snap_work_second_pass (env : Env) (xe : xe_device) (fresh : Nat → Char) :
    Option xe_device :=
  let xe := xe.set_ss
    { xe.ss with read_buffer := some ((List.range xe.ss.read_size).map fresh) }
  match __xe_devcoredump_read env xe.ss.read_buffer xe.ss.read_size xe with
  | none => none
  | some (_, buf) =>
    let xe := xe.set_ss { xe.ss with read_buffer := buf }
    some (xe_devcoredump_snapshot_free env xe)

/-- The worker from the assignment of `read.size` on. -/
def snap_work_alloc (env : Env) (xe : xe_device) (size : Nat) : Option xe_device :=
  let xe := xe.set_ss { xe.ss with read_size := size }
  let xe := xe.call (.kvmalloc xe.ss.read_size)
  match env.kvmalloc xe.ss.read_size with
  | none => some (xe.set_ss { xe.ss with read_buffer := none })
  | some fresh => snap_work_second_pass env xe fresh

/-! ## A concrete device, used to exercise the model -/

/-- A concrete environment: the constants of the xe driver, deterministic providers,
an allocator that always succeeds. -/
def env0 : Env :=
  { XE_NUM_HW_ENGINES := 26
    XE_HW_ENGINE_MAX_INSTANCE := 9
    TASK_COMM_LEN := 16
    UTS_RELEASE := "6.12.0".toList
    KBUILD_MODNAME := "xe".toList
    ktime_get_real := 1700000000123456789
    ktime_get_boottime := 5000000042
    xe_force_wake_get := fun _ => 1
    xe_force_wake_ref_has_domain := fun r => r == 1
    xe_guc_ct_snapshot_capture := fun ct _ => some ⟨ct.live⟩
    xe_guc_exec_queue_snapshot_capture := fun q => some ⟨q.live⟩
    xe_sched_job_snapshot_capture := fun j => some ⟨j.live⟩
    xe_vm_snapshot_capture := fun vm => vm.map fun v => ⟨v.live⟩
    xe_hw_engine_snapshot_capture := fun h => some ⟨h.live⟩
    xe_vm_snapshot_capture_delayed := fun s => ⟨s.token + 1⟩
    xe_guc_exec_queue_snapshot_capture_delayed := fun s => ⟨s.token + 1⟩
    xe_device_snapshot_print := "GT id: 0\n".toList
    xe_guc_ct_snapshot_print := fun o =>
      match o with
      | none => []
      | some s => "ct ".toList ++ Nat.toDigits 10 s.token ++ "\n".toList
    xe_guc_exec_queue_snapshot_print := fun o =>
      match o with
      | none => []
      | some s => "ge ".toList ++ Nat.toDigits 10 s.token ++ "\n".toList
    xe_sched_job_snapshot_print := fun o =>
      match o with
      | none => []
      | some s => "job ".toList ++ Nat.toDigits 10 s.token ++ "\n".toList
    xe_hw_engine_snapshot_print := fun s =>
      "hwe ".toList ++ Nat.toDigits 10 s.token ++ "\n".toList
    xe_vm_snapshot_print := fun o =>
      match o with
      | none => []
      | some s => "vm ".toList ++ Nat.toDigits 10 s.token ++ "\n".toList
    kvmalloc := fun _ => some fun _ => '?' }

/-- The environment `env0` with an allocator that always fails. -/
def env0_nomem : Env := { env0 with kvmalloc := fun _ => none }

/-- A GT with four valid engines in slots 0..3: one of class 0, three of class 2 with
logical instances 0, 1, 2; the other slots are not valid. -/
def gt0 : xe_gt :=
  { info_id := 0
    tile_id := 0
    guc_ct := ⟨7⟩
    hw_engines :=
      [some ⟨0, 0, 100⟩, some ⟨2, 0, 110⟩, some ⟨2, 1, 111⟩, some ⟨2, 2, 112⟩]
      ++ List.replicate 22 none }

/-- A width-2 queue of class 2 placed on logical instance 0, with a VM owned by the
process "glxgears". -/
def q0 : xe_exec_queue :=
  { gt := gt0
    hwe := ⟨2, 0, 110⟩
    vm := some { xef := some ⟨"glxgears".toList⟩, live := 5 }
    logical_mask := 1
    width := 2
    live := 3 }

/-- A faulty job on `q0`. -/
def job0 : xe_sched_job := { q := q0, live := 9 }

/-- A second faulty job, on a width-1 queue without a VM. -/
def job1 : xe_sched_job :=
  { q := { gt := gt0, hwe := ⟨0, 0, 100⟩, vm := none, logical_mask := 1, width := 1, live := 4 }
    live := 10 }

/-- A pristine device: latch clear, aggregate zeroed, no call made yet. -/
def xe0 : xe_device :=
  { devcoredump := { captured := false, snapshot := snapshot_zero env0 }
    primary_index := 0
    calls := [] }

/-- The process name `devcoredump_snapshot` resolves for a queue, before `strscpy`. -/
def resolved_process_name (q : xe_exec_queue) : Text :=
  match q.vm with
  | some vm =>
    match vm.xef with
    | some xef => xef.process_name
    | none => "no process".toList
  | none => "no process".toList

/-- One iteration of the engine loop of `devcoredump_snapshot`, on the slot array. -/
def hwe_capture_step (env : Env) (q : xe_exec_queue) (adj : Nat)
    (hwe : List (Option xe_hw_engine_snapshot)) (id : Nat) :
    List (Option xe_hw_engine_snapshot) :=
  match q.gt.hw_engines[id]? with
  | some (some e) =>
    if e.hwe_class ≠ q.hwe.hwe_class ∨ BIT e.logical_instance &&& adj = 0 then
      hwe.set id none
    else
      hwe.set id (env.xe_hw_engine_snapshot_capture e)
  | _ => hwe

/-- The slot array after the engine loop of `devcoredump_snapshot`. -/
def captured_hwe (env : Env) (q : xe_exec_queue)
    (hwe : List (Option xe_hw_engine_snapshot)) : List (Option xe_hw_engine_snapshot) :=
  (List.range env.XE_NUM_HW_ENGINES).foldl (hwe_capture_step env q (adj_logical_mask env q)) hwe

/-- The aggregate `devcoredump_snapshot` builds for a job over a previous aggregate. -/
def snapshot_captured (env : Env) (ss : xe_devcoredump_snapshot) (job : xe_sched_job) :
    xe_devcoredump_snapshot :=
  { ss with
    snapshot_time := env.ktime_get_real
    boot_time := env.ktime_get_boottime
    process_name := strscpy env.TASK_COMM_LEN (resolved_process_name job.q)
    gt := some job.q.gt
    work_pending := true
    ct := env.xe_guc_ct_snapshot_capture job.q.gt.guc_ct true
    ge := env.xe_guc_exec_queue_snapshot_capture job.q
    job := env.xe_sched_job_snapshot_capture job
    vm := env.xe_vm_snapshot_capture job.q.vm
    hwe := captured_hwe env job.q ss.hwe }

/-- The calls into collaborators made by `devcoredump_snapshot`. -/
def snapshot_calls (env : Env) (job : xe_sched_job) : List Call :=
  [.INIT_WORK, .dma_fence_begin_signalling, .xe_force_wake_get, .queue_work,
    .xe_force_wake_put (env.xe_force_wake_get job.q.gt), .dma_fence_end_signalling]

/-- An operation on the device other than the deletion of its report: a fault
(`xe_devcoredump`), the work queue running the queued worker, or a read. -/
inductive Op where
  | fault (env : Env) (job : xe_sched_job)
  | work (env : Env)
  | read (env : Env) (buffer : Text) (offset : Nat) (count : Nat)

/-- Run one operation; `none` when it dereferences `NULL`. -/
def run_op (xe : xe_device) : Op → Option xe_device
  | .fault env job => some (xe_devcoredump env xe job)
  | .work env => if xe.ss.work_pending then process_one_work env xe else some xe
  | .read env buffer offset count =>
    match xe_devcoredump_read env buffer offset count (some xe) with
    | none => none
    | some r => r.data

/-- Run a sequence of operations in order. -/
def run_ops : xe_device → List Op → Option xe_device
  | xe, [] => some xe
  | xe, op :: ops =>
    match run_op xe op with
    | none => none
    | some xe => run_ops xe ops

/-- How many times work has been queued so far. -/
def queued (xe : xe_device) : Nat := xe.calls.count .queue_work

/-- The state of a device with an outstanding report: latch set, GT recorded. -/
def outstanding (xe : xe_device) : Prop :=
  xe.devcoredump.captured = true ∧ ∃ gt, xe.ss.gt = some gt

/-- A device whose deferred render has completed with the five-byte report "hello":
the rendered buffer is present, no work is pending. -/
def xe_ready : xe_device :=
  { devcoredump :=
      { captured := true
        snapshot := { snapshot_zero env0 with
          gt := some gt0, read_size := 5, read_buffer := some "hello".toList } }
    primary_index := 0
    calls := [] }

/-- Whether a call hands an object to its provider (or the rendered buffer to the
allocator) for release; a call with a `NULL` argument releases nothing. -/
def releases_object : Call → Bool
  | .kvfree (some _) => true
  | .xe_guc_ct_snapshot_free (some _) => true
  | .xe_guc_exec_queue_snapshot_free (some _) => true
  | .xe_sched_job_snapshot_free (some _) => true
  | .xe_hw_engine_snapshot_free _ => true
  | .xe_vm_snapshot_free (some _) => true
  | _ => false

/-- The releases made so far, in order. -/
def released (xe : xe_device) : List Call := xe.calls.filter releases_object

/-- The state of a device whose render has failed: latch set, no work pending, no
rendered buffer. -/
def render_failed (xe : xe_device) : Prop :=
  xe.devcoredump.captured = true ∧ xe.ss.work_pending = false ∧ xe.ss.read_buffer = none

/-- The release call for an optional snapshot: none for an empty slot. -/
def opt_release {α : Type} (f : Option α → Call) (o : Option α) : List Call :=
  match o with
  | none => []
  | some a => [f (some a)]

/-- One release per populated slot of an aggregate, in the order in which
`xe_devcoredump_snapshot_free` visits the slots. -/
def slot_releases (env : Env) (ss : xe_devcoredump_snapshot) : List Call :=
  opt_release .xe_guc_ct_snapshot_free ss.ct
  ++ opt_release .xe_guc_exec_queue_snapshot_free ss.ge
  ++ opt_release .xe_sched_job_snapshot_free ss.job
  ++ hwe_free_calls (ss.hwe.take env.XE_NUM_HW_ENGINES)
  ++ opt_release .xe_vm_snapshot_free ss.vm

/-- The environment `env0` with a VM provider whose dump prints 2^31 bytes (the
memory contents of a large address space). -/
def env_big : Env :=
  { env0 with xe_vm_snapshot_print := fun _ => List.replicate 2147483648 'x' }

/-- A captured device whose worker has not run yet: latch set, GT recorded, a VM
snapshot present. -/
def xe_captured : xe_device :=
  { devcoredump :=
      { captured := true
        snapshot := { snapshot_zero env0 with gt := some gt0, vm := some ⟨1⟩ } }
    primary_index := 0
    calls := [] }

/-- A faulty job on a queue whose VM is owned by a process with a 20-character name. -/
def job_long_name : xe_sched_job :=
  { q := { q0 with vm := some { xef := some ⟨"a_rather_long_name_x".toList⟩, live := 5 } }
    live := 11 }

/-! ## The report format -/

/-- Concatenation of a list of texts, in order. -/
def concat_text : List Text → Text
  | [] => []
  | t :: ts => t ++ concat_text ts

/-- The populated slots among the first `n` engine slots, each with its engine id, in
increasing id order. -/
def populated_engines (hwe : List (Option xe_hw_engine_snapshot)) (n : Nat) :
    List (Nat × xe_hw_engine_snapshot) :=
  (List.range n).filterMap fun i =>
    match hwe[i]? with
    | some (some h) => some (i, h)
    | _ => none

/-- Report format, header section: the coredump banner, the kernel, module, snapshot
time, uptime and process lines, then the device-wide state. -/
def format_header (env : Env) (ss : xe_devcoredump_snapshot) : Text :=
  "**** Xe Device Coredump ****\n".toList
  ++ ("kernel: ".toList ++ env.UTS_RELEASE ++ "\n".toList)
  ++ ("module: ".toList ++ env.KBUILD_MODNAME ++ "\n".toList)
  ++ ("Snapshot time: ".toList ++ fmt_lld (ktime_to_timespec64 ss.snapshot_time).tv_sec
      ++ ".".toList ++ fmt_09ld (ktime_to_timespec64 ss.snapshot_time).tv_nsec ++ "\n".toList)
  ++ ("Uptime: ".toList ++ fmt_lld (ktime_to_timespec64 ss.boot_time).tv_sec
      ++ ".".toList ++ fmt_09ld (ktime_to_timespec64 ss.boot_time).tv_nsec ++ "\n".toList)
  ++ ("Process: ".toList ++ ss.process_name ++ "\n".toList)
  ++ env.xe_device_snapshot_print

/-- Report format, GT section: the GT banner and the Tile line. -/
def format_gt (gt : xe_gt) : Text :=
  ("\n**** GT #".toList ++ fmt_lld gt.info_id ++ " ****\n".toList)
  ++ ("\tTile: ".toList ++ fmt_lld gt.tile_id ++ "\n".toList)

/-- Report format, channel section: the GuC CT banner and the channel transcript. -/
def format_channel (env : Env) (ss : xe_devcoredump_snapshot) : Text :=
  "\n**** GuC CT ****\n".toList ++ env.xe_guc_ct_snapshot_print ss.ct

/-- Report format, contexts section: the Contexts banner and the queue state. -/
def format_contexts (env : Env) (ss : xe_devcoredump_snapshot) : Text :=
  "\n**** Contexts ****\n".toList ++ env.xe_guc_exec_queue_snapshot_print ss.ge

/-- Report format, job section: the Job banner and the job state. -/
def format_job (env : Env) (ss : xe_devcoredump_snapshot) : Text :=
  "\n**** Job ****\n".toList ++ env.xe_sched_job_snapshot_print ss.job

/-- Report format, engine section: the HW Engines banner, then the print of each
populated engine slot, in increasing engine-id order. -/
def format_engines (env : Env) (ss : xe_devcoredump_snapshot) : Text :=
  "\n**** HW Engines ****\n".toList
  ++ concat_text ((populated_engines ss.hwe env.XE_NUM_HW_ENGINES).map fun p =>
      env.xe_hw_engine_snapshot_print p.2)

/-- Report format, VM section: the VM state banner and the address-space state. -/
def format_vm (env : Env) (ss : xe_devcoredump_snapshot) : Text :=
  "\n**** VM state ****\n".toList ++ env.xe_vm_snapshot_print ss.vm

/-- The report format: the seven sections in their fixed order. -/
def report_format (env : Env) (ss : xe_devcoredump_snapshot) (gt : xe_gt) : Text :=
  format_header env ss ++ format_gt gt ++ format_channel env ss ++ format_contexts env ss
  ++ format_job env ss ++ format_engines env ss ++ format_vm env ss

/-! ## The ASCII85 blob printer -/

/-- What `xe_print_blob_ascii85` takes from outside this file: the output buffer size
and the one-word encoder of `linux/ascii85.h`, and whether `kzalloc` of a given number
of bytes succeeds. -/
structure BlobEnv where
  ASCII85_BUFSZ : Nat
  ascii85_encode : Nat → Text
  kzalloc : Nat → Bool

/-- The line length limit `#define DMESG_MAX_LINE_LEN 800`. -/
def DMESG_MAX_LINE_LEN : Nat := 800

/-- The reserve `#define MIN_SPACE (ASCII85_BUFSZ + 2)`. -/
def MIN_SPACE (a : BlobEnv) : Nat := a.ASCII85_BUFSZ + 2

/-- The zero character, the value of a `char` that tests false. -/
def NUL : Char := Char.ofNat 0

/-- A call made on the printer `p` by `xe_print_blob_ascii85`: a `drm_printf` of a
format with one `%zu` argument, the `drm_printf` of the `%pe` format with the failed
pointer, or a `drm_puts` of a string. -/
inductive Emit where
  | drm_printf (format : String) (arg : Nat)
  | drm_printf_pe (format : String)
  | drm_puts (str : Text)
  deriving DecidableEq, Repr

/-- The state of a run of `xe_print_blob_ascii85`: `line_buff` holds the bytes
`line_buff[0 .. line_pos)`, `out` the calls made on the printer, `reads` the word
indices of `blob` that were dereferenced, `stores` the indices of `line_buff` written
by a direct assignment `line_buff[line_pos++] = c`; each list is oldest first. -/
structure blob_printer where
  line_buff : Text
  out : List Emit
  reads : List Nat
  stores : List Nat
  deriving DecidableEq, Repr

/-- One iteration of `while (size--)` in `xe_print_blob_ascii85`, reading the word of
index `idx`: the encoding is copied behind the line with `strscpy` bounded by the room
left, and a line that has come within `MIN_SPACE` of the limit is terminated, printed
and restarted (`cond_resched` does nothing to the printer). -/
def blob_word (a : BlobEnv) (blob : Nat → Nat) (st : blob_printer) (idx : Nat) :
    blob_printer :=
  let val := blob idx
  let line := st.line_buff
    ++ strscpy (DMESG_MAX_LINE_LEN - st.line_buff.length) (a.ascii85_encode val)
  if line.length + MIN_SPACE a ≥ DMESG_MAX_LINE_LEN then
    { line_buff := []
      out := st.out ++ [Emit.drm_puts line]
      reads := st.reads ++ [idx]
      stores := st.stores ++ [line.length] }
  else
    { st with line_buff := line, reads := st.reads ++ [idx] }

/-- The alignment diagnostics at the head of `xe_print_blob_ascii85`; both print `size`. -/
def blob_diagnostics (offset size : Nat) : List Emit :=
  (if size &&& 3 ≠ 0 then [Emit.drm_printf "Size not word aligned: %zu" size] else [])
  ++ (if offset &&& 3 ≠ 0 then [Emit.drm_printf "Offset not word aligned: %zu" size]
      else [])

/-- The state of `xe_print_blob_ascii85` when it enters the loop: the diagnostics are
out, and the line holds the `strscpy` of the prefix, if there is one, and `": "`. -/
def blob_begin (a : BlobEnv) (pfx : Option Text) (offset size : Nat) : blob_printer :=
  match pfx with
  | some p =>
    let l := strscpy (DMESG_MAX_LINE_LEN - MIN_SPACE a - 2) p
    { line_buff := l ++ [':', ' ']
      out := blob_diagnostics offset size
      reads := []
      stores := [l.length, l.length + 1] }
  | none =>
    { line_buff := [], out := blob_diagnostics offset size, reads := [], stores := [] }

/-- The loop `while (size--) { u32 val = *(blob32++); ... }` run for `n` words from
the word of index `base`. -/
def blob_loop (a : BlobEnv) (blob : Nat → Nat) (base n : Nat) (st : blob_printer) :
    blob_printer :=
  (List.range n).foldl (fun st k => blob_word a blob st (base + k)) st

/-- The tail of `xe_print_blob_ascii85` after the loop: the suffix, if it is not zero,
is stored behind the line, and a line that is not empty is terminated and printed. -/
def blob_finish (suffix : Char) (st : blob_printer) : blob_printer :=
  let st2 :=
    if suffix ≠ NUL then
      { st with line_buff := st.line_buff ++ [suffix]
                stores := st.stores ++ [st.line_buff.length] }
    else st
  if st2.line_buff.length ≠ 0 then
    { st2 with out := st2.out ++ [Emit.drm_puts st2.line_buff]
               stores := st2.stores ++ [st2.line_buff.length] }
  else st2

/-- The function `xe_print_blob_ascii85(p, prefix, suffix, blob, offset, size)`; `pfx`
is `none` for a null `prefix`, and `blob` gives the 32-bit word at each word index. -/
def xe_print_blob_ascii85 (a : BlobEnv) (pfx : Option Text) (suffix : Char)
    (blob : Nat → Nat) (offset size : Nat) : blob_printer :=
  if a.kzalloc DMESG_MAX_LINE_LEN = false then
    { line_buff := []
      out := blob_diagnostics offset size
        ++ [Emit.drm_printf_pe "Failed to allocate line buffer: %pe"]
      reads := []
      stores := [] }
  else
    blob_finish suffix
      (blob_loop a blob (offset / 4) (size / 4) (blob_begin a pfx offset size))

/-- The encodings of the `n` consecutive words from the word of index `base`, in order. -/
def blob_encodings (a : BlobEnv) (blob : Nat → Nat) (base n : Nat) : List Text :=
  (List.range n).map fun k => a.ascii85_encode (blob (base + k))

/-- What the prefix contributes to the output: the prefix and `": "`, or nothing. -/
def pfx_text (pfx : Option Text) : Text :=
  match pfx with
  | some p => p ++ [':', ' ']
  | none => []

/-- What the suffix contributes to the output: the character unless it is zero. -/
def suffix_text (suffix : Char) : Text :=
  if suffix ≠ NUL then [suffix] else []

/-- A sample one-word encoder within the five-character contract of a six-byte
buffer: `z` for zero, else five radix-85 digits from `!`, most significant first. -/
def sample_encode (v : Nat) : Text :=
  if v = 0 then ['z']
  else (List.range 5).reverse.map fun i => Char.ofNat (33 + v / 85 ^ i % 85)

/-- A sample environment of the blob printer: six-byte encoder buffer, allocations
succeed. -/
def blob_env0 : BlobEnv :=
  { ASCII85_BUFSZ := 6, ascii85_encode := sample_encode, kzalloc := fun _ => true }

/-- The sample environment with the allocator out of memory. -/
def blob_env_nomem : BlobEnv :=
  { blob_env0 with kzalloc := fun _ => false }

/-- A sample blob: the word of index `i` is `i`. -/
def blob0 (i : Nat) : Nat := i

/-! ## Statement boundaries of the worker -/

/-- The states of the device after each statement of the worker from
`dev_coredumpm_timeout` to `xe_pm_runtime_put`, oldest first; the last one is
`snap_work_enrich`. -/
def snap_work_enrich_trace (env : Env) (gt : xe_gt) (xe : xe_device) : List xe_device :=
  let x1 := xe.call .dev_coredumpm_timeout
  let x2 := x1.call .xe_pm_runtime_get
  let fw_ref := env.xe_force_wake_get gt
  let x3 := x2.call .xe_force_wake_get
  let x4 := x3.add_calls (if !env.xe_force_wake_ref_has_domain fw_ref then
      [.xe_gt_info "failed to get forcewake for coredump capture\n"] else [])
  let x5 := x4.set_ss { x4.ss with vm := x4.ss.vm.map env.xe_vm_snapshot_capture_delayed }
  let x6 := x5.set_ss
    { x5.ss with ge := x5.ss.ge.map env.xe_guc_exec_queue_snapshot_capture_delayed }
  let x7 := x6.call (.xe_force_wake_put fw_ref)
  let x8 := x7.call .xe_pm_runtime_put
  [x1, x2, x3, x4, x5, x6, x7, x8]

/-- The states of the device after `ss->read.buffer = kvmalloc(...)` has given a buffer,
after the second `__xe_devcoredump_read`, and after `xe_devcoredump_snapshot_free`;
`fresh` is the content of the new buffer. -/
def snap_work_second_pass_trace (env : Env) (xe : xe_device) (fresh : Nat → Char) :
    Option (List xe_device) :=
  let x11 := xe.set_ss
    { xe.ss with read_buffer := some ((List.range xe.ss.read_size).map fresh) }
  match __xe_devcoredump_read env x11.ss.read_buffer x11.ss.read_size x11 with
  | none => none
  | some (_, buf) =>
    let x12 := x11.set_ss { x11.ss with read_buffer := buf }
    some [x11, x12, xe_devcoredump_snapshot_free env x12]

/-- The states of the device after `ss->read.size = ...` and after each later
statement of the worker. -/
def snap_work_alloc_trace (env : Env) (xe : xe_device) (size : Nat) :
    Option (List xe_device) :=
  let x9 := xe.set_ss { xe.ss with read_size := size }
  let x10 := x9.call (.kvmalloc x9.ss.read_size)
  match env.kvmalloc x10.ss.read_size with
  | none => some [x9, x10.set_ss { x10.ss with read_buffer := none }]
  | some fresh => (snap_work_second_pass_trace env x10 fresh).map fun t => x9 :: t

/-- The states of the device at the statement boundaries of
`xe_devcoredump_deferred_snap_work`, from entry to return, oldest first: entry, the
statements up to `xe_pm_runtime_put`, after `ss->read.size = ...`, after
`ss->read.buffer = kvmalloc(...)`, and, when the buffer is not null, after the second
`__xe_devcoredump_read` and after `xe_devcoredump_snapshot_free`.  `none` when
`ss->gt` is `NULL`. -/
def snap_work_trace (env : Env) (xe : xe_device) : Option (List xe_device) :=
  match xe.ss.gt with
  | none => none
  | some gt =>
    match __xe_devcoredump_read env none INT_MAX (snap_work_enrich env gt xe) with
    | none => none
    | some (size, _) =>
      (snap_work_alloc_trace env (snap_work_enrich env gt xe) size).map fun t =>
        xe :: snap_work_enrich_trace env gt xe ++ t

/-- The environment `env0` with a forcewake acquisition that obtains no domain. -/
def env0_nofw : Env := { env0 with xe_force_wake_ref_has_domain := fun _ => false }

end Xe

namespace SimpleCard

/-! ## simple-card-utils.c: clocks at stream startup -/

/-- The error number `EINVAL`. -/
def EINVAL : Int := 22

/-- The error number `ENOMEM`. -/
def ENOMEM : Int := 12

/-- The fields of `struct simple_util_dai` read by `simple_util_startup`: the clock
`clk` (a handle, `0` for none), its rate `sysclk` and the flag `clk_fixed`. -/
structure simple_util_dai where
  clk : Nat
  sysclk : Nat
  clk_fixed : Bool
deriving DecidableEq, Repr

/-- The DAIs and the `mclk_fs` of one link, as `simple_util_startup` sees
`struct simple_dai_props`: `cpu_dai[0 .. num.cpus)` and `codec_dai[0 .. num.codecs)`,
the lists being empty where the pointer is null, so that `for_each_prop_dai_cpu` and
`for_each_prop_dai_codec` visit the list entries in order. -/
structure simple_dai_props where
  cpu_dai : List simple_util_dai
  codec_dai : List simple_util_dai
  mclk_fs : Nat
deriving DecidableEq, Repr

/-- A DAI of the link: the CPU DAI or the codec DAI of a given index. -/
inductive Dai where
  | cpu (i : Nat)
  | codec (i : Nat)
deriving DecidableEq, Repr

/-- What `simple_util_startup` does to the outside: `clk_prepare_enable` on the clock
of a DAI, with its return value; `clk_disable_unprepare` on the clock of a DAI; a
`dev_err` with its format and two arguments; `snd_pcm_hw_constraint_minmax` on the
rate. -/
inductive Ev where
  | clk_prepare_enable (d : Dai) (ret : Int)
  | clk_disable_unprepare (d : Dai)
  | dev_err (format : String) (a b : Nat)
  | snd_pcm_hw_constraint_minmax (min max : Nat)
deriving DecidableEq, Repr

/-- The collaborators of `simple_util_startup`: the return value of
`clk_prepare_enable` for the clock of a DAI, and of `snd_pcm_hw_constraint_minmax` for a
rate interval. -/
structure ClkEnv where
  clk_prepare_enable : simple_util_dai → Int
  snd_pcm_hw_constraint_minmax : Nat → Nat → Int

/-- The function `simple_check_fixed_sysclk(dev, dai, &fixed_sysclk)`: its return value,
the new `*fixed_sysclk` and what it logs. -/
def simple_check_fixed_sysclk (dai : simple_util_dai) (fixed_sysclk : Nat) :
    Int × Nat × List Ev :=
  if dai.clk_fixed then
    if fixed_sysclk ≠ 0 ∧ fixed_sysclk ≠ dai.sysclk then
      (-EINVAL, fixed_sysclk,
        [.dev_err "inconsistent fixed sysclk rates (%u vs %u)\n" fixed_sysclk dai.sysclk])
    else (0, dai.sysclk, [])
  else (0, fixed_sysclk, [])

/-- How one of the two enable loops of `simple_util_startup` is left: `ret`, the loop
index `i` (`i1` or `i2`), `fixed_sysclk`, and the log so far. -/
structure scan where
  ret : Int
  i : Nat
  fixed_sysclk : Nat
  log : List Ev
deriving DecidableEq, Repr

/-- One of the loops `for_each_prop_dai_cpu(props, i1, dai)` and
`for_each_prop_dai_codec(props, i2, dai)` of `simple_util_startup`, from index `i` on the
DAIs still to visit: `simple_clk_enable`, then `simple_check_fixed_sysclk`, leaving at
the first non-zero `ret`. -/
def startup_scan (env : ClkEnv) (mk : Nat → Dai) :
    List simple_util_dai → Nat → Nat → List Ev → scan
  | [], i, fixed_sysclk, log => { ret := 0, i := i, fixed_sysclk := fixed_sysclk, log := log }
  | dai :: rest, i, fixed_sysclk, log =>
    let ret := env.clk_prepare_enable dai
    let log := log ++ [.clk_prepare_enable (mk i) ret]
    if ret ≠ 0 then { ret := ret, i := i, fixed_sysclk := fixed_sysclk, log := log }
    else
      let c := simple_check_fixed_sysclk dai fixed_sysclk
      if c.1 ≠ 0 then
        { ret := c.1, i := i, fixed_sysclk := c.2.1, log := log ++ c.2.2 }
      else startup_scan env mk rest (i + 1) c.2.1 (log ++ c.2.2)

/-- The loop under a label `codec_err:` or `cpu_err:`: `simple_clk_disable` on the DAIs
of index below `bound`. -/
def startup_unwind (mk : Nat → Dai) (n bound : Nat) : List Ev :=
  (List.range (min n bound)).map fun i => .clk_disable_unprepare (mk i)

/-- What `simple_util_startup` hands back: its return value and the log of what it
did. -/
structure startup_result where
  ret : Int
  log : List Ev
deriving DecidableEq, Repr

/-- The function `simple_util_startup(substream)` on the properties of the link of
the substream. -/
def simple_util_startup (env : ClkEnv) (props : simple_dai_props) : startup_result :=
  let cpu_err (ret : Int) (i1 : Nat) (log : List Ev) : startup_result :=
    { ret := ret, log := log ++ startup_unwind .cpu props.cpu_dai.length i1 }
  let codec_err (ret : Int) (i1 i2 : Nat) (log : List Ev) : startup_result :=
    cpu_err ret i1 (log ++ startup_unwind .codec props.codec_dai.length i2)
  let c := startup_scan env .cpu props.cpu_dai 0 0 []
  if c.ret ≠ 0 then cpu_err c.ret c.i c.log
  else
    let d := startup_scan env .codec props.codec_dai 0 c.fixed_sysclk c.log
    if d.ret ≠ 0 then codec_err d.ret c.i d.i d.log
    else if d.fixed_sysclk ≠ 0 ∧ props.mclk_fs ≠ 0 then
      let fixed_rate := d.fixed_sysclk / props.mclk_fs
      if d.fixed_sysclk % props.mclk_fs ≠ 0 then
        codec_err (-EINVAL) c.i d.i
          (d.log ++ [.dev_err "fixed sysclk %u not divisible by mclk_fs %u\n"
            d.fixed_sysclk props.mclk_fs])
      else
        let ret := env.snd_pcm_hw_constraint_minmax fixed_rate fixed_rate
        let log := d.log ++ [.snd_pcm_hw_constraint_minmax fixed_rate fixed_rate]
        if ret < 0 then codec_err ret c.i d.i log
        else { ret := 0, log := log }
    else { ret := 0, log := d.log }

/-- The DAIs whose clock a run has enabled: those for which `clk_prepare_enable`
returned 0, in order. -/
def enabled (log : List Ev) : List Dai :=
  log.filterMap fun e =>
    match e with
    | .clk_prepare_enable d 0 => some d
    | _ => none

/-- The DAIs whose clock a run has disabled, in order. -/
def disabled (log : List Ev) : List Dai :=
  log.filterMap fun e =>
    match e with
    | .clk_disable_unprepare d => some d
    | _ => none

/-- The `sysclk` rates of the `clk_fixed` DAIs of a list, in order. -/
def fixed_rates (dais : List simple_util_dai) : List Nat :=
  (dais.filter fun d => d.clk_fixed).map fun d => d.sysclk

/-- Whether a sequence of fixed rates passes the consistency check starting from the
rate `f` (0 for none yet): each rate must equal the rate before it unless that rate is
0, which counts as not set. -/
def rates_consistent : Nat → List Nat → Bool
  | _, [] => true
  | f, r :: rs => (f == 0 || f == r) && rates_consistent r rs

/-- A sample environment: every clock enables, the rate constraint is accepted. -/
def clk_env0 : ClkEnv :=
  { clk_prepare_enable := fun _ => 0, snd_pcm_hw_constraint_minmax := fun _ _ => 0 }

/-- A link whose CPU DAI and codec DAI have clocks of fixed rates 100 and 200. -/
def props_mismatch : simple_dai_props :=
  { cpu_dai := [{ clk := 1, sysclk := 100, clk_fixed := true }]
    codec_dai := [{ clk := 2, sysclk := 200, clk_fixed := true }]
    mclk_fs := 0 }

/-- A link whose CPU DAI has a fixed rate of 0 and whose codec DAI has one of 100. -/
def props_zero_rate : simple_dai_props :=
  { cpu_dai := [{ clk := 0, sysclk := 0, clk_fixed := true }]
    codec_dai := [{ clk := 2, sysclk := 100, clk_fixed := true }]
    mclk_fs := 0 }

/-- A link with two CPU DAIs and one codec DAI, all of fixed rate 12288000, and
`mclk_fs` 256. -/
def props_ok : simple_dai_props :=
  { cpu_dai := [{ clk := 1, sysclk := 12288000, clk_fixed := true },
                { clk := 0, sysclk := 44100, clk_fixed := false }]
    codec_dai := [{ clk := 2, sysclk := 12288000, clk_fixed := true }]
    mclk_fs := 256 }

/-! ## simple-card-utils.c: the arrays behind the links -/

/-- The counts `struct prop_nums` of one link: CPUs, codecs and platforms (numbers of
device-tree nodes counted by the caller). -/
structure prop_nums where
  cpus : Nat
  codecs : Nat
  platforms : Nat
deriving DecidableEq, Repr

/-- The `struct link_info`: `num[0 .. link)`, so that `li->link` is the length. -/
structure link_info where
  num : List prop_nums
deriving DecidableEq, Repr

/-- A `struct snd_soc_dai_link_component *` stored in a link: null, the address of
`snd_soc_dummy_dlc`, or the element of index `off` of the array `priv->dlcs`. -/
inductive dlc_ref where
  | null
  | dummy
  | elem (off : Nat)
deriving DecidableEq, Repr

/-- The fields of `struct snd_soc_dai_link` written by `simple_util_init_priv`. -/
structure snd_soc_dai_link where
  cpus : dlc_ref
  num_cpus : Nat
  codecs : dlc_ref
  num_codecs : Nat
  platforms : dlc_ref
  num_platforms : Nat
deriving DecidableEq, Repr

/-- The fields of `struct simple_dai_props` written by `simple_util_init_priv`:
`cpu_dai` and `codec_dai` as indices into `priv->dais`, `codec_conf` as an index into
`priv->codec_conf`, `none` for a pointer left null by `devm_kcalloc`, and the counts
`num`. -/
structure dai_props_entry where
  cpu_dai : Option Nat
  codec_dai : Option Nat
  codec_conf : Option Nat
  num : prop_nums
deriving DecidableEq, Repr

/-- The state of the second loop of `simple_util_init_priv`: the entries of `dai_link`
and `dai_props` written so far, and the running pointers `dais`, `dlcs` and `cconf` as
indices into their arrays. -/
structure init_state where
  dai_link : List snd_soc_dai_link
  dai_props : List dai_props_entry
  dais : Nat
  dlcs : Nat
  cconf : Nat
deriving DecidableEq, Repr

/-- One iteration of the second loop of `simple_util_init_priv`, for the counts `n` of
link `i`. -/
def init_link (st : init_state) (n : prop_nums) : init_state :=
  -- CPU
  let cpus : dlc_ref := if n.cpus ≠ 0 then .elem st.dlcs else .dummy
  let num_cpus := if n.cpus ≠ 0 then n.cpus else 1
  let cpu_dai := if n.cpus ≠ 0 then some st.dais else none
  let dlcs := if n.cpus ≠ 0 then st.dlcs + n.cpus else st.dlcs
  let dais := if n.cpus ≠ 0 then st.dais + n.cpus else st.dais
  -- Codec
  let codecs : dlc_ref := if n.codecs ≠ 0 then .elem dlcs else .dummy
  let num_codecs := if n.codecs ≠ 0 then n.codecs else 1
  let codec_dai := if n.codecs ≠ 0 then some dais else none
  let codec_conf := if n.codecs ≠ 0 ∧ n.cpus = 0 then some st.cconf else none
  let cconf := if n.codecs ≠ 0 ∧ n.cpus = 0 then st.cconf + n.codecs else st.cconf
  let dlcs := if n.codecs ≠ 0 then dlcs + n.codecs else dlcs
  let dais := if n.codecs ≠ 0 then dais + n.codecs else dais
  -- Platform
  let platforms : dlc_ref := if n.platforms ≠ 0 then .elem dlcs else .null
  let num_platforms := if n.platforms ≠ 0 then n.platforms else 0
  let dlcs := if n.platforms ≠ 0 then dlcs + n.platforms else dlcs
  { dai_link := st.dai_link ++
      [{ cpus := cpus, num_cpus := num_cpus, codecs := codecs, num_codecs := num_codecs,
         platforms := platforms, num_platforms := num_platforms }]
    dai_props := st.dai_props ++
      [{ cpu_dai := cpu_dai, codec_dai := codec_dai, codec_conf := codec_conf,
         num := { cpus := num_cpus, codecs := num_codecs, platforms := num_platforms } }]
    dais := dais
    dlcs := dlcs
    cconf := cconf }

/-- The totals computed by the first loop of `simple_util_init_priv`. -/
structure init_totals where
  dai_num : Nat
  dlc_num : Nat
  cnf_num : Nat
deriving DecidableEq, Repr

/-- One iteration of the first loop of `simple_util_init_priv`. -/
def count_link (t : init_totals) (n : prop_nums) : init_totals :=
  let cc := n.cpus + n.codecs
  { dai_num := t.dai_num + cc
    dlc_num := t.dlc_num + (cc + n.platforms)
    cnf_num := if n.cpus = 0 then t.cnf_num + n.codecs else t.cnf_num }

/-- What `simple_util_init_priv` leaves in `priv` and `card`: the link and property
arrays, and the lengths of the arrays `dais`, `dlcs` and `codec_conf` it allocated
(`codec_conf` is `none` when `cnf_num` is 0 and nothing is allocated). -/
structure simple_util_priv where
  dai_props : List dai_props_entry
  dai_link : List snd_soc_dai_link
  dais : Nat
  dlcs : Nat
  codec_conf : Option Nat
  num_links : Nat
  num_configs : Nat
deriving DecidableEq, Repr

/-- The allocator seen by `simple_util_init_priv`: whether its `k`-th call of
`devm_kcalloc`, for `n` elements, succeeds. -/
structure AllocEnv where
  devm_kcalloc : Nat → Nat → Bool

/-- The function `simple_util_init_priv(priv, li)`: `-ENOMEM` when an allocation
fails, else 0 and the contents of `priv`. -/
def simple_util_init_priv (env : AllocEnv) (li : link_info) : Except Int simple_util_priv :=
  let link := li.num.length
  let dai_props := env.devm_kcalloc 0 link
  let dai_link := env.devm_kcalloc 1 link
  if !dai_props || !dai_link then .error (-ENOMEM)
  else
    let t := li.num.foldl count_link { dai_num := 0, dlc_num := 0, cnf_num := 0 }
    let dais := env.devm_kcalloc 2 t.dai_num
    let dlcs := env.devm_kcalloc 3 t.dlc_num
    if !dais || !dlcs then .error (-ENOMEM)
    else if t.cnf_num ≠ 0 ∧ !env.devm_kcalloc 4 t.cnf_num then .error (-ENOMEM)
    else
      let st := li.num.foldl init_link
        { dai_link := [], dai_props := [], dais := 0, dlcs := 0, cconf := 0 }
      .ok { dai_props := st.dai_props
            dai_link := st.dai_link
            dais := t.dai_num
            dlcs := t.dlc_num
            codec_conf := if t.cnf_num ≠ 0 then some t.cnf_num else none
            num_links := link
            num_configs := t.cnf_num }

/-- The slice of an array named by a pointer and a count, as `(offset, length)`; none
for a null pointer. -/
def slice_of (p : Option Nat) (len : Nat) : List (Nat × Nat) :=
  match p with
  | some off => [(off, len)]
  | none => []

/-- The index behind a component pointer; none for null and for the dummy component. -/
def dlc_ref.index : dlc_ref → Option Nat
  | .elem off => some off
  | _ => none

/-- The slices of `priv->dais` handed to the links, in link order: for each link its
`cpu_dai` with `num.cpus` entries, then its `codec_dai` with `num.codecs` entries. -/
def dais_slices (props : List dai_props_entry) : List (Nat × Nat) :=
  props.flatMap fun p => slice_of p.cpu_dai p.num.cpus ++ slice_of p.codec_dai p.num.codecs

/-- The slices of `priv->dlcs` handed to the links, in link order: `cpus`, `codecs`,
`platforms` with their counts. -/
def dlcs_slices (links : List snd_soc_dai_link) : List (Nat × Nat) :=
  links.flatMap fun l => slice_of l.cpus.index l.num_cpus
    ++ slice_of l.codecs.index l.num_codecs ++ slice_of l.platforms.index l.num_platforms

/-- The slices of `priv->codec_conf` handed to the links, in link order. -/
def cconf_slices (props : List dai_props_entry) : List (Nat × Nat) :=
  props.flatMap fun p => slice_of p.codec_conf p.num.codecs

/-- Whether slices follow one another without gap or overlap from `start`: the end
of the last one, or `start` itself when there is none; `none` when a slice does not
start where the one before it ends. -/
def slices_end : Nat → List (Nat × Nat) → Option Nat
  | s, [] => some s
  | s, (off, len) :: rest => if off = s then slices_end (s + len) rest else none

/-- Slices handed out from an array of `len` elements tile it: they follow one
another from index 0 to `len` without gap or overlap, so that each lies inside the
array and each ends at or before the start of every later one. -/
def tiling (slices : List (Nat × Nat)) (len : Nat) : Prop :=
  slices_end 0 slices = some len ∧
  (∀ s ∈ slices, s.1 + s.2 ≤ len) ∧
  slices.Pairwise fun a b => a.1 + a.2 ≤ b.1

/-- The sum of a count over the links. -/
def total (f : prop_nums → Nat) (li : link_info) : Nat :=
  (li.num.map f).sum

/-- An allocator that never fails. -/
def alloc_ok : AllocEnv := { devm_kcalloc := fun _ _ => true }

/-- A sample card: a normal link (1 CPU, 2 codecs, 1 platform), a DPCM front end
(1 CPU, no codec), a DPCM back end (no CPU, 2 codecs). -/
def li0 : link_info :=
  { num := [⟨1, 2, 1⟩, ⟨1, 0, 0⟩, ⟨0, 2, 0⟩] }

end SimpleCard

namespace Meson8b

open Xe (BIT u32)
open SimpleCard (EINVAL)

/-! ## dwmac-meson8b.c: the RGMII delays -/

/-- Modelled from the spec: the macro `GENMASK(h, l)` of `linux/bits.h` (not among the
sources): the bits `l` to `h`, "TX delay field (bits 6:5)". -/
def GENMASK (h l : Nat) : Nat := (2 ^ (h + 1) - 1) - (2 ^ l - 1)

/-- Modelled from the spec: the helper `__bf_shf(mask)` of `linux/bitfield.h` (not
among the sources): the position of the lowest set bit of the mask of a field. -/
def bf_shf (mask : Nat) : Nat :=
  ((List.range 32).find? fun i => mask.testBit i).getD 0

/-- Modelled from the spec: the macro `FIELD_PREP(mask, val)` of `linux/bitfield.h`
(not among the sources): the value shifted to the position of the field and cut to
it, "0ns = 0x0, 2ns = 0x1, 4ns = 0x2, 6ns = 0x3". -/
def FIELD_PREP (mask val : Nat) : Nat := (val <<< bf_shf mask) &&& mask

/-- The complement `~mask` of a `u32`. -/
def u32_not (mask : Nat) : Nat := (2 ^ 32 - 1) ^^^ u32 mask

/-- Register offset `PRG_ETH0`. -/
def PRG_ETH0 : Nat := 0x0

/-- Register offset `PRG_ETH1`. -/
def PRG_ETH1 : Nat := 0x4

/-- TX clock delay field, `GENMASK(6, 5)`. -/
def PRG_ETH0_TXDLY_MASK : Nat := GENMASK 6 5

/-- RX timing adjustment enable, `BIT(13)`. -/
def PRG_ETH0_ADJ_ENABLE : Nat := BIT 13

/-- RX timing adjustment setup, `BIT(14)`. -/
def PRG_ETH0_ADJ_SETUP : Nat := BIT 14

/-- RX sampling delay field, `GENMASK(19, 15)`. -/
def PRG_ETH0_ADJ_DELAY : Nat := GENMASK 19 15

/-- RX skew field, `GENMASK(24, 20)`. -/
def PRG_ETH0_ADJ_SKEW : Nat := GENMASK 24 20

/-- RX clock delay field of `PRG_ETH1`, `GENMASK(19, 16)`. -/
def PRG_ETH1_CFG_RXCLK_DLY : Nat := GENMASK 19 16

/-- The PHY interface modes the driver distinguishes; `OTHER` stands for every mode
not named in `meson8b_init_rgmii_delays`. -/
inductive phy_interface_t where
  | RGMII
  | RGMII_ID
  | RGMII_RXID
  | RGMII_TXID
  | RMII
  | OTHER
deriving DecidableEq, Repr

/-- A call of `dev_info` or `dev_err` made by `meson8b_init_rgmii_delays`. -/
inductive Msg where
  | dev_info (format : String)
  | dev_err (format : String)
deriving DecidableEq, Repr

/-- The `struct meson8b_dwmac`: the register block `regs` as the `u32` value at each
register offset, `data->has_prg_eth1_rgmii_rx_delay`, the PHY mode, the two delays,
the timing adjustment clock (`none` for null), and the messages logged to `dev`. -/
structure meson8b_dwmac where
  regs : Nat → Nat
  has_prg_eth1_rgmii_rx_delay : Bool
  phy_mode : phy_interface_t
  tx_delay_ns : Nat
  rx_delay_ps : Nat
  timing_adj_clk : Option Nat
  log : List Msg

/-- The clock framework as seen by the driver: the return values of
`clk_prepare_enable` for a clock and of `devm_add_action_or_reset`. -/
structure MesonEnv where
  clk_prepare_enable : Nat → Int
  devm_add_action_or_reset : Nat → Int

/-- The function `meson8b_dwmac_mask_bits(dwmac, reg, mask, value)`: read the register,
clear the bits of `mask`, set those of `value & mask`, write it back. -/
def meson8b_dwmac_mask_bits (dwmac : meson8b_dwmac) (reg mask value : Nat) :
    meson8b_dwmac :=
  let data := dwmac.regs reg
  let data := data &&& u32_not mask
  let data := data ||| (value &&& mask)
  { dwmac with regs := fun r => if r = reg then data else dwmac.regs r }

/-- The function `meson8b_devm_clk_prepare_enable(dwmac, clk)`. -/
def meson8b_devm_clk_prepare_enable (env : MesonEnv) (clk : Nat) : Int :=
  let ret := env.clk_prepare_enable clk
  if ret ≠ 0 then ret else env.devm_add_action_or_reset clk

/-- Append messages to the log of the device. -/
def meson8b_dwmac.say (dwmac : meson8b_dwmac) (msgs : List Msg) : meson8b_dwmac :=
  { dwmac with log := dwmac.log ++ msgs }

/-- The `switch (dwmac->phy_mode)` of `meson8b_init_rgmii_delays`: the selected
`delay_config` and `cfg_rxclk_dly` and what is logged; `none` for the `default:` case. -/
def delay_switch (phy_mode : phy_interface_t) (tx_dly_config rx_adj_config cfg_rxclk_dly : Nat) :
    Option (Nat × Nat × List Msg) :=
  match phy_mode with
  | .RGMII => some (tx_dly_config ||| rx_adj_config, cfg_rxclk_dly, [])
  | .RGMII_RXID => some (tx_dly_config, 0, [])
  | .RGMII_TXID =>
    some (rx_adj_config, cfg_rxclk_dly,
      [.dev_info ("DEVMFC: %s Selected RGMII-TXID phy-mode, "
        ++ "so not setting TX clock skew on mac side\n")])
  | .RGMII_ID => some (0, 0, [])
  | .RMII => some (0, 0, [])
  | .OTHER => none

/-- The end of `meson8b_init_rgmii_delays`, from `if(delay_config & PRG_ETH0_TXDLY_MASK)`
on: the two register updates, and the return value 0. -/
def write_delays (dwmac : meson8b_dwmac) (delay_config cfg_rxclk_dly : Nat) :
    Int × meson8b_dwmac :=
  let dwmac := dwmac.say (if delay_config &&& PRG_ETH0_TXDLY_MASK ≠ 0 then
      [.dev_info "DEVMFC: %s, enabling mac side TX clock delay: %d\n"] else [])
  let dwmac := meson8b_dwmac_mask_bits dwmac PRG_ETH0
    (PRG_ETH0_TXDLY_MASK ||| PRG_ETH0_ADJ_ENABLE ||| PRG_ETH0_ADJ_SETUP
      ||| PRG_ETH0_ADJ_DELAY ||| PRG_ETH0_ADJ_SKEW) delay_config
  let dwmac := meson8b_dwmac_mask_bits dwmac PRG_ETH1 PRG_ETH1_CFG_RXCLK_DLY cfg_rxclk_dly
  (0, dwmac)

/-- The part of `meson8b_init_rgmii_delays` after the `switch`: when `delay_config`
has `PRG_ETH0_ADJ_ENABLE`, the timing adjustment clock must be there and is enabled;
then the registers are written. -/
def enable_and_write (env : MesonEnv) (dwmac : meson8b_dwmac)
    (delay_config cfg_rxclk_dly : Nat) : Int × meson8b_dwmac :=
  if delay_config &&& PRG_ETH0_ADJ_ENABLE ≠ 0 then
    let dwmac := dwmac.say [.dev_info ("DEVMFC: %s Old fashioned RX delay selected, "
      ++ "configuring timing adjustment clock\n")]
    match dwmac.timing_adj_clk with
    | none =>
      (-EINVAL, dwmac.say
        [.dev_err "The timing-adjustment clock is mandatory for the RX delay re-timing\n"])
    | some clk =>
      let ret := meson8b_devm_clk_prepare_enable env clk
      if ret ≠ 0 then
        (ret, dwmac.say [.dev_err "Failed to enable the timing-adjustment clock\n"])
      else write_delays dwmac delay_config cfg_rxclk_dly
  else write_delays dwmac delay_config cfg_rxclk_dly

/-- The function `meson8b_init_rgmii_delays(dwmac)`: its return value and the device
afterwards. -/
def meson8b_init_rgmii_delays (env : MesonEnv) (dwmac : meson8b_dwmac) :
    Int × meson8b_dwmac :=
  let tx_dly_config := u32 (FIELD_PREP PRG_ETH0_TXDLY_MASK (dwmac.tx_delay_ns >>> 1))
  let cfg_rxclk_dly :=
    if dwmac.has_prg_eth1_rgmii_rx_delay then
      u32 (FIELD_PREP PRG_ETH1_CFG_RXCLK_DLY (dwmac.rx_delay_ps / 200))
    else 0
  let rx_adj_config :=
    if dwmac.has_prg_eth1_rgmii_rx_delay then 0
    else if dwmac.rx_delay_ps = 2000 then PRG_ETH0_ADJ_ENABLE ||| PRG_ETH0_ADJ_SETUP
    else 0
  match delay_switch dwmac.phy_mode tx_dly_config rx_adj_config cfg_rxclk_dly with
  | none => (-EINVAL, dwmac.say [.dev_err "unsupported phy-mode %s\n"])
  | some (delay_config, cfg_rxclk_dly, msgs) =>
    enable_and_write env (dwmac.say msgs) delay_config cfg_rxclk_dly

/-- A sample clock framework in which every call succeeds. -/
def meson_env0 : MesonEnv :=
  { clk_prepare_enable := fun _ => 0, devm_add_action_or_reset := fun _ => 0 }

/-- A sample device in RGMII mode with a 4 ns TX delay and a 2 ns RX delay, whose
`PRG_ETH0` holds `0x1621` (RGMII mode, TX delay 1, clock enable, reference clock). -/
def dwmac0 : meson8b_dwmac :=
  { regs := fun r => if r = 0 then 0x1621 else 0
    has_prg_eth1_rgmii_rx_delay := false
    phy_mode := .RGMII
    tx_delay_ns := 4
    rx_delay_ps := 2000
    timing_adj_clk := some 1
    log := [] }

end Meson8b

namespace Xe

/-! ## Basic facts about the state accessors -/

@[simp] theorem ss_set_ss (xe : xe_device) (s : xe_devcoredump_snapshot) :
    (xe.set_ss s).ss = s := rfl

@[simp] theorem ss_call (xe : xe_device) (c : Call) : (xe.call c).ss = xe.ss := rfl

@[simp] theorem ss_add_calls (xe : xe_device) (cs : List Call) :
    (xe.add_calls cs).ss = xe.ss := rfl

@[simp] theorem ss_set_captured (xe : xe_device) (b : Bool) :
    (xe.set_captured b).ss = xe.ss := rfl

@[simp] theorem calls_set_ss (xe : xe_device) (s : xe_devcoredump_snapshot) :
    (xe.set_ss s).calls = xe.calls := rfl

@[simp] theorem calls_call (xe : xe_device) (c : Call) :
    (xe.call c).calls = xe.calls ++ [c] := rfl

@[simp] theorem calls_add_calls (xe : xe_device) (cs : List Call) :
    (xe.add_calls cs).calls = xe.calls ++ cs := rfl

@[simp] theorem calls_set_captured (xe : xe_device) (b : Bool) :
    (xe.set_captured b).calls = xe.calls := rfl

@[simp] theorem captured_set_ss (xe : xe_device) (s : xe_devcoredump_snapshot) :
    (xe.set_ss s).devcoredump.captured = xe.devcoredump.captured := rfl

@[simp] theorem captured_call (xe : xe_device) (c : Call) :
    (xe.call c).devcoredump.captured = xe.devcoredump.captured := rfl

@[simp] theorem captured_add_calls (xe : xe_device) (cs : List Call) :
    (xe.add_calls cs).devcoredump.captured = xe.devcoredump.captured := rfl

@[simp] theorem captured_set_captured (xe : xe_device) (b : Bool) :
    (xe.set_captured b).devcoredump.captured = b := rfl

@[simp] theorem index_set_ss (xe : xe_device) (s : xe_devcoredump_snapshot) :
    (xe.set_ss s).primary_index = xe.primary_index := rfl

@[simp] theorem index_call (xe : xe_device) (c : Call) :
    (xe.call c).primary_index = xe.primary_index := rfl

@[simp] theorem index_add_calls (xe : xe_device) (cs : List Call) :
    (xe.add_calls cs).primary_index = xe.primary_index := rfl

@[simp] theorem index_set_captured (xe : xe_device) (b : Bool) :
    (xe.set_captured b).primary_index = xe.primary_index := rfl

theorem xe_device_ext (a b : xe_device) (h1 : a.devcoredump.captured = b.devcoredump.captured)
    (h2 : a.ss = b.ss) (h3 : a.primary_index = b.primary_index) (h4 : a.calls = b.calls) :
    a = b := by
  cases a with
  | mk d i c =>
    cases b with
    | mk d2 i2 c2 =>
      cases d; cases d2
      simp only [xe_device.ss] at h2
      simp_all

/-! ## The release loop of `xe_devcoredump_snapshot_free` -/

theorem snapshot_free_hwe_step_beyond (xe : xe_device) (i : Nat)
    (h : xe.ss.hwe.length ≤ i) : snapshot_free_hwe_step xe i = xe := by
  unfold snapshot_free_hwe_step
  rw [List.getElem?_eq_none h]

theorem snapshot_free_hwe_fold_beyond (k : Nat) :
    ∀ (i : Nat) (xe : xe_device), xe.ss.hwe.length ≤ i →
      (List.range' i k).foldl snapshot_free_hwe_step xe = xe := by
  induction k with
  | zero => intro i xe _; rfl
  | succ k ih =>
    intro i xe h
    rw [List.range'_succ, List.foldl_cons, snapshot_free_hwe_step_beyond xe i h]
    exact ih (i + 1) xe (by omega)

/-- The release loop over slots `A.length, …, A.length + k - 1` of an array `A ++ B`:
it calls the provider once per populated slot among the first `k` of `B`, in order,
and empties exactly those slots. -/
theorem snapshot_free_hwe_fold (k : Nat) :
    ∀ (A B : List (Option xe_hw_engine_snapshot)) (xe : xe_device), xe.ss.hwe = A ++ B →
      (List.range' A.length k).foldl snapshot_free_hwe_step xe =
        (xe.set_ss { xe.ss with
            hwe := A ++ List.replicate (min k B.length) none ++ B.drop k }).add_calls
          (hwe_free_calls (B.take k)) := by
  induction k with
  | zero =>
    intro A B xe h
    apply xe_device_ext <;> simp [hwe_free_calls, ← h]
  | succ k ih =>
    intro A B xe h
    cases B with
    | nil =>
      rw [snapshot_free_hwe_fold_beyond (k + 1) A.length xe (by simp [h])]
      apply xe_device_ext <;> simp [hwe_free_calls, ← h]
    | cons b B =>
      rw [List.range'_succ, List.foldl_cons]
      have hb : xe.ss.hwe[A.length]? = some b := by
        rw [h, List.getElem?_append_right (Nat.le_refl _)]; simp
      cases b with
      | none =>
        have hstep : snapshot_free_hwe_step xe A.length = xe := by
          unfold snapshot_free_hwe_step; rw [hb]
        rw [hstep]
        have := ih (A ++ [none]) B xe (by simp [h])
        simp only [List.length_append, List.length_singleton] at this
        rw [this]
        apply xe_device_ext <;>
          simp [hwe_free_calls, List.replicate_succ, Nat.succ_min_succ]
      | some s =>
        have hstep : snapshot_free_hwe_step xe A.length =
            (xe.call (.xe_hw_engine_snapshot_free s)).set_ss
              { xe.ss with hwe := A ++ none :: B } := by
          unfold snapshot_free_hwe_step; rw [hb]; simp [h]
        rw [hstep]
        have := ih (A ++ [none]) B
          ((xe.call (.xe_hw_engine_snapshot_free s)).set_ss
              { xe.ss with hwe := A ++ none :: B }) (by simp)
        simp only [List.length_append, List.length_singleton] at this
        rw [this]
        apply xe_device_ext <;>
          simp [hwe_free_calls, List.replicate_succ, Nat.succ_min_succ]

/-- What `xe_devcoredump_snapshot_free` does, in closed form. -/
theorem xe_devcoredump_snapshot_free_eq (env : Env) (xe : xe_device) :
    xe_devcoredump_snapshot_free env xe =
      (xe.set_ss (snapshot_freed env xe.ss)).add_calls (snapshot_free_calls env xe.ss) := by
  unfold xe_devcoredump_snapshot_free
  simp only [List.range_eq_range']
  have := snapshot_free_hwe_fold env.XE_NUM_HW_ENGINES [] xe.ss.hwe
    ((((((xe.call (.xe_guc_ct_snapshot_free xe.ss.ct)).set_ss
      { xe.ss with ct := none }).call (.xe_guc_exec_queue_snapshot_free xe.ss.ge)).set_ss
      { xe.ss with ct := none, ge := none }).call (.xe_sched_job_snapshot_free xe.ss.job)).set_ss
      { xe.ss with ct := none, ge := none, job := none }) (by simp)
  simp only [List.length_nil, ss_set_ss, ss_call] at this ⊢
  rw [this]
  apply xe_device_ext <;> simp [snapshot_freed, snapshot_free_calls]

/-! ## The coredump printer as a sink -/

theorem memcpy_zero_nil (d : Text) : memcpy d 0 [] = d := by
  simp [memcpy]

theorem drm_coredump_printer_fresh (buffer : Option Text) (count : Nat) :
    drm_coredump_printer { data := buffer, start := 0, remain := count, offset := 0 } =
      sink_after buffer count [] := by
  cases buffer <;> simp [drm_coredump_printer, sink_after, memcpy_zero_nil]

theorem memcpy_memcpy (d t s : Text) :
    memcpy (memcpy d 0 t) t.length s = memcpy d 0 (t ++ s) := by
  simp [memcpy, List.take_append_eq_append_take, List.drop_append_eq_append_drop]

theorem take_min_length (s : Text) (k : Nat) : s.take (min s.length k) = s.take k := by
  rcases Nat.le_total s.length k with h | h
  · rw [Nat.min_eq_left h, List.take_of_length_le (Nat.le_refl _), List.take_of_length_le h]
  · rw [Nat.min_eq_right h]

/-- Printing is compositional: printing `s` after `t` is printing `t ++ s`. -/
theorem drm_puts_sink_after (buffer : Option Text) (count : Nat) (t s : Text) :
    drm_puts (sink_after buffer count t) s = sink_after buffer count (t ++ s) := by
  by_cases h : count ≤ t.length
  · have h1 : (sink_after buffer count t).remain = 0 := by
      simp only [sink_after]; omega
    have h2 : (t ++ s).take count = t.take count := List.take_append_of_le_length h
    have h3 : min (t ++ s).length count = min t.length count := by
      simp only [List.length_append]; omega
    unfold drm_puts
    rw [if_pos h1]
    simp only [sink_after, h2, h3]
  · have hlt : t.length < count := Nat.lt_of_not_le h
    have h1 : ¬ (sink_after buffer count t).remain = 0 := by
      simp only [sink_after]; omega
    have h2 : ¬ (sink_after buffer count t).offset < (sink_after buffer count t).start := by
      simp [sink_after]
    have ht : t.take count = t := List.take_of_length_le (Nat.le_of_lt hlt)
    have hmin : min t.length count = t.length := Nat.min_eq_left (Nat.le_of_lt hlt)
    have h3 : (t ++ s).take count = t ++ s.take (min s.length (count - t.length)) := by
      rw [take_min_length, List.take_append_eq_append_take, ht]
    unfold drm_puts
    rw [if_neg h1, if_neg h2]
    simp only [sink_after, ht, hmin, h3, Nat.sub_zero, List.length_append]
    cases buffer with
    | none => simp; omega
    | some d =>
      simp only [Option.map_some', memcpy_memcpy, drm_print_iterator.mk.injEq, true_and]
      omega

theorem read_hwe_fold_beyond (env : Env) (ss : xe_devcoredump_snapshot) (k : Nat) :
    ∀ (i : Nat) (p : drm_print_iterator), ss.hwe.length ≤ i →
      (List.range' i k).foldl (read_hwe_step env ss) p = p := by
  induction k with
  | zero => intro i p _; rfl
  | succ k ih =>
    intro i p h
    have hstep : read_hwe_step env ss p i = p := by
      unfold read_hwe_step; rw [List.getElem?_eq_none h]
    rw [List.range'_succ, List.foldl_cons, hstep]
    exact ih (i + 1) p (by omega)

/-- The engine loop of the renderer prints the populated slots in slot order. -/
theorem read_hwe_fold (env : Env) (ss : xe_devcoredump_snapshot) (buffer : Option Text)
    (count : Nat) (k : Nat) :
    ∀ (A B : List (Option xe_hw_engine_snapshot)) (t : Text), ss.hwe = A ++ B →
      (List.range' A.length k).foldl (read_hwe_step env ss) (sink_after buffer count t) =
        sink_after buffer count (t ++ engines_text env (B.take k)) := by
  induction k with
  | zero => intro A B t _; simp [engines_text]
  | succ k ih =>
    intro A B t h
    cases B with
    | nil =>
      rw [read_hwe_fold_beyond env ss (k + 1) A.length _ (by simp [h])]
      simp [engines_text]
    | cons b B =>
      rw [List.range'_succ, List.foldl_cons]
      have hb : ss.hwe[A.length]? = some b := by
        rw [h, List.getElem?_append_right (Nat.le_refl _)]; simp
      have := ih (A ++ [b]) B
      simp only [List.length_append, List.length_singleton] at this
      cases b with
      | none =>
        have hstep : ∀ p, read_hwe_step env ss p A.length = p := by
          intro p; unfold read_hwe_step; rw [hb]
        rw [hstep, this t (by simp [h])]
        simp [engines_text]
      | some s =>
        have hstep : ∀ p, read_hwe_step env ss p A.length =
            drm_puts p (env.xe_hw_engine_snapshot_print s) := by
          intro p; unfold read_hwe_step; rw [hb]
        rw [hstep, drm_puts_sink_after, this _ (by simp [h])]
        simp [engines_text]

/-- The renderer in closed form: it reports `min (length of the report) count` bytes
and leaves the first `count` bytes of the report at the start of `buffer`. -/
theorem xe_devcoredump_read_render (env : Env) (buffer : Option Text) (count : Nat)
    (xe : xe_device) (ss : xe_devcoredump_snapshot) (gt : xe_gt) (hss : xe.ss = ss)
    (h : ss.gt = some gt) :
    __xe_devcoredump_read env buffer count xe =
      some (min (coredump_text env ss gt).length count,
        buffer.map fun d => memcpy d 0 ((coredump_text env ss gt).take count)) := by
  subst hss
  unfold __xe_devcoredump_read
  simp only [h, drm_coredump_printer_fresh, drm_puts_sink_after, List.range_eq_range']
  have := read_hwe_fold env xe.ss buffer count env.XE_NUM_HW_ENGINES [] xe.ss.hwe
  simp only [List.length_nil, List.nil_append] at this
  rw [this _ trivial]
  simp only [drm_puts_sink_after]
  simp only [sink_after, List.nil_append, List.append_assoc,
    coredump_text, Option.some.injEq, Prod.mk.injEq, and_true]
  omega

theorem memcpy_over (d s : Text) (h : d.length ≤ s.length) : memcpy d 0 s = s := by
  simp [memcpy, List.drop_eq_nil_of_le h]

/-- The report does not depend on the read fields of the aggregate. -/
theorem coredump_text_read_fields (env : Env) (ss : xe_devcoredump_snapshot) (gt : xe_gt)
    (n : Nat) (b : Option Text) :
    coredump_text env { ss with read_size := n, read_buffer := b } gt
      = coredump_text env ss gt := rfl

/-- The worker is its three stages in sequence. -/
theorem snap_work_staged (env : Env) (xe : xe_device) :
    xe_devcoredump_deferred_snap_work env xe =
      match xe.ss.gt with
      | none => none
      | some gt =>
        match __xe_devcoredump_read env none INT_MAX (snap_work_enrich env gt xe) with
        | none => none
        | some (size, _) => snap_work_alloc env (snap_work_enrich env gt xe) size := rfl

theorem ss_snap_work_enrich (env : Env) (gt : xe_gt) (xe : xe_device) :
    (snap_work_enrich env gt xe).ss = snapshot_enriched env xe.ss := rfl

theorem captured_snap_work_enrich (env : Env) (gt : xe_gt) (xe : xe_device) :
    (snap_work_enrich env gt xe).devcoredump.captured = xe.devcoredump.captured := rfl

theorem index_snap_work_enrich (env : Env) (gt : xe_gt) (xe : xe_device) :
    (snap_work_enrich env gt xe).primary_index = xe.primary_index := rfl

theorem calls_snap_work_enrich (env : Env) (gt : xe_gt) (xe : xe_device) (size : Nat) :
    (snap_work_enrich env gt xe).calls ++ [.kvmalloc size] =
      xe.calls ++ snap_work_calls env gt size := by
  simp [snap_work_enrich, snap_work_calls]

/-- The second pass and release, in closed form. -/
theorem snap_work_second_pass_eq (env : Env) (xe : xe_device) (gt : xe_gt)
    (fresh : Nat → Char) (h : xe.ss.gt = some gt) :
    snap_work_second_pass env xe fresh =
      some ((xe.set_ss (snapshot_freed env { xe.ss with
                read_buffer := some (memcpy ((List.range xe.ss.read_size).map fresh) 0
                  ((coredump_text env xe.ss gt).take xe.ss.read_size)) })).add_calls
              (snapshot_free_calls env xe.ss)) := by
  unfold snap_work_second_pass
  simp only []
  rw [xe_devcoredump_read_render env _ _ _
    { xe.ss with read_buffer := some ((List.range xe.ss.read_size).map fresh) } gt rfl h]
  simp only [ss_set_ss, xe_devcoredump_snapshot_free_eq, Option.map_some']
  refine congrArg some ?_
  apply xe_device_ext
  · rfl
  · rfl
  · rfl
  · rfl

/-- The bytes the second pass leaves in a fresh buffer of `report_size` bytes: the
first `INT_MAX` bytes of the report, whatever the buffer held before. -/
theorem second_pass_buffer (env : Env) (ss : xe_devcoredump_snapshot) (gt : xe_gt)
    (fresh : Nat → Char) :
    memcpy ((List.range (report_size env ss gt)).map fresh) 0
        ((report_text env ss gt).take (report_size env ss gt))
      = (report_text env ss gt).take INT_MAX := by
  rw [memcpy_over]
  · unfold report_size; rw [take_min_length]
  · simp only [List.length_map, List.length_range, List.length_take, report_size]
    omega

/-- The worker when the allocation fails: the enriched aggregate is kept, the size is
recorded and there is no buffer. -/
theorem snap_work_alloc_fails (env : Env) (xe : xe_device) (gt : xe_gt)
    (h : xe.ss.gt = some gt) (hk : env.kvmalloc (report_size env xe.ss gt) = none) :
    xe_devcoredump_deferred_snap_work env xe =
      some ((xe.set_ss { snapshot_enriched env xe.ss with
                read_size := report_size env xe.ss gt
                read_buffer := none }).add_calls
              (snap_work_calls env gt (report_size env xe.ss gt))) := by
  rw [snap_work_staged]
  simp only [h]
  rw [xe_devcoredump_read_render env none INT_MAX _ (snapshot_enriched env xe.ss) gt
    (ss_snap_work_enrich env gt xe) h]
  have hsz : min (coredump_text env (snapshot_enriched env xe.ss) gt).length INT_MAX
      = report_size env xe.ss gt := rfl
  simp only [hsz]
  unfold snap_work_alloc
  simp only [ss_set_ss, ss_call, hk]
  refine congrArg some ?_
  apply xe_device_ext
  · simp [captured_snap_work_enrich]
  · simp [ss_snap_work_enrich]
  · simp [index_snap_work_enrich]
  · simp [calls_snap_work_enrich]

/-- The worker when the allocation succeeds: the buffer holds the first `INT_MAX` bytes
of the report of the enriched aggregate, and the component snapshots are released. -/
theorem snap_work_alloc_ok (env : Env) (xe : xe_device) (gt : xe_gt) (fresh : Nat → Char)
    (h : xe.ss.gt = some gt) (hk : env.kvmalloc (report_size env xe.ss gt) = some fresh) :
    xe_devcoredump_deferred_snap_work env xe =
      some ((xe.set_ss (snapshot_freed env { snapshot_enriched env xe.ss with
                read_size := report_size env xe.ss gt
                read_buffer := some ((report_text env xe.ss gt).take INT_MAX) })).add_calls
              (snap_work_calls env gt (report_size env xe.ss gt)
                ++ snapshot_free_calls env (snapshot_enriched env xe.ss))) := by
  rw [snap_work_staged]
  simp only [h]
  rw [xe_devcoredump_read_render env none INT_MAX _ (snapshot_enriched env xe.ss) gt
    (ss_snap_work_enrich env gt xe) h]
  have hsz : min (coredump_text env (snapshot_enriched env xe.ss) gt).length INT_MAX
      = report_size env xe.ss gt := rfl
  simp only [hsz]
  unfold snap_work_alloc
  simp only [ss_set_ss, ss_call, hk]
  rw [snap_work_second_pass_eq env _ gt fresh (by exact h)]
  refine congrArg some ?_
  have hbuf := second_pass_buffer env xe.ss gt fresh
  apply xe_device_ext
  · simp [captured_snap_work_enrich]
  · simp only [ss_add_calls, ss_set_ss, ss_call, ss_snap_work_enrich,
      coredump_text_read_fields]
    unfold report_text at hbuf ⊢
    rw [hbuf]
  · simp [index_snap_work_enrich]
  · simp only [calls_add_calls, calls_set_ss, calls_call, ← List.append_assoc,
      calls_snap_work_enrich, snapshot_free_calls, ss_call, ss_set_ss, ss_snap_work_enrich]

/-! ## The fast phase in closed form -/

theorem snapshot_hwe_fold (env : Env) (q : xe_exec_queue) (adj : Nat) (l : List Nat) :
    ∀ ss : xe_devcoredump_snapshot,
      l.foldl (snapshot_hwe_step env q adj) ss =
        { ss with hwe := l.foldl (hwe_capture_step env q adj) ss.hwe } := by
  induction l with
  | nil => intro ss; rfl
  | cons id l ih =>
    intro ss
    rw [List.foldl_cons, List.foldl_cons, ih]
    unfold snapshot_hwe_step hwe_capture_step
    rcases q.gt.hw_engines[id]? with _ | _ | e
    · rfl
    · rfl
    · by_cases hc : e.hwe_class ≠ q.hwe.hwe_class ∨ BIT e.logical_instance &&& adj = 0
      · simp only [if_pos hc]
      · simp only [if_neg hc]

/-- What `devcoredump_snapshot` does, in closed form. -/
theorem devcoredump_snapshot_eq (env : Env) (xe : xe_device) (job : xe_sched_job) :
    devcoredump_snapshot env xe job =
      (xe.set_ss (snapshot_captured env xe.ss job)).add_calls (snapshot_calls env job) := by
  unfold devcoredump_snapshot
  simp only [ss_set_ss, ss_call, snapshot_hwe_fold]
  apply xe_device_ext
  · rfl
  · simp only [ss_set_ss, ss_call, ss_add_calls, snapshot_captured, captured_hwe,
      resolved_process_name]
  · rfl
  · simp [snapshot_calls]

/-! ## The latch -/

/-- The statements `xe_devcoredump` runs on a latched device: the `drm_dbg` only. -/
theorem xe_devcoredump_trace_latched (env : Env) (xe : xe_device) (job : xe_sched_job)
    (h : xe.devcoredump.captured = true) :
    xe_devcoredump_trace env xe job =
      [(.entry, xe),
       (.logged_duplicate, xe.call (.drm_dbg
          "Multiple hangs are occurring, but only the first snapshot was taken\n"))] := by
  unfold xe_devcoredump_trace
  rw [if_pos h]

/-- The statements `xe_devcoredump` runs on an unlatched device. -/
theorem xe_devcoredump_trace_first (env : Env) (xe : xe_device) (job : xe_sched_job)
    (h : xe.devcoredump.captured = false) :
    xe_devcoredump_trace env xe job =
      [(.entry, xe), (.latched, xe.set_captured true)]
        ++ (devcoredump_snapshot_trace env (xe.set_captured true) job).map
            (fun s => (xe_devcoredump_point.inside_snapshot, s))
        ++ [(.logged_created, (devcoredump_snapshot env (xe.set_captured true) job).call
              (.drm_info "Xe device coredump has been created\n")),
            (.logged_path, ((devcoredump_snapshot env (xe.set_captured true) job).call
              (.drm_info "Xe device coredump has been created\n")).call
              (.drm_info_card "Check your /sys/class/drm/card%d/device/devcoredump/data\n"
                xe.primary_index))] := by
  unfold xe_devcoredump_trace
  rw [if_neg (by rw [h]; exact Bool.noConfusion)]
  rfl

/-- The trace of `xe_devcoredump` ends in the state the function returns. -/
theorem xe_devcoredump_trace_last (env : Env) (xe : xe_device) (job : xe_sched_job) :
    ((xe_devcoredump_trace env xe job).getLast?).map Prod.snd
      = some (xe_devcoredump env xe job) := by
  unfold xe_devcoredump
  cases h : xe.devcoredump.captured with
  | true =>
    rw [xe_devcoredump_trace_latched env xe job h]
    rfl
  | false =>
    rw [xe_devcoredump_trace_first env xe job h,
      List.getLast?_append_of_ne_nil _ (List.cons_ne_nil _ _)]
    rfl

/-- A fault on a latched device only logs. -/
theorem xe_devcoredump_latched (env : Env) (xe : xe_device) (job : xe_sched_job)
    (h : xe.devcoredump.captured = true) :
    xe_devcoredump env xe job = xe.call (.drm_dbg
      "Multiple hangs are occurring, but only the first snapshot was taken\n") := by
  unfold xe_devcoredump
  rw [xe_devcoredump_trace_latched env xe job h]
  rfl

/-- A fault on an unlatched device sets the latch, captures and logs twice. -/
theorem xe_devcoredump_unlatched (env : Env) (xe : xe_device) (job : xe_sched_job)
    (h : xe.devcoredump.captured = false) :
    xe_devcoredump env xe job =
      ((devcoredump_snapshot env (xe.set_captured true) job).call
          (.drm_info "Xe device coredump has been created\n")).call
        (.drm_info_card "Check your /sys/class/drm/card%d/device/devcoredump/data\n"
          xe.primary_index) := by
  unfold xe_devcoredump
  rw [xe_devcoredump_trace_first env xe job h,
    List.getLast?_append_of_ne_nil _ (List.cons_ne_nil _ _)]
  rfl

/-- The states recorded inside `devcoredump_snapshot` occur only on an unlatched device
and are those of the call entered right after the latch was set. -/
theorem xe_devcoredump_trace_inside (env : Env) (xe : xe_device) (job : xe_sched_job)
    (s : xe_device)
    (hs : (xe_devcoredump_point.inside_snapshot, s) ∈ xe_devcoredump_trace env xe job) :
    xe.devcoredump.captured = false ∧
      s ∈ devcoredump_snapshot_trace env (xe.set_captured true) job := by
  cases h : xe.devcoredump.captured with
  | true =>
    rw [xe_devcoredump_trace_latched env xe job h] at hs
    simp at hs
  | false =>
    rw [xe_devcoredump_trace_first env xe job h] at hs
    simp only [List.mem_append, List.mem_cons, List.mem_map, Prod.mk.injEq, List.mem_singleton,
      List.not_mem_nil, or_false, false_and, reduceCtorEq, false_or] at hs
    obtain ⟨a, ha, _, rfl⟩ := hs
    exact ⟨rfl, ha⟩

/-- A fault on an unlatched device sets the latch and captures. -/
theorem xe_devcoredump_first (env : Env) (xe : xe_device) (job : xe_sched_job)
    (h : xe.devcoredump.captured = false) :
    xe_devcoredump env xe job =
      ((xe.set_captured true).set_ss (snapshot_captured env xe.ss job)).add_calls
        (snapshot_calls env job ++
          [.drm_info "Xe device coredump has been created\n",
           .drm_info_card "Check your /sys/class/drm/card%d/device/devcoredump/data\n"
             xe.primary_index]) := by
  rw [xe_devcoredump_unlatched env xe job h]
  simp only [devcoredump_snapshot_eq]
  apply xe_device_ext <;> simp

theorem queued_add_calls (xe : xe_device) (cs : List Call) :
    queued (xe.add_calls cs) = queued xe + cs.count .queue_work := by
  simp [queued, List.count_append]

theorem queued_set_ss (xe : xe_device) (s : xe_devcoredump_snapshot) :
    queued (xe.set_ss s) = queued xe := rfl

theorem queued_call (xe : xe_device) (c : Call) :
    queued (xe.call c) = queued xe + [c].count .queue_work := by
  simp [queued, List.count_append]

theorem hwe_free_calls_no_queue (l : List (Option xe_hw_engine_snapshot)) :
    (hwe_free_calls l).count .queue_work = 0 := by
  rw [List.count_eq_zero]
  intro hmem
  simp only [hwe_free_calls, List.mem_filterMap] at hmem
  obtain ⟨o, _, ho⟩ := hmem
  cases o <;> simp at ho

theorem snapshot_free_calls_no_queue (env : Env) (ss : xe_devcoredump_snapshot) :
    (snapshot_free_calls env ss).count .queue_work = 0 := by
  simp [snapshot_free_calls, List.count_append, hwe_free_calls_no_queue, List.count_cons]

theorem snap_work_calls_no_queue (env : Env) (gt : xe_gt) (size : Nat) :
    (snap_work_calls env gt size).count .queue_work = 0 := by
  unfold snap_work_calls
  split <;> simp [List.count_append, List.count_cons]

/-- The worker always completes on an aggregate with a GT; it keeps the latch, the GT
and the pending bit, and queues no work. -/
theorem snap_work_frame (env : Env) (xe : xe_device) (gt : xe_gt) (h : xe.ss.gt = some gt) :
    ∃ xe2, xe_devcoredump_deferred_snap_work env xe = some xe2 ∧
      xe2.devcoredump.captured = xe.devcoredump.captured ∧ xe2.ss.gt = some gt ∧
      xe2.ss.work_pending = xe.ss.work_pending ∧ queued xe2 = queued xe := by
  cases hk : env.kvmalloc (report_size env xe.ss gt) with
  | none =>
    refine ⟨_, snap_work_alloc_fails env xe gt h hk, ?_, ?_, ?_, ?_⟩
    · simp
    · simpa [snapshot_enriched] using h
    · simp [snapshot_enriched]
    · simp [queued_add_calls, queued_set_ss, snap_work_calls_no_queue]
  | some fresh =>
    refine ⟨_, snap_work_alloc_ok env xe gt fresh h hk, ?_, ?_, ?_, ?_⟩
    · simp
    · simpa [snapshot_enriched, snapshot_freed] using h
    · simp [snapshot_enriched, snapshot_freed]
    · simp [queued_add_calls, queued_set_ss, snap_work_calls_no_queue, List.count_append,
        snapshot_free_calls_no_queue]

/-- Running the queued worker on a device with an outstanding report completes, keeps
the report outstanding, clears the pending bit and queues no work. -/
theorem process_one_work_frame (env : Env) (xe : xe_device) (h : outstanding xe) :
    ∃ xe2, process_one_work env xe = some xe2 ∧ outstanding xe2 ∧
      xe2.ss.work_pending = false ∧ queued xe2 = queued xe := by
  obtain ⟨hc, gt, hgt⟩ := h
  obtain ⟨xe2, h1, h2, h3, h4, h5⟩ :=
    snap_work_frame env (xe.set_ss { xe.ss with work_pending := false }) gt (by simpa using hgt)
  refine ⟨xe2, h1, ⟨?_, gt, h3⟩, ?_, ?_⟩
  · rw [h2]; simpa using hc
  · rw [h4]; simp
  · rw [h5]; rfl

/-- Joining the worker on a device with an outstanding report completes, keeps the
report outstanding, leaves no work pending and queues no work. -/
theorem flush_work_frame (env : Env) (xe : xe_device) (h : outstanding xe) :
    ∃ xe2, flush_work env xe = some xe2 ∧ outstanding xe2 ∧
      xe2.ss.work_pending = false ∧ queued xe2 = queued xe := by
  unfold flush_work
  by_cases hp : (xe.call .flush_work).ss.work_pending = true
  · simp only [hp, if_true]
    have ho : outstanding (xe.call .flush_work) := h
    obtain ⟨xe2, h1, h2, h3, h4⟩ := process_one_work_frame env _ ho
    exact ⟨xe2, h1, h2, h3, by rw [h4]; simp [queued_call, List.count_cons]⟩
  · simp only [hp]
    refine ⟨_, rfl, h, ?_, ?_⟩
    · simpa using hp
    · simp [queued_call, List.count_cons]

/-- A read hands back the device as it is after the join. -/
theorem xe_devcoredump_read_data (env : Env) (buffer : Text) (offset count : Nat)
    (xe xe2 : xe_device) (h : flush_work env xe = some xe2) :
    ∃ r, xe_devcoredump_read env buffer offset count (some xe) = some r ∧
      r.data = some xe2 := by
  unfold xe_devcoredump_read
  simp only [h]
  cases xe2.ss.read_buffer with
  | none => exact ⟨_, rfl, rfl⟩
  | some rb =>
    by_cases ho : offset ≥ xe2.ss.read_size
    · simp only [if_pos ho]; exact ⟨_, rfl, rfl⟩
    · simp only [if_neg ho]; exact ⟨_, rfl, rfl⟩

/-- No operation other than the deletion ends the report or queues work once the
latch is set. -/
theorem run_op_outstanding (xe : xe_device) (op : Op) (h : outstanding xe) :
    ∃ xe2, run_op xe op = some xe2 ∧ outstanding xe2 ∧ queued xe2 = queued xe := by
  cases op with
  | fault env job =>
    refine ⟨_, rfl, ?_, ?_⟩
    · rw [xe_devcoredump_latched env xe job h.1]; exact h
    · rw [xe_devcoredump_latched env xe job h.1]; simp [queued_call, List.count_cons]
  | work env =>
    unfold run_op
    by_cases hp : xe.ss.work_pending = true
    · simp only [hp, if_true]
      obtain ⟨xe2, h1, h2, _, h4⟩ := process_one_work_frame env xe h
      exact ⟨xe2, h1, h2, h4⟩
    · simp only [hp]
      exact ⟨xe, rfl, h, rfl⟩
  | read env buffer offset count =>
    obtain ⟨xe2, h1, h2, _, h4⟩ := flush_work_frame env xe h
    obtain ⟨r, hr, hd⟩ := xe_devcoredump_read_data env buffer offset count xe xe2 h1
    refine ⟨xe2, ?_, h2, h4⟩
    unfold run_op
    simp only [hr, hd]

theorem run_ops_outstanding (ops : List Op) :
    ∀ xe : xe_device, outstanding xe →
      ∃ xe2, run_ops xe ops = some xe2 ∧ outstanding xe2 ∧ queued xe2 = queued xe := by
  induction ops with
  | nil => intro xe h; exact ⟨xe, rfl, h, rfl⟩
  | cons op ops ih =>
    intro xe h
    obtain ⟨xe1, h1, h2, h3⟩ := run_op_outstanding xe op h
    obtain ⟨xe2, h4, h5, h6⟩ := ih xe1 h2
    refine ⟨xe2, ?_, h5, by rw [h6, h3]⟩
    simp only [run_ops, h1, h4]

/-! ## Claims -/

/-- C1 (first failure only): on a device whose latch is clear, the first call of
`xe_devcoredump` performs the capture (latch set, aggregate populated from the job, the
worker queued once).  After any sequence of further operations other than
`xe_devcoredump_free` (faults, the worker running, reads), every later call of
`xe_devcoredump`, whatever its job, finds the latch set and returns leaving the latch
and the whole aggregate unchanged, and no work has been queued beyond the first. -/
theorem first_failure_only (env : Env) (xe : xe_device) (job : xe_sched_job)
    (between : List Op) (env2 : Env) (job2 : xe_sched_job)
    (h : xe.devcoredump.captured = false) :
    ((xe_devcoredump env xe job).devcoredump.captured = true ∧
      (xe_devcoredump env xe job).ss.gt = some job.q.gt ∧
      (xe_devcoredump env xe job).ss.job = env.xe_sched_job_snapshot_capture job ∧
      (xe_devcoredump env xe job).ss.ge = env.xe_guc_exec_queue_snapshot_capture job.q ∧
      (xe_devcoredump env xe job).ss.work_pending = true ∧
      queued (xe_devcoredump env xe job) = queued xe + 1) ∧
    ∃ before, run_ops (xe_devcoredump env xe job) between = some before ∧
      before.devcoredump.captured = true ∧
      (xe_devcoredump env2 before job2).devcoredump = before.devcoredump ∧
      queued (xe_devcoredump env2 before job2) = queued before ∧
      queued before = queued (xe_devcoredump env xe job) := by
  have hfirst := xe_devcoredump_first env xe job h
  have hout : outstanding (xe_devcoredump env xe job) := by
    rw [hfirst]
    exact ⟨by simp, job.q.gt, by simp [snapshot_captured]⟩
  refine ⟨?_, ?_⟩
  · rw [hfirst]
    refine ⟨by simp, by simp [snapshot_captured], by simp [snapshot_captured],
      by simp [snapshot_captured], by simp [snapshot_captured], ?_⟩
    rw [queued_add_calls]
    simp [queued, snapshot_calls, List.count_cons]
  · obtain ⟨before, h1, h2, h3⟩ := run_ops_outstanding between _ hout
    refine ⟨before, h1, h2.1, ?_, ?_, h3⟩
    · rw [xe_devcoredump_latched env2 before job2 h2.1]; rfl
    · rw [xe_devcoredump_latched env2 before job2 h2.1]
      simp [queued_call, List.count_cons]

/-- C1, exercised: a capture on the pristine device `xe0`, then a second fault, the
worker and a read, then a third fault. -/
theorem first_failure_only_witness :
    xe0.devcoredump.captured = false ∧
    ∃ before, run_ops (xe_devcoredump env0 xe0 job0)
        [.fault env0 job1, .work env0, .read env0 [] 0 4] = some before ∧
      before.devcoredump.captured = true ∧
      (xe_devcoredump env0 before job1).devcoredump = before.devcoredump ∧
      queued (xe_devcoredump env0 before job1) = queued before ∧
      queued before = queued (xe_devcoredump env0 xe0 job0) :=
  ⟨rfl, (first_failure_only env0 xe0 job0 [.fault env0 job1, .work env0, .read env0 [] 0 4]
    env0 job1 rfl).2⟩

/-- What `xe_devcoredump_free` does to a device, in closed form. -/
theorem xe_devcoredump_free_eq (env : Env) (xe : xe_device) :
    xe_devcoredump_free env (some xe) =
      some ((((xe.set_captured false).set_ss (snapshot_zero env)).add_calls
        ([.cancel_work_sync]
          ++ snapshot_free_calls env { xe.ss with work_pending := false }
          ++ [.kvfree xe.ss.read_buffer,
              .drm_info "Xe device coredump has been deleted.\n"]))) := by
  unfold xe_devcoredump_free cancel_work_sync
  simp only [xe_devcoredump_snapshot_free_eq, ss_set_ss, ss_call, ss_add_calls]
  refine congrArg some ?_
  apply xe_device_ext <;> simp [snapshot_freed]

/-- C2 (latch reset): `xe_devcoredump_free` on a non-null coredump, from any state,
leaves the latch clear and the aggregate all-zero; the next `xe_devcoredump` is not
ignored: it sets the latch, populates the aggregate from the new job (times, process
name, GT, CT, queue, job, VM and engine slots captured afresh over the zeroed aggregate)
and queues the worker. -/
theorem latch_reset (env : Env) (xe : xe_device) (env2 : Env) (job : xe_sched_job) :
    ∃ freed, xe_devcoredump_free env (some xe) = some freed ∧
      freed.devcoredump.captured = false ∧
      freed.ss = snapshot_zero env ∧
      (xe_devcoredump env2 freed job).devcoredump.captured = true ∧
      (xe_devcoredump env2 freed job).ss = snapshot_captured env2 (snapshot_zero env) job ∧
      (xe_devcoredump env2 freed job).ss.gt = some job.q.gt ∧
      (xe_devcoredump env2 freed job).ss.job = env2.xe_sched_job_snapshot_capture job ∧
      (xe_devcoredump env2 freed job).ss.ge = env2.xe_guc_exec_queue_snapshot_capture job.q ∧
      (xe_devcoredump env2 freed job).ss.ct
        = env2.xe_guc_ct_snapshot_capture job.q.gt.guc_ct true ∧
      (xe_devcoredump env2 freed job).ss.vm = env2.xe_vm_snapshot_capture job.q.vm ∧
      (xe_devcoredump env2 freed job).ss.snapshot_time = env2.ktime_get_real ∧
      (xe_devcoredump env2 freed job).ss.work_pending = true ∧
      queued (xe_devcoredump env2 freed job) = queued freed + 1 := by
  refine ⟨_, xe_devcoredump_free_eq env xe, by simp, by simp, ?_⟩
  rw [xe_devcoredump_first env2 _ job (by simp)]
  refine ⟨by simp, by simp, by simp [snapshot_captured], by simp [snapshot_captured],
    by simp [snapshot_captured], by simp [snapshot_captured], by simp [snapshot_captured],
    by simp [snapshot_captured], by simp [snapshot_captured], ?_⟩
  rw [queued_add_calls]
  simp only [snapshot_calls, List.count_cons, List.count_append, List.count_nil]
  simp
  rfl

theorem hwe_free_calls_replicate (n : Nat) :
    hwe_free_calls (List.replicate n none) = [] := by
  simp [hwe_free_calls]

theorem hwe_free_calls_released (l : List (Option xe_hw_engine_snapshot)) :
    (hwe_free_calls l).filter releases_object = hwe_free_calls l := by
  rw [List.filter_eq_self]
  intro c hc
  simp only [hwe_free_calls, List.mem_filterMap] at hc
  obtain ⟨o, _, ho⟩ := hc
  cases o with
  | none => simp at ho
  | some s => simp at ho; subst ho; rfl

/-- Deleting an already deleted report releases nothing. -/
theorem snapshot_free_calls_zero (env : Env) (b : Bool) :
    (snapshot_free_calls env { snapshot_zero env with work_pending := b }).filter
      releases_object = [] := by
  simp [snapshot_free_calls, snapshot_zero, List.take_replicate, hwe_free_calls_replicate,
    releases_object]

/-- C9 (delete is total and idempotent): `xe_devcoredump_free` returns at once on a
null coredump; from any device state (before the render, after a successful render,
after a failed one) it completes and leaves the latch clear and the aggregate zeroed:
every component slot empty, no rendered buffer.  Applied a second time it yields the
same coredump state and releases nothing more. -/
theorem free_idempotent (env : Env) (xe : xe_device) :
    xe_devcoredump_free env none = none ∧
    ∃ once, xe_devcoredump_free env (some xe) = some once ∧
      once.devcoredump.captured = false ∧
      once.ss = snapshot_zero env ∧
      once.ss.ct = none ∧ once.ss.ge = none ∧ once.ss.job = none ∧ once.ss.vm = none ∧
      (∀ o ∈ once.ss.hwe, o = none) ∧
      once.ss.read_buffer = none ∧ once.ss.read_size = 0 ∧ once.ss.work_pending = false ∧
      ∃ twice, xe_devcoredump_free env (some once) = some twice ∧
        twice.devcoredump = once.devcoredump ∧
        released twice = released once := by
  refine ⟨rfl, _, xe_devcoredump_free_eq env xe, by simp, by simp, by simp [snapshot_zero],
    by simp [snapshot_zero], by simp [snapshot_zero], by simp [snapshot_zero], ?_,
    by simp [snapshot_zero], by simp [snapshot_zero], by simp [snapshot_zero],
    _, xe_devcoredump_free_eq env _, ?_, ?_⟩
  · intro o ho
    simp only [ss_add_calls, ss_set_ss, snapshot_zero] at ho
    exact (List.mem_replicate.mp ho).2
  · rfl
  · simp only [released, calls_add_calls, calls_set_ss, calls_set_captured, ss_add_calls,
      ss_set_ss, List.filter_append, snapshot_free_calls_zero]
    simp [releases_object, snapshot_zero]

/-! ## Reading the report -/

/-- What `xe_devcoredump_read` returns once the worker has been joined. -/
theorem xe_devcoredump_read_eq (env : Env) (buffer : Text) (offset count : Nat)
    (xe joined : xe_device) (hf : flush_work env xe = some joined) :
    xe_devcoredump_read env buffer offset count (some xe) =
      match joined.ss.read_buffer with
      | none => some { ret := -ENODEV, buffer := buffer, data := some joined }
      | some rb =>
        if offset ≥ joined.ss.read_size then
          some { ret := 0, buffer := buffer, data := some joined }
        else
          some { ret := ((min count (joined.ss.read_size - offset) : Nat) : Int)
                 buffer := memcpy buffer 0
                   ((rb.drop offset).take (min count (joined.ss.read_size - offset)))
                 data := some joined } := by
  unfold xe_devcoredump_read
  simp only [hf]
  cases joined.ss.read_buffer with
  | none => rfl
  | some rb =>
    simp only []
    by_cases ho : offset ≥ joined.ss.read_size
    · simp only [if_pos ho]
    · simp only [if_neg ho]
      by_cases hc : count < joined.ss.read_size - offset
      · simp only [if_pos hc, Nat.min_eq_left (Nat.le_of_lt hc)]
      · simp only [if_neg hc, Nat.min_eq_right (Nat.le_of_not_lt hc)]

/-- Joining the worker when no work is pending only records the call. -/
theorem flush_work_idle (env : Env) (xe : xe_device) (h : xe.ss.work_pending = false) :
    flush_work env xe = some (xe.call .flush_work) := by
  unfold flush_work
  simp [h]

/-- C3 (read range): once the worker has been joined and a rendered buffer exists, with
`L = read.size` its recorded length, `xe_devcoredump_read` returns exactly
`min(count, max(0, L - offset))` for every `offset ≥ 0` and every `count`; in particular
`0` for `offset = L` and for every `offset > L`. -/
theorem read_count (env : Env) (buffer : Text) (offset count : Nat)
    (xe joined : xe_device) (rb : Text)
    (hf : flush_work env xe = some joined) (hb : joined.ss.read_buffer = some rb) :
    ∃ r, xe_devcoredump_read env buffer offset count (some xe) = some r ∧
      r.ret = ((min count (joined.ss.read_size - offset) : Nat) : Int) ∧
      (joined.ss.read_size ≤ offset → r.ret = 0) := by
  rw [xe_devcoredump_read_eq env buffer offset count xe joined hf, hb]
  simp only []
  by_cases ho : offset ≥ joined.ss.read_size
  · rw [if_pos ho]
    refine ⟨_, rfl, ?_, fun _ => rfl⟩
    simp [Nat.sub_eq_zero_of_le ho]
  · rw [if_neg ho]
    exact ⟨_, rfl, rfl, fun h => absurd h ho⟩

/-- C3, exercised: reading 10 bytes at offset 2 of the five-byte report returns 3,
and reading at offset 5 returns 0. -/
theorem read_count_witness :
    flush_work env0 xe_ready = some (xe_ready.call .flush_work) ∧
    (xe_ready.call .flush_work).ss.read_buffer = some "hello".toList ∧
    (∃ r, xe_devcoredump_read env0 [] 2 10 (some xe_ready) = some r ∧
      r.ret = ((min 10 ((xe_ready.call .flush_work).ss.read_size - 2) : Nat) : Int) ∧
      ((xe_ready.call .flush_work).ss.read_size ≤ 2 → r.ret = 0)) :=
  ⟨rfl, rfl, read_count env0 [] 2 10 xe_ready (xe_ready.call .flush_work) "hello".toList
    rfl rfl⟩

/-- A read that returns no byte (zero or an error) leaves the destination alone. -/
theorem read_nothing_written (env : Env) (buffer : Text) (offset count : Nat)
    (data : Option xe_device) (r : read_result)
    (hr : xe_devcoredump_read env buffer offset count data = some r) (h0 : r.ret ≤ 0) :
    r.buffer = buffer := by
  cases data with
  | none =>
    simp only [xe_devcoredump_read, Option.some.injEq] at hr
    rw [← hr]
  | some xe =>
    cases hf : flush_work env xe with
    | none => simp [xe_devcoredump_read, hf] at hr
    | some joined =>
      rw [xe_devcoredump_read_eq env buffer offset count xe joined hf] at hr
      cases hb : joined.ss.read_buffer with
      | none =>
        simp only [hb, Option.some.injEq] at hr
        rw [← hr]
      | some rb =>
        simp only [hb] at hr
        by_cases ho : offset ≥ joined.ss.read_size
        · rw [if_pos ho, Option.some.injEq] at hr
          rw [← hr]
        · rw [if_neg ho, Option.some.injEq] at hr
          rw [← hr] at h0 ⊢
          have hz : min count (joined.ss.read_size - offset) = 0 := by
            simp only at h0
            omega
          simp only [hz, List.take_zero, memcpy_zero_nil]

/-- C4 (read content): once the worker has been joined and a rendered buffer `rb` of
`read.size` bytes exists, a read that returns `n` leaves in the first `n` bytes of the
destination exactly the bytes `[offset, offset + n)` of `rb`, leaves the rest of the
destination alone, and hands the device back with the same rendered buffer (the whole
aggregate is untouched when no work was pending).  A read that returns `0` or an
error, on any device or on a null one, does not write to the destination. -/
theorem read_bytes (env : Env) (buffer : Text) (offset count : Nat)
    (xe joined : xe_device) (rb : Text)
    (hf : flush_work env xe = some joined) (hb : joined.ss.read_buffer = some rb)
    (hsize : joined.ss.read_size = rb.length) :
    (∃ (r : read_result) (n : Nat),
      xe_devcoredump_read env buffer offset count (some xe) = some r ∧
      r.ret = (n : Int) ∧ n ≤ count ∧
      r.buffer.take n = (rb.drop offset).take n ∧
      ((rb.drop offset).take n).length = n ∧
      r.buffer.drop n = buffer.drop n ∧
      r.data = some joined ∧
      (xe.ss.work_pending = false → joined.ss = xe.ss)) ∧
    (∀ (data : Option xe_device) (r : read_result),
      xe_devcoredump_read env buffer offset count data = some r → r.ret ≤ 0 →
        r.buffer = buffer) := by
  refine ⟨?_, fun data r hr h0 => read_nothing_written env buffer offset count data r hr h0⟩
  have hidle : xe.ss.work_pending = false → joined.ss = xe.ss := by
    intro hp
    rw [flush_work_idle env xe hp, Option.some.injEq] at hf
    rw [← hf]; rfl
  rw [xe_devcoredump_read_eq env buffer offset count xe joined hf, hb]
  simp only []
  by_cases ho : offset ≥ joined.ss.read_size
  · rw [if_pos ho]
    exact ⟨_, 0, rfl, rfl, Nat.zero_le _, by simp, by simp, by simp, rfl, hidle⟩
  · rw [if_neg ho]
    have hlen : ((rb.drop offset).take (min count (joined.ss.read_size - offset))).length
        = min count (joined.ss.read_size - offset) := by
      simp only [List.length_take, List.length_drop, hsize]
      omega
    refine ⟨_, min count (joined.ss.read_size - offset), rfl, rfl, Nat.min_le_left _ _,
      ?_, hlen, ?_, rfl, hidle⟩
    · simp only [memcpy, List.take_zero, List.nil_append]
      rw [List.take_append_of_le_length (by rw [hlen])]
      rw [List.take_take, Nat.min_self]
    · simp only [memcpy, List.take_zero, List.nil_append, Nat.zero_add]
      rw [List.drop_append_of_le_length (by rw [hlen]), hlen]
      simp [List.drop_eq_nil_of_le, hlen]

/-- C4, exercised: reading 3 bytes at offset 1 of "hello" into "0123456789". -/
theorem read_bytes_witness :
    flush_work env0 xe_ready = some (xe_ready.call .flush_work) ∧
    (xe_ready.call .flush_work).ss.read_buffer = some "hello".toList ∧
    (xe_ready.call .flush_work).ss.read_size = "hello".toList.length ∧
    ∃ (r : read_result) (n : Nat),
      xe_devcoredump_read env0 "0123456789".toList 1 3 (some xe_ready) = some r ∧
      r.ret = (n : Int) ∧ n ≤ 3 ∧
      r.buffer.take n = ("hello".toList.drop 1).take n ∧
      (("hello".toList.drop 1).take n).length = n ∧
      r.buffer.drop n = "0123456789".toList.drop n ∧
      r.data = some (xe_ready.call .flush_work) ∧
      (xe_ready.ss.work_pending = false → (xe_ready.call .flush_work).ss = xe_ready.ss) :=
  ⟨rfl, rfl, rfl, (read_bytes env0 "0123456789".toList 1 3 xe_ready
    (xe_ready.call .flush_work) "hello".toList rfl rfl rfl).1⟩

/-- The read of C4's example, evaluated: 3 bytes, "ell" over the start of the
destination. -/
theorem read_bytes_example :
    xe_devcoredump_read env0 "0123456789".toList 1 3 (some xe_ready) =
      some { ret := 3, buffer := "ell3456789".toList,
             data := some (xe_ready.call .flush_work) } := by
  decide

/-- C5 (not available): `xe_devcoredump_read` returns `-ENODEV`, whatever the offset
and count, when its data pointer is null, and when the aggregate has no rendered buffer
at the time of the check, that is after the join (in particular when no work is
pending and `read.buffer` is null); it returns a non-negative count only when a
rendered buffer exists. -/
theorem read_not_available (env : Env) (buffer : Text) (offset count : Nat) :
    (∃ r, xe_devcoredump_read env buffer offset count none = some r ∧ r.ret = -ENODEV) ∧
    (∀ xe joined : xe_device, flush_work env xe = some joined →
      joined.ss.read_buffer = none →
        ∃ r, xe_devcoredump_read env buffer offset count (some xe) = some r ∧
          r.ret = -ENODEV) ∧
    (∀ xe : xe_device, xe.ss.work_pending = false → xe.ss.read_buffer = none →
        ∃ r, xe_devcoredump_read env buffer offset count (some xe) = some r ∧
          r.ret = -ENODEV) ∧
    (∀ (data : Option xe_device) (r : read_result),
      xe_devcoredump_read env buffer offset count data = some r → 0 ≤ r.ret →
        ∃ xe joined rb, data = some xe ∧ flush_work env xe = some joined ∧
          joined.ss.read_buffer = some rb) := by
  have hjoined : ∀ xe joined : xe_device, flush_work env xe = some joined →
      joined.ss.read_buffer = none →
        ∃ r, xe_devcoredump_read env buffer offset count (some xe) = some r ∧
          r.ret = -ENODEV := by
    intro xe joined hf hb
    rw [xe_devcoredump_read_eq env buffer offset count xe joined hf, hb]
    exact ⟨_, rfl, rfl⟩
  refine ⟨⟨_, rfl, rfl⟩, hjoined, ?_, ?_⟩
  · intro xe hp hb
    exact hjoined xe _ (flush_work_idle env xe hp) hb
  · intro data r hr h0
    cases data with
    | none =>
      simp only [xe_devcoredump_read, Option.some.injEq] at hr
      rw [← hr] at h0
      simp [ENODEV] at h0
    | some xe =>
      cases hf : flush_work env xe with
      | none => simp [xe_devcoredump_read, hf] at hr
      | some joined =>
        cases hb : joined.ss.read_buffer with
        | none =>
          rw [xe_devcoredump_read_eq env buffer offset count xe joined hf, hb] at hr
          simp only [Option.some.injEq] at hr
          rw [← hr] at h0
          simp [ENODEV] at h0
        | some rb => exact ⟨xe, joined, rb, rfl, hf, hb⟩

/-- C5, exercised: a read on the pristine device `xe0`, which has no rendered buffer
and no pending work, is refused. -/
theorem read_not_available_witness :
    xe0.ss.work_pending = false ∧ xe0.ss.read_buffer = none ∧
    ∃ r, xe_devcoredump_read env0 [] 0 16 (some xe0) = some r ∧ r.ret = -ENODEV :=
  ⟨rfl, rfl, (read_not_available env0 [] 0 16).2.2.1 xe0 rfl rfl⟩

/-! ## Allocation failure -/

theorem report_size_pending (env : Env) (ss : xe_devcoredump_snapshot) (gt : xe_gt)
    (b : Bool) : report_size env { ss with work_pending := b } gt = report_size env ss gt :=
  rfl

/-- No operation other than the deletion gives a failed render a buffer. -/
theorem run_op_render_failed (xe : xe_device) (op : Op) (h : render_failed xe) :
    ∃ xe2, run_op xe op = some xe2 ∧ render_failed xe2 := by
  obtain ⟨hc, hp, hb⟩ := h
  cases op with
  | fault env job =>
    refine ⟨_, rfl, ?_⟩
    rw [xe_devcoredump_latched env xe job hc]
    exact ⟨hc, hp, hb⟩
  | work env =>
    refine ⟨xe, ?_, hc, hp, hb⟩
    simp [run_op, hp]
  | read env buffer offset count =>
    obtain ⟨r, hr, hd⟩ := xe_devcoredump_read_data env buffer offset count xe _
      (flush_work_idle env xe hp)
    refine ⟨xe.call .flush_work, ?_, hc, hp, hb⟩
    simp only [run_op, hr, hd]

theorem run_ops_render_failed (ops : List Op) :
    ∀ xe : xe_device, render_failed xe →
      ∃ xe2, run_ops xe ops = some xe2 ∧ render_failed xe2 := by
  induction ops with
  | nil => intro xe h; exact ⟨xe, rfl, h⟩
  | cons op ops ih =>
    intro xe h
    obtain ⟨xe1, h1, h2⟩ := run_op_render_failed xe op h
    obtain ⟨xe2, h3, h4⟩ := ih xe1 h2
    exact ⟨xe2, by simp only [run_ops, h1, h3], h4⟩

/-- C7 (allocation failure): when the buffer allocation of the worker fails, the worker
returns with `read.buffer` null and the latch still set; and after any sequence of
further operations other than `xe_devcoredump_free` (reads, faults, work queue
activity), the buffer is still null, the latch still set, and `xe_devcoredump_read`
returns `-ENODEV` for every offset and count. -/
theorem alloc_failure_not_available (env : Env) (xe : xe_device) (gt : xe_gt)
    (ops : List Op) (env2 : Env) (buffer : Text) (offset count : Nat)
    (hc : xe.devcoredump.captured = true) (hgt : xe.ss.gt = some gt)
    (hk : env.kvmalloc (report_size env xe.ss gt) = none) :
    (∃ w, xe_devcoredump_deferred_snap_work env xe = some w ∧
      w.ss.read_buffer = none ∧ w.devcoredump.captured = true) ∧
    ∃ failed, process_one_work env xe = some failed ∧
      failed.ss.read_buffer = none ∧ failed.devcoredump.captured = true ∧
      ∃ later, run_ops failed ops = some later ∧
        later.ss.read_buffer = none ∧ later.devcoredump.captured = true ∧
        ∃ r, xe_devcoredump_read env2 buffer offset count (some later) = some r ∧
          r.ret = -ENODEV ∧ r.buffer = buffer := by
  refine ⟨⟨_, snap_work_alloc_fails env xe gt hgt hk, by simp, by simpa using hc⟩, ?_⟩
  have hw := snap_work_alloc_fails env (xe.set_ss { xe.ss with work_pending := false }) gt
    (by simpa using hgt) (by rw [ss_set_ss, report_size_pending]; exact hk)
  have hfail : render_failed ((xe.set_ss
      { snapshot_enriched env (xe.set_ss { xe.ss with work_pending := false }).ss with
        read_size := report_size env (xe.set_ss { xe.ss with work_pending := false }).ss gt
        read_buffer := none }).add_calls
      (snap_work_calls env gt
        (report_size env (xe.set_ss { xe.ss with work_pending := false }).ss gt))) :=
    ⟨by simpa using hc, by simp [snapshot_enriched], by simp⟩
  refine ⟨_, hw, hfail.2.2, hfail.1, ?_⟩
  obtain ⟨later, h1, h2, h3, h4⟩ := run_ops_render_failed ops _ hfail
  refine ⟨later, h1, h4, h2, ?_⟩
  rw [xe_devcoredump_read_eq env2 buffer offset count later _ (flush_work_idle env2 later h3)]
  have : (later.call .flush_work).ss.read_buffer = none := h4
  rw [this]
  exact ⟨_, rfl, rfl, rfl⟩

/-- C7, exercised: the capture of `job0` on the pristine device under an allocator that
always fails, then a read, a fault and another read. -/
theorem alloc_failure_not_available_witness :
    (xe_devcoredump env0_nomem xe0 job0).devcoredump.captured = true ∧
    (xe_devcoredump env0_nomem xe0 job0).ss.gt = some gt0 ∧
    env0_nomem.kvmalloc (report_size env0_nomem (xe_devcoredump env0_nomem xe0 job0).ss gt0)
      = none ∧
    ∃ failed, process_one_work env0_nomem (xe_devcoredump env0_nomem xe0 job0) = some failed ∧
      failed.ss.read_buffer = none ∧ failed.devcoredump.captured = true ∧
      ∃ later, run_ops failed [.read env0 [] 0 8, .fault env0 job1] = some later ∧
        later.ss.read_buffer = none ∧ later.devcoredump.captured = true ∧
        ∃ r, xe_devcoredump_read env0 [] 4 8 (some later) = some r ∧
          r.ret = -ENODEV ∧ r.buffer = [] :=
  ⟨rfl, rfl, rfl, (alloc_failure_not_available env0_nomem
    (xe_devcoredump env0_nomem xe0 job0) gt0 [.read env0 [] 0 8, .fault env0 job1] env0 [] 4 8
    rfl rfl rfl).2⟩

/-! ## Releases over a report lifetime -/

theorem hwe_capture_step_length (env : Env) (q : xe_exec_queue) (adj : Nat)
    (hwe : List (Option xe_hw_engine_snapshot)) (id : Nat) :
    (hwe_capture_step env q adj hwe id).length = hwe.length := by
  unfold hwe_capture_step
  rcases q.gt.hw_engines[id]? with _ | _ | e
  · rfl
  · rfl
  · by_cases hc : e.hwe_class ≠ q.hwe.hwe_class ∨ BIT e.logical_instance &&& adj = 0
    · simp only [if_pos hc, List.length_set]
    · simp only [if_neg hc, List.length_set]

theorem hwe_capture_fold_length (env : Env) (q : xe_exec_queue) (adj : Nat) (l : List Nat) :
    ∀ hwe : List (Option xe_hw_engine_snapshot),
      (l.foldl (hwe_capture_step env q adj) hwe).length = hwe.length := by
  induction l with
  | nil => intro hwe; rfl
  | cons id l ih =>
    intro hwe
    rw [List.foldl_cons, ih, hwe_capture_step_length]

/-- The engine loop of the capture keeps the number of slots. -/
theorem captured_hwe_length (env : Env) (q : xe_exec_queue)
    (hwe : List (Option xe_hw_engine_snapshot)) :
    (captured_hwe env q hwe).length = hwe.length :=
  hwe_capture_fold_length env q _ _ hwe

/-- The releases among the calls of `xe_devcoredump_snapshot_free`: one per populated
slot. -/
theorem snapshot_free_calls_released (env : Env) (ss : xe_devcoredump_snapshot) :
    (snapshot_free_calls env ss).filter releases_object = slot_releases env ss := by
  unfold snapshot_free_calls slot_releases
  simp only [List.filter_append, hwe_free_calls_released]
  cases ss.ct <;> cases ss.ge <;> cases ss.job <;> cases ss.vm <;>
    simp [opt_release, releases_object]

theorem snapshot_calls_released (env : Env) (job : xe_sched_job) :
    (snapshot_calls env job).filter releases_object = [] := by
  simp [snapshot_calls, releases_object]

theorem snap_work_calls_released (env : Env) (gt : xe_gt) (size : Nat) :
    (snap_work_calls env gt size).filter releases_object = [] := by
  unfold snap_work_calls
  split <;> simp [releases_object]

/-- An aggregate of `XE_NUM_HW_ENGINES` slots has every slot empty after
`xe_devcoredump_snapshot_free`, so freeing it again releases nothing. -/
theorem slot_releases_freed (env : Env) (ss : xe_devcoredump_snapshot) (b : Bool)
    (hlen : ss.hwe.length = env.XE_NUM_HW_ENGINES) :
    slot_releases env { snapshot_freed env ss with work_pending := b } = [] := by
  have hdrop : ss.hwe.drop env.XE_NUM_HW_ENGINES = [] :=
    List.drop_eq_nil_of_le (Nat.le_of_eq hlen)
  simp only [slot_releases, snapshot_freed, opt_release, hlen, hdrop, Nat.min_self,
    List.append_nil, List.take_replicate, hwe_free_calls_replicate]

/-- The releases of an aggregate depend on its component slots only. -/
theorem slot_releases_congr (env : Env) (a b : xe_devcoredump_snapshot)
    (hct : a.ct = b.ct) (hge : a.ge = b.ge) (hjob : a.job = b.job) (hhwe : a.hwe = b.hwe)
    (hvm : a.vm = b.vm) : slot_releases env a = slot_releases env b := by
  unfold slot_releases
  rw [hct, hge, hjob, hhwe, hvm]

/-- An aggregate whose slots are all empty has nothing to release. -/
theorem slot_releases_empty (env : Env) (a : xe_devcoredump_snapshot) (n : Nat)
    (hct : a.ct = none) (hge : a.ge = none) (hjob : a.job = none)
    (hhwe : a.hwe = List.replicate n none) (hvm : a.vm = none) :
    slot_releases env a = [] := by
  unfold slot_releases
  rw [hct, hge, hjob, hhwe, hvm]
  simp [opt_release, List.take_replicate, hwe_free_calls_replicate]

/-- The queued worker, run by the work queue on an aggregate with a GT: either the
allocation fails and the enriched slots are kept without a buffer, or it succeeds, the
slots are released and emptied and the buffer holds the report. -/
theorem process_one_work_spec (env : Env) (xe : xe_device) (gt : xe_gt)
    (hgt : xe.ss.gt = some gt) (hlen : xe.ss.hwe.length = env.XE_NUM_HW_ENGINES) :
    ∃ r, process_one_work env xe = some r ∧
      ((env.kvmalloc (report_size env xe.ss gt) = none ∧
        released r = released xe ∧
        slot_releases env r.ss = slot_releases env (snapshot_enriched env xe.ss) ∧
        r.ss.read_buffer = none) ∨
       (env.kvmalloc (report_size env xe.ss gt) ≠ none ∧
        released r = released xe ++ slot_releases env (snapshot_enriched env xe.ss) ∧
        slot_releases env r.ss = [] ∧
        r.ss.read_buffer = some ((report_text env xe.ss gt).take INT_MAX))) := by
  have hgt2 : (xe.set_ss { xe.ss with work_pending := false }).ss.gt = some gt := by
    simpa using hgt
  cases hk : env.kvmalloc (report_size env xe.ss gt) with
  | none =>
    have hw := snap_work_alloc_fails env _ gt hgt2
      (by rw [ss_set_ss, report_size_pending]; exact hk)
    refine ⟨_, hw, Or.inl ⟨rfl, ?_, ?_, by simp⟩⟩
    · simp [released, snap_work_calls_released]
    · exact slot_releases_congr env _ _ rfl rfl rfl rfl rfl
  | some fresh =>
    have hw := snap_work_alloc_ok env _ gt fresh hgt2
      (by rw [ss_set_ss, report_size_pending]; exact hk)
    refine ⟨_, hw, Or.inr ⟨by simp, ?_, ?_, ?_⟩⟩
    · simp only [released, calls_add_calls, calls_set_ss, List.filter_append,
        snap_work_calls_released, snapshot_free_calls_released, List.append_nil]
      exact congrArg _ (slot_releases_congr env _ _ rfl rfl rfl rfl rfl)
    · refine slot_releases_empty env _ env.XE_NUM_HW_ENGINES rfl rfl rfl ?_ rfl
      have hdrop : xe.ss.hwe.drop env.XE_NUM_HW_ENGINES = [] :=
        List.drop_eq_nil_of_le (Nat.le_of_eq hlen)
      simp [snapshot_freed, snapshot_enriched, hlen, hdrop]
    · simp only [ss_add_calls, ss_set_ss, snapshot_freed]
      rfl

/-- The releases made by `xe_devcoredump_free`: one per populated slot, then the
rendered buffer when there is one. -/
theorem free_releases (env : Env) (xe : xe_device) :
    ∃ final, xe_devcoredump_free env (some xe) = some final ∧
      released final = released xe ++ slot_releases env xe.ss
        ++ opt_release .kvfree xe.ss.read_buffer ∧
      final.ss = snapshot_zero env ∧ final.devcoredump.captured = false := by
  refine ⟨_, xe_devcoredump_free_eq env xe, ?_, by simp, by simp⟩
  simp only [released, calls_add_calls, calls_set_ss, calls_set_captured,
    List.filter_append, snapshot_free_calls_released]
  have hs : slot_releases env { xe.ss with work_pending := false } = slot_releases env xe.ss :=
    slot_releases_congr env _ _ rfl rfl rfl rfl rfl
  rw [hs]
  cases xe.ss.read_buffer <;> simp [releases_object, opt_release]

/-- C8 (release exactly once): over a report lifetime that starts on a pristine device
(latch clear, aggregate zeroed) — capture by `xe_devcoredump`, the worker run by the
work queue with the allocation succeeding or failing, then `xe_devcoredump_free` — the
releases made are, in order, exactly one per component snapshot captured non-null (CT,
queue, job, every populated engine slot, VM; the queue and VM snapshots as enriched in
place by the worker), followed by exactly one `kvfree` of the rendered buffer when the
worker produced one.  Nothing is released twice, and the final aggregate is zeroed, so
nothing stays behind. -/
theorem release_exactly_once (env : Env) (xe : xe_device) (job : xe_sched_job)
    (hc : xe.devcoredump.captured = false) (hz : xe.ss = snapshot_zero env) :
    ∃ rendered final,
      process_one_work env (xe_devcoredump env xe job) = some rendered ∧
      xe_devcoredump_free env (some rendered) = some final ∧
      released final = released xe
        ++ (opt_release .xe_guc_ct_snapshot_free
              (env.xe_guc_ct_snapshot_capture job.q.gt.guc_ct true)
          ++ opt_release .xe_guc_exec_queue_snapshot_free
              ((env.xe_guc_exec_queue_snapshot_capture job.q).map
                env.xe_guc_exec_queue_snapshot_capture_delayed)
          ++ opt_release .xe_sched_job_snapshot_free (env.xe_sched_job_snapshot_capture job)
          ++ hwe_free_calls (xe_devcoredump env xe job).ss.hwe
          ++ opt_release .xe_vm_snapshot_free
              ((env.xe_vm_snapshot_capture job.q.vm).map env.xe_vm_snapshot_capture_delayed))
        ++ opt_release .kvfree rendered.ss.read_buffer ∧
      (rendered.ss.read_buffer = none ↔
        env.kvmalloc (report_size env (xe_devcoredump env xe job).ss job.q.gt) = none) ∧
      final.ss = snapshot_zero env ∧ final.devcoredump.captured = false := by
  have hfirst := xe_devcoredump_first env xe job hc
  have hgt : (xe_devcoredump env xe job).ss.gt = some job.q.gt := by
    rw [hfirst]; simp [snapshot_captured]
  have hlen : (xe_devcoredump env xe job).ss.hwe.length = env.XE_NUM_HW_ENGINES := by
    rw [hfirst]
    simp [snapshot_captured, captured_hwe_length, hz, snapshot_zero]
  have hrel : released (xe_devcoredump env xe job) = released xe := by
    rw [hfirst]
    simp [released, snapshot_calls_released, releases_object]
  have hslots : slot_releases env (snapshot_enriched env (xe_devcoredump env xe job).ss) =
      opt_release .xe_guc_ct_snapshot_free
              (env.xe_guc_ct_snapshot_capture job.q.gt.guc_ct true)
          ++ opt_release .xe_guc_exec_queue_snapshot_free
              ((env.xe_guc_exec_queue_snapshot_capture job.q).map
                env.xe_guc_exec_queue_snapshot_capture_delayed)
          ++ opt_release .xe_sched_job_snapshot_free (env.xe_sched_job_snapshot_capture job)
          ++ hwe_free_calls (xe_devcoredump env xe job).ss.hwe
          ++ opt_release .xe_vm_snapshot_free
              ((env.xe_vm_snapshot_capture job.q.vm).map
                env.xe_vm_snapshot_capture_delayed) := by
    have htake : (snapshot_enriched env (xe_devcoredump env xe job).ss).hwe.take
        env.XE_NUM_HW_ENGINES = (xe_devcoredump env xe job).ss.hwe :=
      List.take_of_length_le (Nat.le_of_eq hlen)
    unfold slot_releases
    rw [htake, hfirst]
    simp [snapshot_enriched, snapshot_captured]
  obtain ⟨rendered, hw, hcases⟩ :=
    process_one_work_spec env (xe_devcoredump env xe job) job.q.gt hgt hlen
  obtain ⟨final, hf, hfr, hfz, hfc⟩ := free_releases env rendered
  refine ⟨rendered, final, hw, hf, ?_, ?_, hfz, hfc⟩
  · rw [hfr, ← hslots]
    rcases hcases with ⟨_, h2, h3, _⟩ | ⟨_, h2, h3, _⟩
    · rw [h2, h3, hrel]
    · rw [h2, h3, hrel, List.append_nil]
  · rcases hcases with ⟨h1, _, _, h4⟩ | ⟨h1, _, _, h4⟩
    · exact ⟨fun _ => h1, fun _ => h4⟩
    · exact ⟨fun h => (by rw [h4] at h; cases h), fun h => absurd h h1⟩

/-- C8, exercised on the pristine device `xe0` with the job `job0`. -/
theorem release_exactly_once_witness :
    xe0.devcoredump.captured = false ∧ xe0.ss = snapshot_zero env0 ∧
    ∃ rendered final,
      process_one_work env0 (xe_devcoredump env0 xe0 job0) = some rendered ∧
      xe_devcoredump_free env0 (some rendered) = some final ∧
      released final = released xe0
        ++ (opt_release .xe_guc_ct_snapshot_free
              (env0.xe_guc_ct_snapshot_capture job0.q.gt.guc_ct true)
          ++ opt_release .xe_guc_exec_queue_snapshot_free
              ((env0.xe_guc_exec_queue_snapshot_capture job0.q).map
                env0.xe_guc_exec_queue_snapshot_capture_delayed)
          ++ opt_release .xe_sched_job_snapshot_free (env0.xe_sched_job_snapshot_capture job0)
          ++ hwe_free_calls (xe_devcoredump env0 xe0 job0).ss.hwe
          ++ opt_release .xe_vm_snapshot_free
              ((env0.xe_vm_snapshot_capture job0.q.vm).map env0.xe_vm_snapshot_capture_delayed))
        ++ opt_release .kvfree rendered.ss.read_buffer ∧
      (rendered.ss.read_buffer = none ↔
        env0.kvmalloc (report_size env0 (xe_devcoredump env0 xe0 job0).ss job0.q.gt) = none) ∧
      final.ss = snapshot_zero env0 ∧ final.devcoredump.captured = false :=
  ⟨rfl, rfl, release_exactly_once env0 xe0 job0 rfl rfl⟩

/-! ## The two-pass render -/

/-- C6, as amended (two-pass render): in the worker, on the enriched aggregate, the
size-only pass returns `min(length of the full report, INT_MAX)`; the second pass, given
a buffer of exactly that size (whatever it held), writes exactly as many bytes and
leaves in it the first `INT_MAX` bytes of the report; the worker records that size in
`read.size` and that buffer in `read.buffer`.  When the full report is at most
`INT_MAX` bytes, `read.size` is the length of the full report and the buffer holds the
complete text. -/
theorem two_pass_render (env : Env) (xe : xe_device) (gt : xe_gt) (fresh : Nat → Char)
    (hgt : xe.ss.gt = some gt)
    (hk : env.kvmalloc (report_size env xe.ss gt) = some fresh) :
    __xe_devcoredump_read env none INT_MAX (snap_work_enrich env gt xe)
      = some (report_size env xe.ss gt, none) ∧
    __xe_devcoredump_read env (some ((List.range (report_size env xe.ss gt)).map fresh))
        (report_size env xe.ss gt) (snap_work_enrich env gt xe)
      = some (report_size env xe.ss gt, some ((report_text env xe.ss gt).take INT_MAX)) ∧
    (∃ r, xe_devcoredump_deferred_snap_work env xe = some r ∧
      r.ss.read_size = report_size env xe.ss gt ∧
      r.ss.read_buffer = some ((report_text env xe.ss gt).take INT_MAX)) ∧
    ((report_text env xe.ss gt).take INT_MAX).length = report_size env xe.ss gt ∧
    report_size env xe.ss gt = min (report_text env xe.ss gt).length INT_MAX ∧
    ((report_text env xe.ss gt).length ≤ INT_MAX →
      report_size env xe.ss gt = (report_text env xe.ss gt).length ∧
      (report_text env xe.ss gt).take INT_MAX = report_text env xe.ss gt) := by
  have hss := ss_snap_work_enrich env gt xe
  refine ⟨?_, ?_, ?_, ?_, rfl, ?_⟩
  · rw [xe_devcoredump_read_render env none INT_MAX _ _ gt hss hgt]
    rfl
  · rw [xe_devcoredump_read_render env _ _ _ _ gt hss hgt]
    have hb := second_pass_buffer env xe.ss gt fresh
    have hmin : min (coredump_text env (snapshot_enriched env xe.ss) gt).length
        (report_size env xe.ss gt) = report_size env xe.ss gt := by
      unfold report_size report_text
      omega
    unfold report_text at hb
    rw [hmin, Option.map_some', hb]
    rfl
  · exact ⟨_, snap_work_alloc_ok env xe gt fresh hgt hk, by simp [snapshot_freed],
      by simp [snapshot_freed]⟩
  · rw [List.length_take, report_size, Nat.min_comm]
  · intro hle
    exact ⟨Nat.min_eq_left hle, List.take_of_length_le hle⟩

/-- C6 as amended, exercised on the captured device `xe_captured`. -/
theorem two_pass_render_witness :
    xe_captured.ss.gt = some gt0 ∧
    env0.kvmalloc (report_size env0 xe_captured.ss gt0) = some (fun _ => '?') ∧
    ∃ r, xe_devcoredump_deferred_snap_work env0 xe_captured = some r ∧
      r.ss.read_size = report_size env0 xe_captured.ss gt0 ∧
      r.ss.read_buffer = some ((report_text env0 xe_captured.ss gt0).take INT_MAX) :=
  ⟨rfl, rfl, (two_pass_render env0 xe_captured gt0 (fun _ => '?') rfl rfl).2.2.1⟩

/-- The report of `xe_captured` under `env_big` is longer than `INT_MAX` bytes. -/
theorem report_text_big :
    INT_MAX < (report_text env_big xe_captured.ss gt0).length := by
  unfold report_text coredump_text
  rw [List.length_append]
  have hvm : (env_big.xe_vm_snapshot_print (snapshot_enriched env_big xe_captured.ss).vm).length
      = 2147483648 := List.length_replicate _ _
  rw [hvm]
  unfold INT_MAX
  omega

/-- C6, as stated, fails: with a VM dump of 2^31 bytes the worker completes with
`read.size = INT_MAX`, which is less than the length of the full report, and the buffer
does not hold the complete text. -/
theorem two_pass_render_counterexample :
    ∃ r, xe_devcoredump_deferred_snap_work env_big xe_captured = some r ∧
      r.ss.read_size = INT_MAX ∧
      r.ss.read_size < (report_text env_big xe_captured.ss gt0).length ∧
      r.ss.read_buffer ≠ some (report_text env_big xe_captured.ss gt0) := by
  have hsize : report_size env_big xe_captured.ss gt0 = INT_MAX :=
    Nat.min_eq_right (Nat.le_of_lt report_text_big)
  have hw := snap_work_alloc_ok env_big xe_captured gt0 (fun _ => '?') rfl rfl
  refine ⟨_, hw, ?_, ?_, ?_⟩
  · simpa [snapshot_freed] using hsize
  · have : report_size env_big xe_captured.ss gt0
        < (report_text env_big xe_captured.ss gt0).length := by
      rw [hsize]; exact report_text_big
    simpa [snapshot_freed] using this
  · intro h
    have hlen : ((report_text env_big xe_captured.ss gt0).take INT_MAX).length
        = (report_text env_big xe_captured.ss gt0).length := by
      have h2 : some ((report_text env_big xe_captured.ss gt0).take INT_MAX)
          = some (report_text env_big xe_captured.ss gt0) := by
        simpa [snapshot_freed] using h
      rw [Option.some.inj h2]
    rw [List.length_take] at hlen
    have := report_text_big
    omega

/-! ## The mask expansion -/

theorem and_BIT_ne_zero (adj i : Nat) : adj &&& BIT i ≠ 0 ↔ adj.testBit i = true := by
  unfold BIT
  rw [Nat.one_shiftLeft]
  constructor
  · intro h
    obtain ⟨j, hj⟩ := Nat.ne_zero_implies_bit_true h
    rw [Nat.testBit_and, Nat.testBit_two_pow] at hj
    simp only [Bool.and_eq_true, decide_eq_true_eq] at hj
    rw [hj.2]; exact hj.1
  · intro h h0
    have := congrArg (fun x => x.testBit i) h0
    simp only [Nat.testBit_and, Nat.testBit_two_pow_self, h, Nat.zero_testBit] at this
    exact absurd this (by decide)

theorem testBit_width_mask (w j : Nat) :
    (u32 ((1 <<< w) - 1)).testBit j = (decide (j < 32) && decide (j < w)) := by
  unfold u32
  rw [Nat.one_shiftLeft, Nat.testBit_mod_two_pow, Nat.testBit_two_pow_sub_one]

theorem testBit_expand (adj w i j : Nat) :
    (u32 (adj ||| (u32 ((1 <<< w) - 1) <<< i))).testBit j =
      (decide (j < 32) && (adj.testBit j || (decide (i ≤ j) && decide (j - i < w)))) := by
  have h := testBit_width_mask w (j - i)
  unfold u32 at h ⊢
  rw [Nat.testBit_mod_two_pow, Nat.testBit_or, Nat.testBit_shiftLeft, h]
  by_cases h1 : j < 32
  · by_cases h2 : i ≤ j
    · have h4 : j - i < 32 := by omega
      by_cases h3 : j - i < w
      · simp [h1, h2, h3, h4]
      · simp [h1, h2, h3]
    · have h3 : ¬ j ≥ i := h2
      simp [h1, h2, h3]
  · simp [h1]

theorem expand_mask_loop_spec (w max m : Nat) (hw : 1 < w) (hm : m < 2 ^ 32) :
    ∀ (fuel i adj : Nat), max ≤ i + fuel →
      (∀ j, i ≤ j → adj.testBit j = m.testBit j) →
      (∀ j, m.testBit j = true → adj.testBit j = true) →
      (∀ b, b < i → b < max → m.testBit b = true →
        (∀ p, p < b → b < p + w → m.testBit p = false) →
          ∀ j, b ≤ j → j < b + w → j < 32 → adj.testBit j = true) →
      (∀ j, m.testBit j = true →
        (expand_mask_loop w (u32 ((1 <<< w) - 1)) max fuel i adj).2.testBit j = true) ∧
      (∀ b, b < max → m.testBit b = true →
        (∀ p, p < b → b < p + w → m.testBit p = false) →
          ∀ j, b ≤ j → j < b + w → j < 32 →
            (expand_mask_loop w (u32 ((1 <<< w) - 1)) max fuel i adj).2.testBit j = true) := by
  have hm32 : ∀ j, m.testBit j = true → j < 32 := by
    intro j hj
    by_contra hge
    have h2 : 2 ^ 32 ≤ 2 ^ j := Nat.pow_le_pow_right (by decide) (Nat.le_of_not_lt hge)
    have h3 := Nat.testBit_implies_ge hj
    omega
  intro fuel
  induction fuel with
  | zero =>
    intro i adj hfuel _ hmono hdone
    exact ⟨hmono, fun b hb => hdone b (by omega) hb⟩
  | succ fuel ih =>
    intro i adj hfuel hhigh hmono hdone
    unfold expand_mask_loop
    by_cases hcond : w > 1 ∧ i < max
    · rw [if_pos hcond]
      by_cases hbit : adj &&& BIT i ≠ 0
      · rw [if_pos hbit]
        have hi : adj.testBit i = true := (and_BIT_ne_zero adj i).mp hbit
        apply ih (i + w) _ (by omega)
        · intro j hj
          rw [testBit_expand, hhigh j (by omega)]
          by_cases hmj : m.testBit j = true
          · simp [hmj, hm32 j hmj]
          · have : ¬ (j - i < w) := by omega
            simp [hmj, this]
        · intro j hj
          rw [testBit_expand]
          simp [hm32 j hj, hmono j hj]
        · intro b hb hbmax hmb hfree j hj1 hj2 hj3
          rw [testBit_expand]
          by_cases hlt : b < i
          · simp [hj3, hdone b hlt hbmax hmb hfree j hj1 hj2 hj3]
          · by_cases heq : b = i
            · subst heq
              have : j - b < w := by omega
              simp [hj3, hj1, this]
            · have hmi : m.testBit i = false := hfree i (by omega) (by omega)
              rw [← hhigh i (Nat.le_refl _), hi] at hmi
              exact absurd hmi (by decide)
      · rw [if_neg hbit]
        have hi : adj.testBit i = false := by
          cases h : adj.testBit i with
          | false => rfl
          | true => exact absurd ((and_BIT_ne_zero adj i).mpr h) hbit
        apply ih (i + 1) adj (by omega)
        · intro j hj; exact hhigh j (by omega)
        · exact hmono
        · intro b hb hbmax hmb hfree
          by_cases hlt : b < i
          · exact hdone b hlt hbmax hmb hfree
          · have heq : b = i := by omega
            subst heq
            rw [← hhigh b (Nat.le_refl _), hi] at hmb
            exact absurd hmb (by decide)
    · rw [if_neg hcond]
      have : max ≤ i := by
        by_contra h
        exact hcond ⟨hw, Nat.lt_of_not_le h⟩
      exact ⟨hmono, fun b hb => hdone b (by omega) hb⟩

/-- Below width 32 the strict mask is the total one. -/
theorem adj_logical_mask_strict_eq (env : Env) (q : xe_exec_queue) (hw : q.width < 32) :
    adj_logical_mask_strict env q = some (adj_logical_mask env q) := by
  unfold adj_logical_mask_strict width_mask
  rw [if_pos hw]
  rfl

/-- From width 32 on the strict mask has no value. -/
theorem adj_logical_mask_strict_undefined (env : Env) (q : xe_exec_queue)
    (hw : 32 ≤ q.width) : adj_logical_mask_strict env q = none := by
  unfold adj_logical_mask_strict width_mask
  rw [if_neg (by omega)]

/-- The loop sets no bit outside the windows it widens: a bit of the result is a bit of
the mask the loop started from or lies in the `w` positions from a position at which
the loop widens. -/
theorem expand_mask_hits_upper (w max : Nat) :
    ∀ (fuel i adj j : Nat),
      (expand_mask_loop w (u32 ((1 <<< w) - 1)) max fuel i adj).2.testBit j = true →
        adj.testBit j = true ∨
        ∃ h ∈ expand_mask_hits w (u32 ((1 <<< w) - 1)) max fuel i adj, h ≤ j ∧ j < h + w := by
  intro fuel
  induction fuel with
  | zero => intro i adj j hj; exact Or.inl hj
  | succ fuel ih =>
    intro i adj j hj
    unfold expand_mask_loop at hj
    unfold expand_mask_hits
    by_cases hcond : w > 1 ∧ i < max
    · rw [if_pos hcond] at hj ⊢
      by_cases hbit : adj &&& BIT i ≠ 0
      · rw [if_pos hbit] at hj ⊢
        rcases ih (i + w) _ j hj with h | ⟨h, hh, h1, h2⟩
        · rw [testBit_expand] at h
          simp only [Bool.and_eq_true, Bool.or_eq_true, decide_eq_true_eq] at h
          rcases h.2 with h3 | ⟨h3, h4⟩
          · exact Or.inl h3
          · exact Or.inr ⟨i, List.mem_cons_self _ _, h3, by omega⟩
        · exact Or.inr ⟨h, List.mem_cons_of_mem _ hh, h1, h2⟩
      · rw [if_neg hbit] at hj ⊢
        exact ih (i + 1) adj j hj
    · rw [if_neg hcond] at hj
      exact Or.inl hj

/-- The adjusted mask has no bit besides those of the original mask and the `width`
positions from each position at which the scan widens. -/
theorem adj_mask_no_other_bit (env : Env) (q : xe_exec_queue)
    (hm : q.logical_mask < 2 ^ 32) (j : Nat)
    (hj : (adj_logical_mask env q).testBit j = true) :
    q.logical_mask.testBit j = true ∨
      ∃ h ∈ widened_at env q, h ≤ j ∧ j < h + q.width := by
  have hu : u32 q.logical_mask = q.logical_mask := Nat.mod_eq_of_lt hm
  unfold adj_logical_mask at hj
  unfold widened_at
  rw [hu] at hj ⊢
  exact expand_mask_hits_upper q.width _ _ 0 _ j hj

/-- Width 2 with mask `0b11`: the scan widens at bit 0 and then jumps to bit 2, so bit 1
is not a position at which it widens and the adjusted mask stays `0b11`. -/
theorem widened_at_overlap :
    widened_at env0 { q0 with logical_mask := 3, width := 2 } = [0] ∧
    adj_logical_mask env0 { q0 with logical_mask := 3, width := 2 } = 3 := by
  decide

/-! ## The mask expansion: exact results -/

/-- The scan adds no spurious bit: every bit of the result is a bit of the original
mask `m` or lies in the `w` positions starting at a set bit of `m` below `max`. -/
theorem expand_mask_loop_upper (w max m : Nat) (hm : m < 2 ^ 32) :
    ∀ (fuel i adj : Nat),
      (∀ j, i ≤ j → adj.testBit j = m.testBit j) →
      (∀ j, adj.testBit j = true →
        m.testBit j = true ∨ ∃ b, b < max ∧ m.testBit b = true ∧ b ≤ j ∧ j < b + w) →
      ∀ j, (expand_mask_loop w (u32 ((1 <<< w) - 1)) max fuel i adj).2.testBit j = true →
        m.testBit j = true ∨ ∃ b, b < max ∧ m.testBit b = true ∧ b ≤ j ∧ j < b + w := by
  have hm32 : ∀ j, m.testBit j = true → j < 32 := by
    intro j hj
    by_contra hge
    have h2 : 2 ^ 32 ≤ 2 ^ j := Nat.pow_le_pow_right (by decide) (Nat.le_of_not_lt hge)
    have h3 := Nat.testBit_implies_ge hj
    omega
  intro fuel
  induction fuel with
  | zero => intro i adj _ hup; exact hup
  | succ fuel ih =>
    intro i adj hhigh hup
    unfold expand_mask_loop
    by_cases hcond : w > 1 ∧ i < max
    · rw [if_pos hcond]
      by_cases hbit : adj &&& BIT i ≠ 0
      · rw [if_pos hbit]
        have hi : adj.testBit i = true := (and_BIT_ne_zero adj i).mp hbit
        have hmi : m.testBit i = true := by rw [← hhigh i (Nat.le_refl _)]; exact hi
        apply ih (i + w)
        · intro j hj
          rw [testBit_expand, hhigh j (by omega)]
          by_cases hmj : m.testBit j = true
          · simp [hmj, hm32 j hmj]
          · have : ¬ (j - i < w) := by omega
            simp [hmj, this]
        · intro j hj
          rw [testBit_expand] at hj
          simp only [Bool.and_eq_true, Bool.or_eq_true, decide_eq_true_eq] at hj
          rcases hj.2 with h | ⟨h1, h2⟩
          · exact hup j h
          · exact Or.inr ⟨i, hcond.2, hmi, h1, by omega⟩
      · rw [if_neg hbit]
        exact ih (i + 1) adj (fun j hj => hhigh j (by omega)) hup
    · rw [if_neg hcond]
      exact hup

/-- C11, as amended (single-bit mask): for a queue of width `1 < w < 32` whose logical
mask has exactly the bit `b` set, with `b` below `XE_HW_ENGINE_MAX_INSTANCE` and
`b + w ≤ 32`, the adjusted mask computed by `devcoredump_snapshot` has a value, and it is
exactly the `w` bits `b, …, b + w - 1` and nothing else. -/
theorem adj_mask_single_bit (env : Env) (q : xe_exec_queue) (b : Nat)
    (hw : 1 < q.width) (hw32 : q.width < 32) (hb : b < env.XE_HW_ENGINE_MAX_INSTANCE)
    (hfit : b + q.width ≤ 32) (hm : q.logical_mask = 2 ^ b) :
    adj_logical_mask_strict env q = some ((2 ^ q.width - 1) <<< b) ∧
    adj_logical_mask env q = (2 ^ q.width - 1) <<< b ∧
    ∀ j, (adj_logical_mask env q).testBit j = true ↔ (b ≤ j ∧ j < b + q.width) := by
  have hlt : q.logical_mask < 2 ^ 32 := by
    rw [hm]; exact Nat.pow_lt_pow_right (by decide) (by omega)
  have hu : u32 q.logical_mask = q.logical_mask := Nat.mod_eq_of_lt hlt
  have hbit : ∀ j, q.logical_mask.testBit j = true ↔ j = b := by
    intro j
    rw [hm, Nat.testBit_two_pow]
    simp [eq_comm]
  have hlow := expand_mask_loop_spec q.width env.XE_HW_ENGINE_MAX_INSTANCE q.logical_mask hw
    hlt env.XE_HW_ENGINE_MAX_INSTANCE 0 q.logical_mask (by omega) (fun _ _ => rfl)
    (fun _ hk => hk) (fun b hb0 => absurd hb0 (Nat.not_lt_zero b))
  have hup := expand_mask_loop_upper q.width env.XE_HW_ENGINE_MAX_INSTANCE q.logical_mask
    hlt env.XE_HW_ENGINE_MAX_INSTANCE 0 q.logical_mask (fun _ _ => rfl)
    (fun _ hk => Or.inl hk)
  have hiff : ∀ j, (adj_logical_mask env q).testBit j = true ↔ (b ≤ j ∧ j < b + q.width) := by
    intro j
    unfold adj_logical_mask
    rw [hu]
    constructor
    · intro hj
      rcases hup j hj with h | ⟨b2, _, hb2, h1, h2⟩
      · have := (hbit j).mp h
        omega
      · have := (hbit b2).mp hb2
        omega
    · intro ⟨h1, h2⟩
      refine hlow.2 b hb ((hbit b).mpr rfl) ?_ j h1 h2 (by omega)
      intro p hp1 _
      cases hp : q.logical_mask.testBit p with
      | false => rfl
      | true => have := (hbit p).mp hp; omega
  have heq : adj_logical_mask env q = (2 ^ q.width - 1) <<< b := by
    apply Nat.eq_of_testBit_eq
    intro j
    rw [Nat.testBit_shiftLeft, Nat.testBit_two_pow_sub_one]
    cases h : (adj_logical_mask env q).testBit j with
    | true =>
      have := (hiff j).mp h
      have h1 : j ≥ b := this.1
      have h2 : j - b < q.width := by omega
      simp [h1, h2]
    | false =>
      by_cases h1 : j ≥ b
      · have h2 : ¬ (j - b < q.width) := by
          intro h2
          have := (hiff j).mpr ⟨h1, by omega⟩
          rw [h] at this
          exact absurd this (by decide)
        simp [h1, h2]
      · simp [h1]
  exact ⟨by rw [adj_logical_mask_strict_eq env q hw32, heq], heq, hiff⟩

/-- C11 as amended, exercised: width 4 and mask `0x1` give `0xF`. -/
theorem adj_mask_single_bit_witness :
    1 < ({ q0 with logical_mask := 1, width := 4 } : xe_exec_queue).width ∧
    ({ q0 with logical_mask := 1, width := 4 } : xe_exec_queue).width < 32 ∧
    0 < env0.XE_HW_ENGINE_MAX_INSTANCE ∧
    adj_logical_mask_strict env0 { q0 with logical_mask := 1, width := 4 } = some 0xF ∧
    adj_logical_mask env0 { q0 with logical_mask := 1, width := 4 } = 0xF :=
  ⟨by decide, by decide, by decide,
    (adj_mask_single_bit env0 { q0 with logical_mask := 1, width := 4 } 0 (by decide)
      (by decide) (by decide) (by decide) rfl).1,
    (adj_mask_single_bit env0 { q0 with logical_mask := 1, width := 4 } 0 (by decide)
      (by decide) (by decide) (by decide) rfl).2.1⟩

/-- C11, as stated, fails at the one width it admits beyond 31: width 32 with mask
`0x1` has `b = 0` below `XE_HW_ENGINE_MAX_INSTANCE` and `b + w ≤ 32`, yet
`(0x1 << 32) - 1` has no value on a 32-bit `int`, so the code computes no adjusted
mask, let alone the 32 bits `0xFFFFFFFF`. -/
theorem adj_mask_single_bit_counterexample :
    1 < ({ q0 with logical_mask := 1, width := 32 } : xe_exec_queue).width ∧
    ({ q0 with logical_mask := 1, width := 32 } : xe_exec_queue).logical_mask = 2 ^ 0 ∧
    0 < env0.XE_HW_ENGINE_MAX_INSTANCE ∧
    0 + ({ q0 with logical_mask := 1, width := 32 } : xe_exec_queue).width ≤ 32 ∧
    width_mask ({ q0 with logical_mask := 1, width := 32 } : xe_exec_queue).width = none ∧
    adj_logical_mask_strict env0 { q0 with logical_mask := 1, width := 32 } = none ∧
    adj_logical_mask_strict env0 { q0 with logical_mask := 1, width := 32 }
      ≠ some ((2 ^ 32 - 1) <<< 0) := by
  decide

/-- C12 (narrow queue): for a queue of width 1, and more generally of width at most 1,
the adjusted mask computed by `devcoredump_snapshot` is the queue's logical mask (a
`u32`) unchanged. -/
theorem adj_mask_narrow (env : Env) (q : xe_exec_queue) (hw : q.width ≤ 1)
    (hm : q.logical_mask < 2 ^ 32) : adj_logical_mask env q = q.logical_mask := by
  have hu : u32 q.logical_mask = q.logical_mask := Nat.mod_eq_of_lt hm
  have hloop : ∀ fuel i adj,
      expand_mask_loop q.width (u32 ((1 <<< q.width) - 1)) env.XE_HW_ENGINE_MAX_INSTANCE
        fuel i adj = (i, adj) := by
    intro fuel i adj
    cases fuel with
    | zero => rfl
    | succ fuel =>
      unfold expand_mask_loop
      rw [if_neg (by omega)]
  unfold adj_logical_mask
  simp only [hloop, hu]

/-- C12, exercised on the width-1 queue of `job1`. -/
theorem adj_mask_narrow_witness :
    job1.q.width ≤ 1 ∧ job1.q.logical_mask < 2 ^ 32 ∧
    adj_logical_mask env0 job1.q = job1.q.logical_mask :=
  ⟨by decide, by decide, adj_mask_narrow env0 job1.q (by decide) (by decide)⟩

/-! ## The engine slots after the capture -/

theorem hwe_capture_step_get_ne (env : Env) (q : xe_exec_queue) (adj : Nat)
    (hwe : List (Option xe_hw_engine_snapshot)) (n id : Nat) (h : n ≠ id) :
    (hwe_capture_step env q adj hwe n)[id]? = hwe[id]? := by
  unfold hwe_capture_step
  rcases q.gt.hw_engines[n]? with _ | _ | e
  · rfl
  · rfl
  · by_cases hc : e.hwe_class ≠ q.hwe.hwe_class ∨ BIT e.logical_instance &&& adj = 0
    · simp only [if_pos hc, List.getElem?_set_ne h]
    · simp only [if_neg hc, List.getElem?_set_ne h]

theorem hwe_capture_step_get_self (env : Env) (q : xe_exec_queue) (adj : Nat)
    (a b : List (Option xe_hw_engine_snapshot)) (n : Nat) (hlen : a.length = b.length)
    (h : a[n]? = b[n]?) :
    (hwe_capture_step env q adj a n)[n]? = (hwe_capture_step env q adj b n)[n]? := by
  unfold hwe_capture_step
  rcases q.gt.hw_engines[n]? with _ | _ | e
  · exact h
  · exact h
  · by_cases hc : e.hwe_class ≠ q.hwe.hwe_class ∨ BIT e.logical_instance &&& adj = 0
    · simp only [if_pos hc, List.getElem?_set, hlen, if_true]
    · simp only [if_neg hc, List.getElem?_set, hlen, if_true]

/-- The engine loop of the capture decides each slot below `n` by its own iteration
alone and leaves the other slots as they were. -/
theorem hwe_capture_fold_get (env : Env) (q : xe_exec_queue) (adj : Nat)
    (hwe : List (Option xe_hw_engine_snapshot)) (id : Nat) :
    ∀ n : Nat, ((List.range n).foldl (hwe_capture_step env q adj) hwe)[id]? =
      if id < n then (hwe_capture_step env q adj hwe id)[id]? else hwe[id]? := by
  intro n
  induction n with
  | zero => simp
  | succ n ih =>
    rw [List.range_succ, List.foldl_append, List.foldl_cons, List.foldl_nil]
    by_cases hlt : id < n
    · rw [hwe_capture_step_get_ne _ _ _ _ n id (by omega), ih, if_pos hlt, if_pos (by omega)]
    · rw [if_neg hlt] at ih
      by_cases heq : id = n
      · subst heq
        rw [if_pos (by omega)]
        exact hwe_capture_step_get_self env q adj _ _ id
          (hwe_capture_fold_length env q adj _ hwe) ih
      · rw [hwe_capture_step_get_ne _ _ _ _ n id (fun h => heq h.symm), ih,
          if_neg (by omega)]

/-- C13 (engine slots): after `devcoredump_snapshot`, for every valid hardware engine
`e` of the queue's GT, at id `id` (its `logical_instance` below 64 so that
`BIT(logical_instance)` is defined, the slot array holding that id): when the engine's
class equals the class of the faulting queue's engine and bit `logical_instance` is set
in the adjusted logical mask, slot `hwe[id]` holds what
`xe_hw_engine_snapshot_capture` returned for that engine; otherwise the slot is null.
So a slot holds a snapshot only for an engine of that class covered by the mask. -/
theorem snapshot_engine_slots (env : Env) (xe : xe_device) (job : xe_sched_job)
    (id : Nat) (e : xe_hw_engine)
    (hid : id < env.XE_NUM_HW_ENGINES) (hslot : id < xe.ss.hwe.length)
    (he : job.q.gt.hw_engines[id]? = some (some e)) (_hli : e.logical_instance < 64) :
    ((e.hwe_class = job.q.hwe.hwe_class ∧
        (adj_logical_mask env job.q).testBit e.logical_instance = true) →
      (devcoredump_snapshot env xe job).ss.hwe[id]?
        = some (env.xe_hw_engine_snapshot_capture e)) ∧
    (¬ (e.hwe_class = job.q.hwe.hwe_class ∧
        (adj_logical_mask env job.q).testBit e.logical_instance = true) →
      (devcoredump_snapshot env xe job).ss.hwe[id]? = some none) ∧
    (∀ s, (devcoredump_snapshot env xe job).ss.hwe[id]? = some (some s) →
      e.hwe_class = job.q.hwe.hwe_class ∧
        (adj_logical_mask env job.q).testBit e.logical_instance = true) := by
  have hslot_eq : (devcoredump_snapshot env xe job).ss.hwe[id]? =
      (hwe_capture_step env job.q (adj_logical_mask env job.q) xe.ss.hwe id)[id]? := by
    rw [devcoredump_snapshot_eq]
    simp only [ss_add_calls, ss_set_ss, snapshot_captured, captured_hwe]
    rw [hwe_capture_fold_get, if_pos hid]
  have hbit : BIT e.logical_instance &&& adj_logical_mask env job.q = 0 ↔
      ¬ (adj_logical_mask env job.q).testBit e.logical_instance = true := by
    rw [← and_BIT_ne_zero, Nat.land_comm]
    exact ⟨fun h hne => hne h, fun h => Classical.not_not.mp h⟩
  have hyes : (e.hwe_class = job.q.hwe.hwe_class ∧
        (adj_logical_mask env job.q).testBit e.logical_instance = true) →
      (devcoredump_snapshot env xe job).ss.hwe[id]?
        = some (env.xe_hw_engine_snapshot_capture e) := by
    intro ⟨h1, h2⟩
    rw [hslot_eq]
    unfold hwe_capture_step
    rw [he]
    have hc : ¬ (e.hwe_class ≠ job.q.hwe.hwe_class ∨
        BIT e.logical_instance &&& adj_logical_mask env job.q = 0) := by
      rw [hbit]; intro h; rcases h with h | h
      · exact h h1
      · exact h h2
    simp only [if_neg hc, List.getElem?_set, if_pos hslot, if_true]
  have hno : ¬ (e.hwe_class = job.q.hwe.hwe_class ∧
        (adj_logical_mask env job.q).testBit e.logical_instance = true) →
      (devcoredump_snapshot env xe job).ss.hwe[id]? = some none := by
    intro h
    rw [hslot_eq]
    unfold hwe_capture_step
    rw [he]
    have hc : e.hwe_class ≠ job.q.hwe.hwe_class ∨
        BIT e.logical_instance &&& adj_logical_mask env job.q = 0 := by
      rw [hbit]
      by_cases h1 : e.hwe_class = job.q.hwe.hwe_class
      · exact Or.inr (fun h2 => h ⟨h1, h2⟩)
      · exact Or.inl h1
    simp only [if_pos hc, List.getElem?_set, if_pos hslot, if_true]
  refine ⟨hyes, hno, ?_⟩
  intro s hs
  by_contra hcon
  rw [hno hcon] at hs
  cases hs

/-- C13, exercised on the capture of `job0` on the pristine device: the engine at id 2
(class 2, logical instance 1) is covered by the widened mask `0b11`. -/
theorem snapshot_engine_slots_witness :
    2 < env0.XE_NUM_HW_ENGINES ∧ 2 < xe0.ss.hwe.length ∧
    job0.q.gt.hw_engines[2]? = some (some ⟨2, 1, 111⟩) ∧
    ((⟨2, 1, 111⟩ : xe_hw_engine).hwe_class = job0.q.hwe.hwe_class ∧
      (adj_logical_mask env0 job0.q).testBit (⟨2, 1, 111⟩ : xe_hw_engine).logical_instance
        = true) ∧
    (devcoredump_snapshot env0 xe0 job0).ss.hwe[2]?
      = some (env0.xe_hw_engine_snapshot_capture ⟨2, 1, 111⟩) :=
  ⟨by decide, by decide, by decide, by decide,
    (snapshot_engine_slots env0 xe0 job0 2 ⟨2, 1, 111⟩ (by decide) (by decide) (by decide)
      (by decide)).1 (by decide)⟩

/-! ## The process name -/

/-- The process name in the aggregate after `devcoredump_snapshot`. -/
theorem process_name_devcoredump_snapshot (env : Env) (xe : xe_device) (job : xe_sched_job) :
    (devcoredump_snapshot env xe job).ss.process_name =
      strscpy env.TASK_COMM_LEN (resolved_process_name job.q) := by
  rw [devcoredump_snapshot_eq]
  simp [snapshot_captured]

theorem strscpy_fits (size : Nat) (src : Text) (h : src.length < size) :
    strscpy size src = src := by
  unfold strscpy
  exact List.take_of_length_le (by omega)

/-- C14, as amended (process name): when the faulting queue has no VM, or its VM has no
attached user context, `devcoredump_snapshot` stores the sentinel "no process" in the
aggregate; otherwise it stores the user context's process name; in both cases as
`strscpy` copies it into the `TASK_COMM_LEN`-byte field, that is whole when it is shorter
than `TASK_COMM_LEN` and cut to `TASK_COMM_LEN - 1` characters otherwise. -/
theorem snapshot_process_name (env : Env) (xe : xe_device) (job : xe_sched_job) :
    ((job.q.vm = none ∨ ∃ vm, job.q.vm = some vm ∧ vm.xef = none) →
      (devcoredump_snapshot env xe job).ss.process_name
          = ("no process".toList).take (env.TASK_COMM_LEN - 1) ∧
      (10 < env.TASK_COMM_LEN →
        (devcoredump_snapshot env xe job).ss.process_name = "no process".toList)) ∧
    (∀ vm xef, job.q.vm = some vm → vm.xef = some xef →
      (devcoredump_snapshot env xe job).ss.process_name
          = xef.process_name.take (env.TASK_COMM_LEN - 1) ∧
      (xef.process_name.length < env.TASK_COMM_LEN →
        (devcoredump_snapshot env xe job).ss.process_name = xef.process_name)) := by
  rw [process_name_devcoredump_snapshot]
  refine ⟨?_, ?_⟩
  · intro h
    have hres : resolved_process_name job.q = "no process".toList := by
      unfold resolved_process_name
      rcases h with h | ⟨vm, h1, h2⟩
      · rw [h]
      · rw [h1]; simp only [h2]
    rw [hres]
    exact ⟨rfl, fun h10 => strscpy_fits _ _ h10⟩
  · intro vm xef h1 h2
    have hres : resolved_process_name job.q = xef.process_name := by
      unfold resolved_process_name
      rw [h1]; simp only [h2]
    rw [hres]
    exact ⟨rfl, fun hlen => strscpy_fits _ _ hlen⟩

/-- C14 as amended, exercised: `job1` has no VM, `job0` has a VM owned by "glxgears". -/
theorem snapshot_process_name_witness :
    (job1.q.vm = none ∨ ∃ vm, job1.q.vm = some vm ∧ vm.xef = none) ∧
    10 < env0.TASK_COMM_LEN ∧
    (devcoredump_snapshot env0 xe0 job1).ss.process_name = "no process".toList ∧
    (devcoredump_snapshot env0 xe0 job0).ss.process_name = "glxgears".toList :=
  ⟨Or.inl rfl, by decide,
    ((snapshot_process_name env0 xe0 job1).1 (Or.inl rfl)).2 (by decide),
    ((snapshot_process_name env0 xe0 job0).2 _ _ rfl rfl).2 (by decide)⟩

/-- C14, as stated, fails.  For a queue without a VM the stored name is "no process",
not "unknown"; and for a user context whose process name has 20 characters the stored
name is its first 15 characters (the field has `TASK_COMM_LEN = 16` bytes). -/
theorem snapshot_process_name_counterexample :
    (job1.q.vm = none ∧
      (devcoredump_snapshot env0 xe0 job1).ss.process_name = "no process".toList ∧
      (devcoredump_snapshot env0 xe0 job1).ss.process_name ≠ "unknown".toList) ∧
    (job_long_name.q.vm = some { xef := some ⟨"a_rather_long_name_x".toList⟩, live := 5 } ∧
      (devcoredump_snapshot env0 xe0 job_long_name).ss.process_name
        = "a_rather_long_n".toList ∧
      (devcoredump_snapshot env0 xe0 job_long_name).ss.process_name
        ≠ "a_rather_long_name_x".toList) := by
  decide

/-! ## The rendered text and the report format -/

theorem engines_text_append (env : Env) (a b : List (Option xe_hw_engine_snapshot)) :
    engines_text env (a ++ b) = engines_text env a ++ engines_text env b := by
  induction a with
  | nil => rfl
  | cons o a ih =>
    cases o with
    | none => simpa [engines_text] using ih
    | some h => simp [engines_text, ih]

theorem concat_text_append (a b : List Text) :
    concat_text (a ++ b) = concat_text a ++ concat_text b := by
  induction a with
  | nil => rfl
  | cons t a ih => simp [concat_text, ih]

theorem populated_engines_succ (hwe : List (Option xe_hw_engine_snapshot)) (n : Nat) :
    populated_engines hwe (n + 1) = populated_engines hwe n ++
      (match hwe[n]? with
       | some (some h) => [(n, h)]
       | _ => []) := by
  unfold populated_engines
  rw [List.range_succ, List.filterMap_append]
  simp only [List.filterMap_cons, List.filterMap_nil]
  generalize hwe[n]? = o
  rcases o with _ | _ | h <;> rfl

/-- The engine loop of the renderer prints the populated slots below `n`, in
increasing id order. -/
theorem engines_text_populated (env : Env) (hwe : List (Option xe_hw_engine_snapshot)) :
    ∀ n : Nat, engines_text env (hwe.take n) =
      concat_text ((populated_engines hwe n).map fun p =>
        env.xe_hw_engine_snapshot_print p.2) := by
  intro n
  induction n with
  | zero => simp [populated_engines, engines_text, concat_text]
  | succ n ih =>
    rw [List.take_succ, engines_text_append, ih, populated_engines_succ, List.map_append,
      concat_text_append]
    generalize hwe[n]? = o
    rcases o with _ | _ | h <;> simp [engines_text, concat_text]

/-- The populated slots listed are exactly the non-null slots below `n`. -/
theorem mem_populated_engines (hwe : List (Option xe_hw_engine_snapshot)) (i : Nat)
    (h : xe_hw_engine_snapshot) :
    ∀ n : Nat, (i, h) ∈ populated_engines hwe n ↔ (i < n ∧ hwe[i]? = some (some h)) := by
  intro n
  induction n with
  | zero => simp [populated_engines]
  | succ n ih =>
    rw [populated_engines_succ, List.mem_append, ih]
    constructor
    · rintro (⟨h1, h2⟩ | hmem)
      · exact ⟨by omega, h2⟩
      · cases hn : hwe[n]? with
        | none => rw [hn] at hmem; cases hmem
        | some o =>
          cases o with
          | none => rw [hn] at hmem; cases hmem
          | some h2 =>
            rw [hn] at hmem
            simp only [List.mem_singleton, Prod.mk.injEq] at hmem
            obtain ⟨rfl, rfl⟩ := hmem
            exact ⟨by omega, hn⟩
    · rintro ⟨h1, h2⟩
      by_cases hlt : i < n
      · exact Or.inl ⟨hlt, h2⟩
      · have : i = n := by omega
        subst this
        right
        rw [h2]
        exact List.mem_singleton.mpr rfl

/-- The populated slots are listed in strictly increasing engine-id order. -/
theorem populated_engines_increasing (hwe : List (Option xe_hw_engine_snapshot)) :
    ∀ n : Nat, (populated_engines hwe n).Pairwise fun a b => a.1 < b.1 := by
  intro n
  induction n with
  | zero => simp [populated_engines]
  | succ n ih =>
    rw [populated_engines_succ, List.pairwise_append]
    refine ⟨ih, ?_, ?_⟩
    · generalize hwe[n]? = o
      rcases o with _ | _ | h <;> simp
    · intro a ha b hb
      have ha2 : a.1 < n := ((mem_populated_engines hwe a.1 a.2 n).mp ha).1
      generalize hwe[n]? = o at hb
      rcases o with _ | _ | h
      · cases hb
      · cases hb
      · rw [List.mem_singleton.mp hb]; exact ha2

/-- The text the renderer prints is the report format. -/
theorem coredump_text_format (env : Env) (ss : xe_devcoredump_snapshot) (gt : xe_gt) :
    coredump_text env ss gt = report_format env ss gt := by
  unfold coredump_text report_format format_header format_gt format_channel
    format_contexts format_job format_engines format_vm
  rw [engines_text_populated]
  simp only [List.append_assoc]

/-- C15 (report format): for every aggregate with a GT, the text that
`__xe_devcoredump_read` prints to the coredump printer is the concatenation, in this
fixed order, of the header section (banner, kernel, module, snapshot time, uptime and
process lines, device state), the GT section (banner and Tile line), the GuC CT banner
and transcript, the Contexts banner and queue state, the Job banner and job state, the
HW Engines banner followed by the prints of exactly the populated slots among the
`XE_NUM_HW_ENGINES` engine slots in increasing engine-id order, and the VM state banner
and address-space state: the printer ends in the state it has after that text, so the
function returns the length of the text cut at `count`, and a buffer with room for the
whole text holds exactly the text. -/
theorem rendered_text_format (env : Env) (buffer : Option Text) (count : Nat)
    (xe : xe_device) (gt : xe_gt) (hgt : xe.ss.gt = some gt) :
    __xe_devcoredump_read env buffer count xe =
      some (min (report_format env xe.ss gt).length count,
        buffer.map fun d => memcpy d 0 ((report_format env xe.ss gt).take count)) ∧
    (∀ d : Text, d.length ≤ (report_format env xe.ss gt).length →
      (report_format env xe.ss gt).length ≤ count →
        __xe_devcoredump_read env (some d) count xe =
          some ((report_format env xe.ss gt).length, some (report_format env xe.ss gt))) ∧
    report_format env xe.ss gt =
      format_header env xe.ss ++ format_gt gt ++ format_channel env xe.ss
        ++ format_contexts env xe.ss ++ format_job env xe.ss ++ format_engines env xe.ss
        ++ format_vm env xe.ss ∧
    (∀ i h, (i, h) ∈ populated_engines xe.ss.hwe env.XE_NUM_HW_ENGINES ↔
      (i < env.XE_NUM_HW_ENGINES ∧ xe.ss.hwe[i]? = some (some h))) ∧
    (populated_engines xe.ss.hwe env.XE_NUM_HW_ENGINES).Pairwise fun a b => a.1 < b.1 := by
  have hr := xe_devcoredump_read_render env buffer count xe xe.ss gt rfl hgt
  rw [coredump_text_format] at hr
  refine ⟨hr, ?_, rfl, fun i h => mem_populated_engines _ i h _,
    populated_engines_increasing _ _⟩
  intro d hd hlen
  have hr2 := xe_devcoredump_read_render env (some d) count xe xe.ss gt rfl hgt
  rw [coredump_text_format] at hr2
  rw [hr2, Nat.min_eq_left hlen, List.take_of_length_le hlen, Option.map_some',
    memcpy_over d _ hd]

/-- C15, exercised on the captured device `xe_captured`. -/
theorem rendered_text_format_witness :
    xe_captured.ss.gt = some gt0 ∧
    __xe_devcoredump_read env0 none 4096 xe_captured =
      some (min (report_format env0 xe_captured.ss gt0).length 4096, none) :=
  ⟨rfl, (rendered_text_format env0 none 4096 xe_captured gt0 rfl).1⟩

/-! ## The ASCII85 blob printer -/

theorem and_three (n : Nat) : n &&& 3 = n % 4 :=
  Nat.and_pow_two_sub_one_eq_mod n 2

theorem blob_diagnostics_aligned (offset size : Nat) (ho : offset % 4 = 0)
    (hs : size % 4 = 0) : blob_diagnostics offset size = [] := by
  unfold blob_diagnostics
  rw [and_three, and_three, ho, hs]
  rfl

theorem blob_diagnostics_size (offset size : Nat) (hs : size % 4 ≠ 0) :
    ∃ rest, blob_diagnostics offset size =
      Emit.drm_printf "Size not word aligned: %zu" size :: rest := by
  unfold blob_diagnostics
  rw [and_three, if_pos hs]
  exact ⟨_, rfl⟩

theorem blob_diagnostics_not_puts (offset size : Nat) (s : Text) :
    Emit.drm_puts s ∉ blob_diagnostics offset size := by
  unfold blob_diagnostics
  intro h
  rcases List.mem_append.mp h with h | h
  · split at h
    · rw [List.mem_singleton] at h; cases h
    · cases h
  · split at h
    · rw [List.mem_singleton] at h; cases h
    · cases h

theorem strscpy_length_le (size : Nat) (src : Text) :
    (strscpy size src).length ≤ size - 1 := by
  unfold strscpy
  rw [List.length_take]
  exact Nat.min_le_left _ _

theorem blob_loop_succ (a : BlobEnv) (blob : Nat → Nat) (base n : Nat)
    (st : blob_printer) :
    blob_loop a blob base (n + 1) st
      = blob_word a blob (blob_loop a blob base n st) (base + n) := by
  unfold blob_loop
  rw [List.range_succ, List.foldl_append]
  rfl

theorem blob_word_reads (a : BlobEnv) (blob : Nat → Nat) (st : blob_printer)
    (idx : Nat) : (blob_word a blob st idx).reads = st.reads ++ [idx] := by
  unfold blob_word
  simp only []
  split <;> rfl

theorem blob_loop_reads (a : BlobEnv) (blob : Nat → Nat) (base : Nat)
    (st : blob_printer) :
    ∀ n : Nat, (blob_loop a blob base n st).reads
      = st.reads ++ (List.range n).map fun k => base + k := by
  intro n
  induction n with
  | zero => simp [blob_loop]
  | succ n ih =>
    rw [blob_loop_succ, blob_word_reads, ih, List.range_succ, List.map_append,
      List.append_assoc]
    rfl

theorem blob_finish_reads (suffix : Char) (st : blob_printer) :
    (blob_finish suffix st).reads = st.reads := by
  unfold blob_finish
  simp only []
  split <;> split <;> rfl

theorem blob_begin_reads (a : BlobEnv) (pfx : Option Text) (offset size : Nat) :
    (blob_begin a pfx offset size).reads = [] := by
  cases pfx <;> rfl

/-- The words read by a run whose allocation succeeds. -/
theorem blob_reads (a : BlobEnv) (pfx : Option Text) (suffix : Char)
    (blob : Nat → Nat) (offset size : Nat) (halloc : a.kzalloc DMESG_MAX_LINE_LEN = true) :
    (xe_print_blob_ascii85 a pfx suffix blob offset size).reads
      = (List.range (size / 4)).map fun k => offset / 4 + k := by
  unfold xe_print_blob_ascii85
  rw [if_neg (by rw [halloc]; exact Bool.noConfusion), blob_finish_reads, blob_loop_reads,
    blob_begin_reads, List.nil_append]

/-- A run whose allocation fails prints the diagnostics and nothing else. -/
theorem blob_nomem (a : BlobEnv) (pfx : Option Text) (suffix : Char)
    (blob : Nat → Nat) (offset size : Nat) (halloc : a.kzalloc DMESG_MAX_LINE_LEN = false) :
    xe_print_blob_ascii85 a pfx suffix blob offset size =
      { line_buff := []
        out := blob_diagnostics offset size
          ++ [Emit.drm_printf_pe "Failed to allocate line buffer: %pe"]
        reads := []
        stores := [] } := by
  unfold xe_print_blob_ascii85
  rw [if_pos halloc]

/-- A run whose allocation succeeds is the tail applied to the loop applied to the head. -/
theorem blob_ok (a : BlobEnv) (pfx : Option Text) (suffix : Char)
    (blob : Nat → Nat) (offset size : Nat) (halloc : a.kzalloc DMESG_MAX_LINE_LEN = true) :
    xe_print_blob_ascii85 a pfx suffix blob offset size =
      blob_finish suffix
        (blob_loop a blob (offset / 4) (size / 4) (blob_begin a pfx offset size)) := by
  unfold xe_print_blob_ascii85
  rw [if_neg (by rw [halloc]; exact Bool.noConfusion)]

/-- One iteration keeps the line short of the reserve, the printed lines within the
limit and the stores inside the buffer, whatever the encoder returns. -/
theorem blob_word_safe (a : BlobEnv) (blob : Nat → Nat) (st : blob_printer) (idx : Nat)
    (hB : a.ASCII85_BUFSZ ≤ 795)
    (hI : st.line_buff.length + MIN_SPACE a < DMESG_MAX_LINE_LEN)
    (hP : ∀ s, Emit.drm_puts s ∈ st.out → s.length + 1 ≤ DMESG_MAX_LINE_LEN)
    (hS : ∀ i ∈ st.stores, i < DMESG_MAX_LINE_LEN) :
    (blob_word a blob st idx).line_buff.length + MIN_SPACE a < DMESG_MAX_LINE_LEN ∧
    (∀ s, Emit.drm_puts s ∈ (blob_word a blob st idx).out →
      s.length + 1 ≤ DMESG_MAX_LINE_LEN) ∧
    ∀ i ∈ (blob_word a blob st idx).stores, i < DMESG_MAX_LINE_LEN := by
  have hlen : (st.line_buff ++ strscpy (DMESG_MAX_LINE_LEN - st.line_buff.length)
      (a.ascii85_encode (blob idx))).length < DMESG_MAX_LINE_LEN := by
    have h := strscpy_length_le (DMESG_MAX_LINE_LEN - st.line_buff.length)
      (a.ascii85_encode (blob idx))
    rw [List.length_append]
    unfold DMESG_MAX_LINE_LEN MIN_SPACE at *
    omega
  unfold blob_word
  simp only []
  split
  · refine ⟨?_, ?_, ?_⟩
    · show 0 + MIN_SPACE a < DMESG_MAX_LINE_LEN
      unfold DMESG_MAX_LINE_LEN MIN_SPACE
      omega
    · intro s hs
      rcases List.mem_append.mp hs with h | h
      · exact hP s h
      · rw [List.mem_singleton] at h
        cases h
        exact hlen
    · intro i hi
      rcases List.mem_append.mp hi with h | h
      · exact hS i h
      · rw [List.mem_singleton] at h
        rw [h]
        exact hlen
  · rename_i hno
    exact ⟨Nat.lt_of_not_le hno, hP, hS⟩

theorem blob_loop_safe (a : BlobEnv) (blob : Nat → Nat) (base : Nat) (st : blob_printer)
    (hB : a.ASCII85_BUFSZ ≤ 795)
    (hI : st.line_buff.length + MIN_SPACE a < DMESG_MAX_LINE_LEN)
    (hP : ∀ s, Emit.drm_puts s ∈ st.out → s.length + 1 ≤ DMESG_MAX_LINE_LEN)
    (hS : ∀ i ∈ st.stores, i < DMESG_MAX_LINE_LEN) :
    ∀ n : Nat,
    (blob_loop a blob base n st).line_buff.length + MIN_SPACE a < DMESG_MAX_LINE_LEN ∧
    (∀ s, Emit.drm_puts s ∈ (blob_loop a blob base n st).out →
      s.length + 1 ≤ DMESG_MAX_LINE_LEN) ∧
    ∀ i ∈ (blob_loop a blob base n st).stores, i < DMESG_MAX_LINE_LEN := by
  intro n
  induction n with
  | zero => exact ⟨hI, hP, hS⟩
  | succ n ih =>
    rw [blob_loop_succ]
    exact blob_word_safe a blob _ _ hB ih.1 ih.2.1 ih.2.2

theorem blob_begin_safe (a : BlobEnv) (pfx : Option Text) (offset size : Nat)
    (hB : a.ASCII85_BUFSZ ≤ 795) :
    (blob_begin a pfx offset size).line_buff.length + MIN_SPACE a < DMESG_MAX_LINE_LEN ∧
    (∀ s, Emit.drm_puts s ∈ (blob_begin a pfx offset size).out →
      s.length + 1 ≤ DMESG_MAX_LINE_LEN) ∧
    ∀ i ∈ (blob_begin a pfx offset size).stores, i < DMESG_MAX_LINE_LEN := by
  cases pfx with
  | none =>
    refine ⟨?_, ?_, ?_⟩
    · show 0 + MIN_SPACE a < DMESG_MAX_LINE_LEN
      unfold DMESG_MAX_LINE_LEN MIN_SPACE
      omega
    · intro s hs
      exact absurd hs (blob_diagnostics_not_puts offset size s)
    · intro i hi
      cases hi
  | some p =>
    have h := strscpy_length_le (DMESG_MAX_LINE_LEN - MIN_SPACE a - 2) p
    refine ⟨?_, ?_, ?_⟩
    · show (strscpy (DMESG_MAX_LINE_LEN - MIN_SPACE a - 2) p ++ [':', ' ']).length
        + MIN_SPACE a < DMESG_MAX_LINE_LEN
      rw [List.length_append]
      unfold DMESG_MAX_LINE_LEN MIN_SPACE at *
      simp only [List.length_cons, List.length_nil]
      omega
    · intro s hs
      exact absurd hs (blob_diagnostics_not_puts offset size s)
    · intro i hi
      have hi2 : i ∈ [(strscpy (DMESG_MAX_LINE_LEN - MIN_SPACE a - 2) p).length,
          (strscpy (DMESG_MAX_LINE_LEN - MIN_SPACE a - 2) p).length + 1] := hi
      simp only [List.mem_cons, List.mem_singleton, List.mem_nil_iff, or_false] at hi2
      unfold DMESG_MAX_LINE_LEN MIN_SPACE at *
      omega

theorem blob_finish_safe (a : BlobEnv) (suffix : Char) (st : blob_printer)
    (hI : st.line_buff.length + MIN_SPACE a < DMESG_MAX_LINE_LEN)
    (hP : ∀ s, Emit.drm_puts s ∈ st.out → s.length + 1 ≤ DMESG_MAX_LINE_LEN)
    (hS : ∀ i ∈ st.stores, i < DMESG_MAX_LINE_LEN) :
    (∀ s, Emit.drm_puts s ∈ (blob_finish suffix st).out →
      s.length + 1 ≤ DMESG_MAX_LINE_LEN) ∧
    ∀ i ∈ (blob_finish suffix st).stores, i < DMESG_MAX_LINE_LEN := by
  have hI2 : st.line_buff.length + 2 < DMESG_MAX_LINE_LEN := by
    unfold MIN_SPACE at hI
    omega
  unfold blob_finish
  simp only []
  split <;> split
  · refine ⟨?_, ?_⟩
    · intro s hs
      rcases List.mem_append.mp hs with h | h
      · exact hP s h
      · rw [List.mem_singleton] at h
        cases h
        simp only [List.length_append, List.length_cons, List.length_nil]
        omega
    · intro i hi
      simp only [List.mem_append, List.mem_singleton, List.length_append,
        List.length_cons, List.length_nil] at hi
      rcases hi with (h | h) | h
      · exact hS i h
      · omega
      · omega
  · exact ⟨hP, fun i hi => by
      simp only [List.mem_append, List.mem_singleton] at hi
      rcases hi with h | h
      · exact hS i h
      · omega⟩
  · refine ⟨?_, ?_⟩
    · intro s hs
      rcases List.mem_append.mp hs with h | h
      · exact hP s h
      · rw [List.mem_singleton] at h
        cases h
        omega
    · intro i hi
      simp only [List.mem_append, List.mem_singleton] at hi
      rcases hi with h | h
      · exact hS i h
      · omega
  · exact ⟨hP, hS⟩

/-- C17 (line bound): for every blob, offset, size, prefix of any length and suffix,
and whatever the encoder returns, every string that `xe_print_blob_ascii85` passes to
`drm_puts` from its line buffer has length, with its terminating NUL, at most
`DMESG_MAX_LINE_LEN` (800), and every direct store `line_buff[line_pos++] = c` is at an
index below 800, inside the buffer; the encoder buffer size is only required to leave
the prefix some room (`ASCII85_BUFSZ ≤ 795`; the header has 6). -/
theorem blob_line_bound (a : BlobEnv) (pfx : Option Text) (suffix : Char)
    (blob : Nat → Nat) (offset size : Nat) (hB : a.ASCII85_BUFSZ ≤ 795) :
    (∀ s, Emit.drm_puts s ∈ (xe_print_blob_ascii85 a pfx suffix blob offset size).out →
      s.length + 1 ≤ DMESG_MAX_LINE_LEN) ∧
    ∀ i ∈ (xe_print_blob_ascii85 a pfx suffix blob offset size).stores,
      i < DMESG_MAX_LINE_LEN := by
  cases halloc : a.kzalloc DMESG_MAX_LINE_LEN with
  | false =>
    rw [blob_nomem a pfx suffix blob offset size halloc]
    refine ⟨?_, ?_⟩
    · intro s hs
      rcases List.mem_append.mp hs with h | h
      · exact absurd h (blob_diagnostics_not_puts offset size s)
      · rw [List.mem_singleton] at h
        cases h
    · intro i hi
      cases hi
  | true =>
    rw [blob_ok a pfx suffix blob offset size halloc]
    have h0 := blob_begin_safe a pfx offset size hB
    have h1 := blob_loop_safe a blob (offset / 4) _ hB h0.1 h0.2.1 h0.2.2 (size / 4)
    exact blob_finish_safe a suffix _ h1.1 h1.2.1 h1.2.2

/-- C17, exercised: a 900-character prefix, 400 words and a suffix. -/
theorem blob_line_bound_witness :
    blob_env0.ASCII85_BUFSZ ≤ 795 ∧
    ((∀ s, Emit.drm_puts s ∈ (xe_print_blob_ascii85 blob_env0
        (some (List.replicate 900 'p')) 'X' blob0 0 1600).out →
      s.length + 1 ≤ DMESG_MAX_LINE_LEN) ∧
    ∀ i ∈ (xe_print_blob_ascii85 blob_env0
        (some (List.replicate 900 'p')) 'X' blob0 0 1600).stores,
      i < DMESG_MAX_LINE_LEN) :=
  ⟨by decide, blob_line_bound blob_env0 (some (List.replicate 900 'p')) 'X' blob0 0 1600
    (by decide)⟩

theorem blob_encodings_succ (a : BlobEnv) (blob : Nat → Nat) (base n : Nat) :
    blob_encodings a blob base (n + 1)
      = blob_encodings a blob base n ++ [a.ascii85_encode (blob (base + n))] := by
  unfold blob_encodings
  rw [List.range_succ, List.map_append]
  rfl

/-- One iteration with an encoder that keeps to its buffer: the encoding is appended
whole, behind the line or as the end of a printed line. -/
theorem blob_word_out (a : BlobEnv) (blob : Nat → Nat) (st : blob_printer) (idx : Nat)
    (hB : a.ASCII85_BUFSZ ≤ 795)
    (henc : ∀ v, (a.ascii85_encode v).length < a.ASCII85_BUFSZ)
    (hI : st.line_buff.length + MIN_SPACE a < DMESG_MAX_LINE_LEN) :
    (blob_word a blob st idx).line_buff.length + MIN_SPACE a < DMESG_MAX_LINE_LEN ∧
    ∃ ls : List Text,
      (blob_word a blob st idx).out = st.out ++ ls.map Emit.drm_puts ∧
      concat_text ls ++ (blob_word a blob st idx).line_buff
        = st.line_buff ++ a.ascii85_encode (blob idx) := by
  have hfit : strscpy (DMESG_MAX_LINE_LEN - st.line_buff.length)
      (a.ascii85_encode (blob idx)) = a.ascii85_encode (blob idx) := by
    apply strscpy_fits
    have h := henc (blob idx)
    unfold MIN_SPACE DMESG_MAX_LINE_LEN at *
    omega
  unfold blob_word
  simp only [hfit]
  split
  · refine ⟨?_, [st.line_buff ++ a.ascii85_encode (blob idx)], rfl, ?_⟩
    · show 0 + MIN_SPACE a < DMESG_MAX_LINE_LEN
      unfold DMESG_MAX_LINE_LEN MIN_SPACE
      omega
    · simp [concat_text]
  · rename_i hno
    refine ⟨Nat.lt_of_not_le hno, [], ?_, ?_⟩
    · simp
    · simp [concat_text]

theorem blob_loop_out (a : BlobEnv) (blob : Nat → Nat) (base : Nat) (st : blob_printer)
    (hB : a.ASCII85_BUFSZ ≤ 795)
    (henc : ∀ v, (a.ascii85_encode v).length < a.ASCII85_BUFSZ)
    (hI : st.line_buff.length + MIN_SPACE a < DMESG_MAX_LINE_LEN) :
    ∀ n : Nat,
    (blob_loop a blob base n st).line_buff.length + MIN_SPACE a < DMESG_MAX_LINE_LEN ∧
    ∃ ls : List Text,
      (blob_loop a blob base n st).out = st.out ++ ls.map Emit.drm_puts ∧
      concat_text ls ++ (blob_loop a blob base n st).line_buff
        = st.line_buff ++ concat_text (blob_encodings a blob base n) := by
  intro n
  induction n with
  | zero =>
    refine ⟨hI, [], ?_, ?_⟩
    · simp [blob_loop]
    · simp [blob_loop, blob_encodings, concat_text]
  | succ n ih =>
    obtain ⟨hIn, ls, hout, hcat⟩ := ih
    obtain ⟨hI2, ls2, hout2, hcat2⟩ := blob_word_out a blob _ (base + n) hB henc hIn
    rw [blob_loop_succ]
    refine ⟨hI2, ls ++ ls2, ?_, ?_⟩
    · rw [hout2, hout, List.map_append, List.append_assoc]
    · rw [concat_text_append, List.append_assoc, hcat2, ← List.append_assoc, hcat,
        blob_encodings_succ, concat_text_append, List.append_assoc]
      simp [concat_text]

theorem blob_finish_out (suffix : Char) (st : blob_printer) :
    ∃ ls : List Text,
      (blob_finish suffix st).out = st.out ++ ls.map Emit.drm_puts ∧
      concat_text ls = st.line_buff ++ suffix_text suffix := by
  unfold blob_finish suffix_text
  simp only []
  split <;> split
  · exact ⟨[st.line_buff ++ [suffix]], rfl, by simp [concat_text]⟩
  · rename_i h
    simp at h
  · exact ⟨[st.line_buff], rfl, by simp [concat_text]⟩
  · rename_i h
    have hnil : st.line_buff = [] := List.length_eq_zero.mp (Decidable.of_not_not h)
    exact ⟨[], by simp, by simp [concat_text, hnil]⟩

theorem blob_begin_fits (a : BlobEnv) (pfx : Option Text) (offset size : Nat)
    (hpfx : ∀ p, pfx = some p → p.length < DMESG_MAX_LINE_LEN - MIN_SPACE a - 2) :
    (blob_begin a pfx offset size).line_buff = pfx_text pfx := by
  cases pfx with
  | none => rfl
  | some p =>
    show strscpy (DMESG_MAX_LINE_LEN - MIN_SPACE a - 2) p ++ [':', ' '] = p ++ [':', ' ']
    rw [strscpy_fits _ _ (hpfx p rfl)]

theorem blob_begin_out (a : BlobEnv) (pfx : Option Text) (offset size : Nat) :
    (blob_begin a pfx offset size).out = blob_diagnostics offset size := by
  cases pfx <;> rfl

/-- C16, as amended (blob output): when the line buffer allocation succeeds, for every
blob, every word-aligned offset and size, every prefix short enough not to be truncated
by the `strscpy` of size `DMESG_MAX_LINE_LEN - MIN_SPACE - 2` and every suffix, all that
`xe_print_blob_ascii85` passes to the printer are `drm_puts` strings, and their
concatenation is the prefix followed by `": "` when a prefix is given, followed by the
encodings of the `size/4` consecutive words from the word of index `offset/4`, in
order and whole, followed by the suffix character when it is not zero.  The encoder is
taken to keep to its buffer of `ASCII85_BUFSZ` bytes. -/
theorem blob_output (a : BlobEnv) (pfx : Option Text) (suffix : Char)
    (blob : Nat → Nat) (offset size : Nat)
    (hB : a.ASCII85_BUFSZ ≤ 795)
    (henc : ∀ v, (a.ascii85_encode v).length < a.ASCII85_BUFSZ)
    (halloc : a.kzalloc DMESG_MAX_LINE_LEN = true)
    (hoff : offset % 4 = 0) (hsize : size % 4 = 0)
    (hpfx : ∀ p, pfx = some p → p.length < DMESG_MAX_LINE_LEN - MIN_SPACE a - 2) :
    ∃ lines : List Text,
      (xe_print_blob_ascii85 a pfx suffix blob offset size).out
        = lines.map Emit.drm_puts ∧
      concat_text lines
        = pfx_text pfx ++ concat_text (blob_encodings a blob (offset / 4) (size / 4))
          ++ suffix_text suffix := by
  rw [blob_ok a pfx suffix blob offset size halloc]
  have h0 := blob_begin_safe a pfx offset size hB
  obtain ⟨_, ls, hout, hcat⟩ :=
    blob_loop_out a blob (offset / 4) (blob_begin a pfx offset size) hB henc h0.1 (size / 4)
  obtain ⟨ls2, hout2, hcat2⟩ := blob_finish_out suffix
    (blob_loop a blob (offset / 4) (size / 4) (blob_begin a pfx offset size))
  refine ⟨ls ++ ls2, ?_, ?_⟩
  · rw [hout2, hout, blob_begin_out, blob_diagnostics_aligned offset size hoff hsize,
      List.nil_append, List.map_append]
  · rw [concat_text_append, hcat2, ← List.append_assoc, hcat,
      blob_begin_fits a pfx offset size hpfx]

theorem sample_encode_length (v : Nat) : (sample_encode v).length < 6 := by
  unfold sample_encode
  split <;> simp

/-- C16, exercised: prefix `ab`, suffix `X`, three words from byte offset 4. -/
theorem blob_output_witness :
    blob_env0.ASCII85_BUFSZ ≤ 795 ∧
    (∀ v, (blob_env0.ascii85_encode v).length < blob_env0.ASCII85_BUFSZ) ∧
    blob_env0.kzalloc DMESG_MAX_LINE_LEN = true ∧ 4 % 4 = 0 ∧ 12 % 4 = 0 ∧
    (∀ p, some ['a', 'b'] = some p → p.length < DMESG_MAX_LINE_LEN - MIN_SPACE blob_env0 - 2) ∧
    ∃ lines : List Text,
      (xe_print_blob_ascii85 blob_env0 (some ['a', 'b']) 'X' blob0 4 12).out
        = lines.map Emit.drm_puts ∧
      concat_text lines
        = pfx_text (some ['a', 'b']) ++ concat_text (blob_encodings blob_env0 blob0 (4 / 4) (12 / 4))
          ++ suffix_text 'X' :=
  ⟨by decide, sample_encode_length, rfl, rfl, rfl,
    fun p hp => by cases hp; decide,
    blob_output blob_env0 (some ['a', 'b']) 'X' blob0 4 12 (by decide) sample_encode_length
      rfl rfl rfl (fun p hp => by cases hp; decide)⟩

/-- C16 as stated fails when the allocation fails: the single thing passed to the
printer is the failure diagnostic, not the encoding `z` of the one word asked for. -/
theorem blob_output_counterexample :
    0 % 4 = 0 ∧ 4 % 4 = 0 ∧
    (xe_print_blob_ascii85 blob_env_nomem none NUL blob0 0 4).out
      = [Emit.drm_printf_pe "Failed to allocate line buffer: %pe"] ∧
    pfx_text none ++ concat_text (blob_encodings blob_env_nomem blob0 (0 / 4) (4 / 4))
      ++ suffix_text NUL = ['z'] ∧
    ¬ ∃ lines : List Text,
      (xe_print_blob_ascii85 blob_env_nomem none NUL blob0 0 4).out
        = lines.map Emit.drm_puts ∧
      concat_text lines
        = pfx_text none ++ concat_text (blob_encodings blob_env_nomem blob0 (0 / 4) (4 / 4))
          ++ suffix_text NUL := by
  refine ⟨rfl, rfl, by decide, by decide, ?_⟩
  rintro ⟨lines, h, _⟩
  have h2 : [Emit.drm_printf_pe "Failed to allocate line buffer: %pe"]
      = lines.map Emit.drm_puts := by
    rw [← h]
    decide
  cases lines with
  | nil => cases h2
  | cons l ls =>
    rw [List.map_cons] at h2
    cases h2

theorem blob_finish_suffix (suffix : Char) (st : blob_printer) (hs : suffix ≠ NUL) :
    (blob_finish suffix st).out
      = st.out ++ [Emit.drm_puts (st.line_buff ++ [suffix])] := by
  unfold blob_finish
  simp only [if_pos hs]
  split
  · rfl
  · rename_i h
    simp at h

theorem blob_finish_plain (st : blob_printer) :
    (blob_finish NUL st).out
      = st.out ++ (if st.line_buff = [] then [] else [Emit.drm_puts st.line_buff]) := by
  unfold blob_finish
  simp only [ne_eq, not_true_eq_false, if_false]
  by_cases h : st.line_buff = []
  · simp [h]
  · have hl : st.line_buff.length ≠ 0 := fun h0 => h (List.length_eq_zero.mp h0)
    simp [h, hl]

/-- C18, as amended (suffix): when the line buffer allocation succeeds, a call of
`xe_print_blob_ascii85` with a non-zero suffix prints what the same call with suffix 0
prints, except that the suffix character is appended once, as the last character of
the last string passed to the printer: the earlier strings `body` are the same in both
calls, the last string is the pending line `last` with the suffix behind it, and with
suffix 0 the pending line is printed as it is (not at all when it is empty). -/
theorem blob_suffix_once (a : BlobEnv) (pfx : Option Text) (suffix : Char)
    (blob : Nat → Nat) (offset size : Nat)
    (halloc : a.kzalloc DMESG_MAX_LINE_LEN = true) (hs : suffix ≠ NUL) :
    ∃ (body : List Emit) (last : Text),
      (xe_print_blob_ascii85 a pfx suffix blob offset size).out
        = body ++ [Emit.drm_puts (last ++ [suffix])] ∧
      (xe_print_blob_ascii85 a pfx NUL blob offset size).out
        = body ++ (if last = [] then [] else [Emit.drm_puts last]) := by
  rw [blob_ok a pfx suffix blob offset size halloc, blob_ok a pfx NUL blob offset size halloc]
  exact ⟨_, _, blob_finish_suffix suffix _ hs, blob_finish_plain _⟩

/-- C18, exercised: prefix `ab`, suffix `X`, three words. -/
theorem blob_suffix_once_witness :
    blob_env0.kzalloc DMESG_MAX_LINE_LEN = true ∧ 'X' ≠ NUL ∧
    ∃ (body : List Emit) (last : Text),
      (xe_print_blob_ascii85 blob_env0 (some ['a', 'b']) 'X' blob0 0 12).out
        = body ++ [Emit.drm_puts (last ++ ['X'])] ∧
      (xe_print_blob_ascii85 blob_env0 (some ['a', 'b']) NUL blob0 0 12).out
        = body ++ (if last = [] then [] else [Emit.drm_puts last]) :=
  ⟨rfl, by decide,
    blob_suffix_once blob_env0 (some ['a', 'b']) 'X' blob0 0 12 rfl (by decide)⟩

/-- C18 as stated fails when the allocation fails: with suffix `X` the only thing
passed to the printer is the failure diagnostic, so the suffix is not appended at all. -/
theorem blob_suffix_counterexample :
    'X' ≠ NUL ∧
    (xe_print_blob_ascii85 blob_env_nomem none 'X' blob0 0 4).out
      = [Emit.drm_printf_pe "Failed to allocate line buffer: %pe"] ∧
    ¬ ∃ (body : List Emit) (last : Text),
      (xe_print_blob_ascii85 blob_env_nomem none 'X' blob0 0 4).out
        = body ++ [Emit.drm_puts (last ++ ['X'])] := by
  refine ⟨by decide, by decide, ?_⟩
  rintro ⟨body, last, h⟩
  have h2 : [Emit.drm_printf_pe "Failed to allocate line buffer: %pe"]
      = body ++ [Emit.drm_puts (last ++ ['X'])] := by
    rw [← h]
    decide
  have h3 := congrArg List.getLast? h2
  simp at h3

theorem blob_word_out_grows (a : BlobEnv) (blob : Nat → Nat) (st : blob_printer)
    (idx : Nat) : ∃ rest, (blob_word a blob st idx).out = st.out ++ rest := by
  unfold blob_word
  simp only []
  split
  · exact ⟨_, rfl⟩
  · exact ⟨[], (List.append_nil _).symm⟩

theorem blob_loop_out_grows (a : BlobEnv) (blob : Nat → Nat) (base : Nat)
    (st : blob_printer) :
    ∀ n : Nat, ∃ rest, (blob_loop a blob base n st).out = st.out ++ rest := by
  intro n
  induction n with
  | zero => exact ⟨[], (List.append_nil _).symm⟩
  | succ n ih =>
    obtain ⟨r1, h1⟩ := ih
    obtain ⟨r2, h2⟩ := blob_word_out_grows a blob (blob_loop a blob base n st) (base + n)
    rw [blob_loop_succ, h2, h1, List.append_assoc]
    exact ⟨_, rfl⟩

/-- Every run prints the alignment diagnostics first. -/
theorem blob_out_diagnostics (a : BlobEnv) (pfx : Option Text) (suffix : Char)
    (blob : Nat → Nat) (offset size : Nat) :
    ∃ rest, (xe_print_blob_ascii85 a pfx suffix blob offset size).out
      = blob_diagnostics offset size ++ rest := by
  cases halloc : a.kzalloc DMESG_MAX_LINE_LEN with
  | false =>
    rw [blob_nomem a pfx suffix blob offset size halloc]
    exact ⟨_, rfl⟩
  | true =>
    rw [blob_ok a pfx suffix blob offset size halloc]
    obtain ⟨r1, h1⟩ :=
      blob_loop_out_grows a blob (offset / 4) (blob_begin a pfx offset size) (size / 4)
    obtain ⟨ls, h2, _⟩ := blob_finish_out suffix
      (blob_loop a blob (offset / 4) (size / 4) (blob_begin a pfx offset size))
    rw [h2, h1, blob_begin_out, List.append_assoc]
    exact ⟨_, rfl⟩

/-- C19, as amended (misaligned size): called with a size that is not a multiple of 4,
`xe_print_blob_ascii85` first prints the diagnostic `Size not word aligned` with the
size; when the line buffer allocation then succeeds it goes on and reads exactly
`size / 4` words, those of word index `offset / 4` onwards, each of which ends at or
before byte `offset + size` and starts at most `offset % 4` bytes before byte `offset`
(at or after it for an aligned offset); when the allocation fails no word is read. -/
theorem blob_misaligned_size (a : BlobEnv) (pfx : Option Text) (suffix : Char)
    (blob : Nat → Nat) (offset size : Nat) (hsz : size % 4 ≠ 0) :
    (∃ rest, (xe_print_blob_ascii85 a pfx suffix blob offset size).out
      = Emit.drm_printf "Size not word aligned: %zu" size :: rest) ∧
    (a.kzalloc DMESG_MAX_LINE_LEN = true →
      (xe_print_blob_ascii85 a pfx suffix blob offset size).reads
        = (List.range (size / 4)).map (fun k => offset / 4 + k) ∧
      (xe_print_blob_ascii85 a pfx suffix blob offset size).reads.length = size / 4 ∧
      ∀ i ∈ (xe_print_blob_ascii85 a pfx suffix blob offset size).reads,
        4 * i + 4 ≤ offset + size ∧ offset ≤ 4 * i + offset % 4) ∧
    (a.kzalloc DMESG_MAX_LINE_LEN = false →
      (xe_print_blob_ascii85 a pfx suffix blob offset size).reads = []) := by
  refine ⟨?_, ?_, ?_⟩
  · obtain ⟨r1, h1⟩ := blob_out_diagnostics a pfx suffix blob offset size
    obtain ⟨r2, h2⟩ := blob_diagnostics_size offset size hsz
    rw [h1, h2]
    exact ⟨_, rfl⟩
  · intro halloc
    rw [blob_reads a pfx suffix blob offset size halloc]
    refine ⟨rfl, by simp, ?_⟩
    intro i hi
    obtain ⟨k, hk, rfl⟩ := List.mem_map.mp hi
    have hk2 := List.mem_range.mp hk
    omega
  · intro halloc
    rw [blob_nomem a pfx suffix blob offset size halloc]

/-- C19, exercised: size 14 at offset 8 reads the words 2, 3 and 4. -/
theorem blob_misaligned_size_witness :
    14 % 4 ≠ 0 ∧
    (xe_print_blob_ascii85 blob_env0 none NUL blob0 8 14).reads = [2, 3, 4] ∧
    ∃ rest, (xe_print_blob_ascii85 blob_env0 none NUL blob0 8 14).out
      = Emit.drm_printf "Size not word aligned: %zu" 14 :: rest :=
  ⟨by decide, by decide,
    (blob_misaligned_size blob_env0 none NUL blob0 8 14 (by decide)).1⟩

/-- C19 as stated fails in two ways: with offset 2 and size 6 the one word read is the
word of index 0, bytes 0 to 3, which starts before byte 2; and when the allocation
fails, size 6 reads no word where `6 / 4` is one. -/
theorem blob_misaligned_size_counterexample :
    6 % 4 ≠ 0 ∧
    (xe_print_blob_ascii85 blob_env0 none NUL blob0 2 6).reads = [0] ∧
    ¬ (∀ i ∈ (xe_print_blob_ascii85 blob_env0 none NUL blob0 2 6).reads,
        2 ≤ 4 * i ∧ 4 * i + 4 ≤ 2 + 6) ∧
    (xe_print_blob_ascii85 blob_env_nomem none NUL blob0 0 6).reads = [] ∧
    (xe_print_blob_ascii85 blob_env_nomem none NUL blob0 0 6).reads.length ≠ 6 / 4 := by
  refine ⟨by decide, by decide, ?_, by decide, by decide⟩
  intro h
  have h0 := h 0 (by decide)
  omega

/-! ## The worker and the capture, statement by statement -/

/-- The capture trace ends in the state `devcoredump_snapshot` returns. -/
theorem devcoredump_snapshot_trace_last (env : Env) (xe : xe_device) (job : xe_sched_job) :
    (devcoredump_snapshot_trace env xe job).getLast? = some (devcoredump_snapshot env xe job) :=
  rfl

theorem devcoredump_snapshot_trace_latch (env : Env) (xe : xe_device)
    (job : xe_sched_job) :
    (devcoredump_snapshot_trace env xe job).map (fun s => s.devcoredump.captured)
      = List.replicate 16 xe.devcoredump.captured :=
  rfl

/-- The capture never writes the latch: every state inside `devcoredump_snapshot`
has the latch it was entered with. -/
theorem devcoredump_snapshot_trace_captured (env : Env) (xe : xe_device)
    (job : xe_sched_job) :
    ∀ s ∈ devcoredump_snapshot_trace env xe job,
      s.devcoredump.captured = xe.devcoredump.captured := by
  intro s hs
  have hm := List.mem_map_of_mem (fun s => s.devcoredump.captured) hs
  rw [devcoredump_snapshot_trace_latch] at hm
  exact List.eq_of_mem_replicate hm

/-- The trace of the statements up to `xe_pm_runtime_put` ends in `snap_work_enrich`. -/
theorem snap_work_enrich_trace_last (env : Env) (gt : xe_gt) (xe : xe_device) :
    (snap_work_enrich_trace env gt xe).getLast? = some (snap_work_enrich env gt xe) :=
  rfl

theorem snap_work_enrich_trace_fields (env : Env) (gt : xe_gt) (xe : xe_device) :
    (snap_work_enrich_trace env gt xe).map (fun s => (s.ss.read_buffer, s.ss.read_size))
      = List.replicate 8 (xe.ss.read_buffer, xe.ss.read_size) :=
  rfl

/-- The statements up to `xe_pm_runtime_put` leave the read fields alone. -/
theorem snap_work_enrich_trace_read (env : Env) (gt : xe_gt) (xe : xe_device) :
    ∀ s ∈ snap_work_enrich_trace env gt xe,
      s.ss.read_buffer = xe.ss.read_buffer ∧ s.ss.read_size = xe.ss.read_size := by
  intro s hs
  have hm := List.mem_map_of_mem (fun s => (s.ss.read_buffer, s.ss.read_size)) hs
  rw [snap_work_enrich_trace_fields] at hm
  have := List.eq_of_mem_replicate hm
  exact ⟨congrArg Prod.fst this, congrArg Prod.snd this⟩

theorem snap_work_second_pass_trace_last (env : Env) (xe : xe_device)
    (fresh : Nat → Char) :
    (snap_work_second_pass_trace env xe fresh).bind List.getLast?
      = snap_work_second_pass env xe fresh := by
  unfold snap_work_second_pass_trace snap_work_second_pass
  simp only []
  generalize __xe_devcoredump_read env _ _ _ = res
  rcases res with _ | ⟨n, buf⟩ <;> rfl

theorem getLast_map_prefix {α : Type} (o : Option (List α)) (x : α) (p : List α)
    (h : ∀ t, o = some t → t ≠ []) :
    (o.map fun t => x :: (p ++ t)).bind List.getLast? = o.bind List.getLast? := by
  cases o with
  | none => rfl
  | some t =>
    have ht := h t rfl
    show (x :: (p ++ t)).getLast? = t.getLast?
    rw [← List.cons_append, List.getLast?_append_of_ne_nil _ ht]

theorem snap_work_second_pass_trace_ne_nil (env : Env) (xe : xe_device)
    (fresh : Nat → Char) :
    ∀ t, snap_work_second_pass_trace env xe fresh = some t → t ≠ [] := by
  unfold snap_work_second_pass_trace
  simp only []
  generalize __xe_devcoredump_read env _ _ _ = res
  rcases res with _ | ⟨n, buf⟩
  · intro t h
    cases h
  · intro t h
    cases h
    exact List.cons_ne_nil _ _

theorem snap_work_alloc_trace_ne_nil (env : Env) (xe : xe_device) (size : Nat) :
    ∀ t, snap_work_alloc_trace env xe size = some t → t ≠ [] := by
  unfold snap_work_alloc_trace
  simp only []
  generalize env.kvmalloc _ = res
  rcases res with _ | fresh
  · intro t h
    cases h
    exact List.cons_ne_nil _ _
  · simp only []
    generalize snap_work_second_pass_trace env _ fresh = o
    rcases o with _ | u
    · intro t h
      cases h
    · intro t h
      cases h
      exact List.cons_ne_nil _ _

theorem snap_work_alloc_trace_last (env : Env) (xe : xe_device) (size : Nat) :
    (snap_work_alloc_trace env xe size).bind List.getLast? = snap_work_alloc env xe size := by
  unfold snap_work_alloc_trace snap_work_alloc
  simp only []
  generalize env.kvmalloc _ = res
  rcases res with _ | fresh
  · rfl
  · simp only []
    rw [← snap_work_second_pass_trace_last]
    exact getLast_map_prefix _ _ [] (snap_work_second_pass_trace_ne_nil env _ fresh)

/-- The worker trace ends in the state the worker returns. -/
theorem snap_work_trace_last (env : Env) (xe : xe_device) :
    (snap_work_trace env xe).bind List.getLast? = xe_devcoredump_deferred_snap_work env xe := by
  rw [snap_work_staged]
  unfold snap_work_trace
  cases xe.ss.gt with
  | none => rfl
  | some gt =>
    simp only []
    generalize __xe_devcoredump_read env _ _ _ = res
    rcases res with _ | ⟨size, o⟩
    · rfl
    · simp only []
      rw [← snap_work_alloc_trace_last]
      exact getLast_map_prefix _ _ _ (snap_work_alloc_trace_ne_nil env _ size)

/-- The freeing step keeps the read fields. -/
theorem snapshot_free_read_fields (env : Env) (y : xe_device) :
    (xe_devcoredump_snapshot_free env y).ss.read_buffer = y.ss.read_buffer ∧
    (xe_devcoredump_snapshot_free env y).ss.read_size = y.ss.read_size := by
  rw [xe_devcoredump_snapshot_free_eq]
  exact ⟨rfl, rfl⟩

/-- The last three states of the worker, when the allocation has succeeded. -/
theorem snap_work_second_pass_trace_eq (env : Env) (xe : xe_device) (gt : xe_gt)
    (fresh : Nat → Char) (h : xe.ss.gt = some gt) :
    ∃ x11 x12 r, snap_work_second_pass_trace env xe fresh = some [x11, x12, r] ∧
      x11.ss.read_buffer = some ((List.range xe.ss.read_size).map fresh) ∧
      x11.ss.read_size = xe.ss.read_size ∧
      x12.ss.read_buffer = some (memcpy ((List.range xe.ss.read_size).map fresh) 0
        ((coredump_text env xe.ss gt).take xe.ss.read_size)) ∧
      x12.ss.read_size = xe.ss.read_size ∧
      r.ss.read_buffer = x12.ss.read_buffer ∧ r.ss.read_size = x12.ss.read_size := by
  unfold snap_work_second_pass_trace
  simp only []
  rw [xe_devcoredump_read_render env _ _ _
    { xe.ss with read_buffer := some ((List.range xe.ss.read_size).map fresh) } gt rfl h]
  exact ⟨_, _, _, rfl, rfl, rfl, rfl, rfl, (snapshot_free_read_fields env _).1,
    (snapshot_free_read_fields env _).2⟩

/-- The worker trace when the allocation succeeds: the states up to the assignment of
`read.size` have the buffer reference of the entry state; the state after the
allocation has the fresh buffer; the two states after it have the rendered bytes. -/
theorem snap_work_trace_ok (env : Env) (xe : xe_device) (gt : xe_gt) (fresh : Nat → Char)
    (h : xe.ss.gt = some gt) (hk : env.kvmalloc (report_size env xe.ss gt) = some fresh) :
    ∃ x9 x11 x12 r,
      snap_work_trace env xe
        = some (xe :: snap_work_enrich_trace env gt xe ++ [x9, x11, x12, r]) ∧
      x9.ss.read_buffer = xe.ss.read_buffer ∧
      x9.ss.read_size = report_size env xe.ss gt ∧
      x11.ss.read_buffer = some ((List.range (report_size env xe.ss gt)).map fresh) ∧
      x11.ss.read_size = report_size env xe.ss gt ∧
      x12.ss.read_buffer = some ((report_text env xe.ss gt).take INT_MAX) ∧
      x12.ss.read_size = report_size env xe.ss gt ∧
      r.ss.read_buffer = some ((report_text env xe.ss gt).take INT_MAX) ∧
      r.ss.read_size = report_size env xe.ss gt := by
  unfold snap_work_trace
  simp only [h]
  rw [xe_devcoredump_read_render env none INT_MAX _ (snapshot_enriched env xe.ss) gt
    (ss_snap_work_enrich env gt xe) h]
  have hsz : min (coredump_text env (snapshot_enriched env xe.ss) gt).length INT_MAX
      = report_size env xe.ss gt := rfl
  simp only [hsz]
  unfold snap_work_alloc_trace
  simp only [ss_set_ss, ss_call, hk]
  obtain ⟨x11, x12, r, ht, h1, h2, h3, h4, h5, h6⟩ :=
    snap_work_second_pass_trace_eq env
      (((snap_work_enrich env gt xe).set_ss
        { (snap_work_enrich env gt xe).ss with read_size := report_size env xe.ss gt }).call
        (.kvmalloc (report_size env xe.ss gt))) gt fresh (by exact h)
  rw [ht]
  have hbuf := second_pass_buffer env xe.ss gt fresh
  have h3b : x12.ss.read_buffer = some ((report_text env xe.ss gt).take INT_MAX) := by
    rw [h3]
    simp only [ss_set_ss, ss_call, ss_snap_work_enrich, coredump_text_read_fields]
    unfold report_text at hbuf ⊢
    rw [hbuf]
  have h2b : x11.ss.read_size = report_size env xe.ss gt := by
    rw [h2]
    simp only [ss_set_ss, ss_call]
  have h4b : x12.ss.read_size = report_size env xe.ss gt := by
    rw [h4]
    simp only [ss_set_ss, ss_call]
  have h1b : x11.ss.read_buffer
      = some ((List.range (report_size env xe.ss gt)).map fresh) := by
    rw [h1]
    simp only [ss_set_ss, ss_call]
  refine ⟨_, x11, x12, r, rfl, ?_, ?_, h1b, h2b, h3b, h4b, ?_, ?_⟩
  · simp only [ss_set_ss, ss_snap_work_enrich]
    rfl
  · simp only [ss_set_ss]
  · rw [h5, h3b]
  · rw [h6, h4b]

/-- C21, as amended (buffer reference): in `xe_devcoredump_deferred_snap_work` with a
successful allocation, `read.buffer` becomes non-null at the statement
`ss->read.buffer = kvmalloc(...)`, before the second render pass.  The states of the
worker split into those up to the assignment of `read.size`, where `read.buffer` is what
it was at entry; the one state `mid` between the allocation and the second pass, where
`read.buffer` is the fresh buffer with the allocator's bytes; and the states `after` the
second pass has returned, where the buffer holds all `read.size` rendered bytes; the
last of them is the state the worker returns. -/
theorem buffer_published_before_render (env : Env) (xe : xe_device) (gt : xe_gt)
    (fresh : Nat → Char) (hgt : xe.ss.gt = some gt)
    (hk : env.kvmalloc (report_size env xe.ss gt) = some fresh) :
    ∃ before mid after,
      snap_work_trace env xe = some (before ++ mid :: after) ∧
      (∀ s ∈ before, s.ss.read_buffer = xe.ss.read_buffer) ∧
      mid.ss.read_buffer = some ((List.range (report_size env xe.ss gt)).map fresh) ∧
      mid.ss.read_size = report_size env xe.ss gt ∧
      (∀ s ∈ after,
        s.ss.read_buffer = some ((report_text env xe.ss gt).take INT_MAX) ∧
        s.ss.read_size = report_size env xe.ss gt) ∧
      ((report_text env xe.ss gt).take INT_MAX).length = report_size env xe.ss gt ∧
      after ≠ [] ∧
      after.getLast? = xe_devcoredump_deferred_snap_work env xe := by
  obtain ⟨x9, x11, x12, r, ht, h9, _, h11, h11s, h12, h12s, hr, hrs⟩ :=
    snap_work_trace_ok env xe gt fresh hgt hk
  have hlast := snap_work_trace_last env xe
  rw [ht] at hlast
  refine ⟨xe :: snap_work_enrich_trace env gt xe ++ [x9], x11, [x12, r], ?_, ?_, h11, h11s,
    ?_, ?_, List.cons_ne_nil _ _, ?_⟩
  · rw [ht]
    simp
  · intro s hs
    simp only [List.cons_append, List.mem_cons, List.mem_append, List.mem_singleton,
      List.mem_nil_iff, or_false] at hs
    rcases hs with h | h | h
    · rw [h]
    · exact (snap_work_enrich_trace_read env gt xe s h).1
    · rw [h, h9]
  · intro s hs
    simp only [List.mem_cons, List.mem_singleton, List.mem_nil_iff, or_false] at hs
    rcases hs with h | h
    · rw [h]
      exact ⟨h12, h12s⟩
    · rw [h]
      exact ⟨hr, hrs⟩
  · rw [List.length_take]
    unfold report_size
    exact Nat.min_comm _ _
  · refine Eq.trans ?_ hlast
    rw [Option.some_bind, List.getLast?_append_of_ne_nil _ (List.cons_ne_nil _ _)]
    rfl

/-- C21 as amended, exercised on the captured device `xe_captured`. -/
theorem buffer_published_before_render_witness :
    xe_captured.ss.gt = some gt0 ∧
    env0.kvmalloc (report_size env0 xe_captured.ss gt0) = some (fun _ => '?') ∧
    ∃ before mid after,
      snap_work_trace env0 xe_captured = some (before ++ mid :: after) ∧
      (∀ s ∈ before, s.ss.read_buffer = xe_captured.ss.read_buffer) ∧
      mid.ss.read_buffer
        = some ((List.range (report_size env0 xe_captured.ss gt0)).map (fun _ => '?')) ∧
      mid.ss.read_size = report_size env0 xe_captured.ss gt0 ∧
      (∀ s ∈ after,
        s.ss.read_buffer = some ((report_text env0 xe_captured.ss gt0).take INT_MAX) ∧
        s.ss.read_size = report_size env0 xe_captured.ss gt0) ∧
      ((report_text env0 xe_captured.ss gt0).take INT_MAX).length
        = report_size env0 xe_captured.ss gt0 ∧
      after ≠ [] ∧
      after.getLast? = xe_devcoredump_deferred_snap_work env0 xe_captured :=
  ⟨rfl, rfl, buffer_published_before_render env0 xe_captured gt0 (fun _ => '?') rfl rfl⟩

theorem report_text_head : (report_text env0 xe_captured.ss gt0).head? = some '*' := by
  unfold report_text coredump_text
  simp only [List.append_assoc]
  rfl

/-- C21 as stated fails: on the captured device `xe_captured`, the worker passes
through a state in which `read.buffer` is non-null and its first byte is the
allocator's `?`, while the rendered text starts with `*`. -/
theorem buffer_published_counterexample :
    ∃ t s b, snap_work_trace env0 xe_captured = some t ∧ s ∈ t ∧
      s.ss.read_buffer = some b ∧ b.head? = some '?' ∧
      (report_text env0 xe_captured.ss gt0).head? = some '*' := by
  obtain ⟨x9, x11, x12, r, ht, _, _, h11, _, _, _, _, _⟩ :=
    snap_work_trace_ok env0 xe_captured gt0 (fun _ => '?') rfl rfl
  have hpos : ∃ n, report_size env0 xe_captured.ss gt0 = n + 1 := by
    have hh := report_text_head
    unfold report_size
    cases hrt : report_text env0 xe_captured.ss gt0 with
    | nil => rw [hrt] at hh; cases hh
    | cons c rest =>
      refine ⟨min rest.length (INT_MAX - 1), ?_⟩
      simp only [List.length_cons, INT_MAX]
      omega
  obtain ⟨n, hn⟩ := hpos
  refine ⟨_, x11, _, ht, by simp, h11, ?_, report_text_head⟩
  rw [hn, List.range_succ_eq_map]
  rfl

/-- C22 (latch before capture): in the statements `xe_devcoredump` runs, whatever the
device, every state recorded inside `devcoredump_snapshot` has `captured == true`; a
fault reported in such a state only logs the duplicate, leaves the aggregate as it is,
queues no work and passes through no state inside `devcoredump_snapshot`.  On a device
with the latch clear the states recorded inside `devcoredump_snapshot` are exactly
those of one call, from its entry state to the one it returns, and that entry state has
the latch set. -/
theorem latch_before_capture (env : Env) (xe : xe_device) (job : xe_sched_job)
    (h : xe.devcoredump.captured = false) :
    (∃ s0 : xe_device,
      (xe_devcoredump_trace env xe job).filter
          (fun p => decide (p.1 = xe_devcoredump_point.inside_snapshot))
        = (devcoredump_snapshot_trace env s0 job).map
            (fun s => (xe_devcoredump_point.inside_snapshot, s)) ∧
      (devcoredump_snapshot_trace env s0 job).head? = some s0 ∧
      s0.devcoredump.captured = true) ∧
    ∀ (y s : xe_device),
      (xe_devcoredump_point.inside_snapshot, s) ∈ xe_devcoredump_trace env y job →
      s.devcoredump.captured = true ∧
      ∀ (env2 : Env) (job2 : xe_sched_job),
        xe_devcoredump env2 s job2 = s.call (.drm_dbg
          "Multiple hangs are occurring, but only the first snapshot was taken\n") ∧
        (xe_devcoredump env2 s job2).ss = s.ss ∧
        queued (xe_devcoredump env2 s job2) = queued s ∧
        ∀ t, (xe_devcoredump_point.inside_snapshot, t) ∉ xe_devcoredump_trace env2 s job2 := by
  refine ⟨⟨xe.set_captured true, ?_, rfl, rfl⟩, ?_⟩
  · rw [xe_devcoredump_trace_first env xe job h]
    generalize devcoredump_snapshot_trace env (xe.set_captured true) job = l
    simp only [List.filter_append, List.filter_cons, List.filter_nil, reduceCtorEq,
      decide_False, Bool.false_eq_true, if_false, List.nil_append, List.append_nil]
    rw [List.filter_eq_self]
    intro p hp
    obtain ⟨a, _, rfl⟩ := List.mem_map.mp hp
    simp
  · intro y s hs
    obtain ⟨_, hin⟩ := xe_devcoredump_trace_inside env y job s hs
    have hc : s.devcoredump.captured = true :=
      devcoredump_snapshot_trace_captured env (y.set_captured true) job s hin
    refine ⟨hc, fun env2 job2 => ?_⟩
    rw [xe_devcoredump_latched env2 s job2 hc]
    refine ⟨rfl, rfl, by simp [queued], ?_⟩
    intro t ht
    rw [xe_devcoredump_trace_latched env2 s job2 hc] at ht
    simp at ht

/-- C22, exercised on the pristine device `xe0` and the job `job0`. -/
theorem latch_before_capture_witness :
    xe0.devcoredump.captured = false ∧
    (∃ s0 : xe_device,
      (xe_devcoredump_trace env0 xe0 job0).filter
          (fun p => decide (p.1 = xe_devcoredump_point.inside_snapshot))
        = (devcoredump_snapshot_trace env0 s0 job0).map
            (fun s => (xe_devcoredump_point.inside_snapshot, s)) ∧
      (devcoredump_snapshot_trace env0 s0 job0).head? = some s0 ∧
      s0.devcoredump.captured = true) ∧
    ∀ (y s : xe_device),
      (xe_devcoredump_point.inside_snapshot, s) ∈ xe_devcoredump_trace env0 y job0 →
      s.devcoredump.captured = true ∧
      ∀ (env2 : Env) (job2 : xe_sched_job),
        xe_devcoredump env2 s job2 = s.call (.drm_dbg
          "Multiple hangs are occurring, but only the first snapshot was taken\n") ∧
        (xe_devcoredump env2 s job2).ss = s.ss ∧
        queued (xe_devcoredump env2 s job2) = queued s ∧
        ∀ t, (xe_devcoredump_point.inside_snapshot, t) ∉ xe_devcoredump_trace env2 s job2 :=
  ⟨rfl, latch_before_capture env0 xe0 job0 rfl⟩

/-- The aggregate built by the capture does not depend on the forcewake collaborators. -/
theorem snapshot_captured_forcewake (env : Env) (g : xe_gt → Nat) (d : Nat → Bool)
    (ss : xe_devcoredump_snapshot) (job : xe_sched_job) :
    snapshot_captured { env with xe_force_wake_get := g, xe_force_wake_ref_has_domain := d }
      ss job = snapshot_captured env ss job :=
  rfl

/-- C23, evaluated where the acquisition obtains no domain (`env0_nofw`): the fast
phase captures the same aggregate as with a successful acquisition and makes the same
calls, none of them a log of the failure; the deferred phase logs the failure. -/
theorem forcewake_failure_fast_phase_silent :
    env0_nofw.xe_force_wake_ref_has_domain (env0_nofw.xe_force_wake_get gt0) = false ∧
    (devcoredump_snapshot env0_nofw xe0 job0).calls =
      [.INIT_WORK, .dma_fence_begin_signalling, .xe_force_wake_get, .queue_work,
        .xe_force_wake_put 1, .dma_fence_end_signalling] ∧
    (devcoredump_snapshot env0_nofw xe0 job0).calls = (devcoredump_snapshot env0 xe0 job0).calls ∧
    (devcoredump_snapshot env0_nofw xe0 job0).ss = (devcoredump_snapshot env0 xe0 job0).ss ∧
    ∃ r, xe_devcoredump_deferred_snap_work env0_nofw xe_captured = some r ∧
      Call.xe_gt_info "failed to get forcewake for coredump capture\n" ∈ r.calls := by
  refine ⟨rfl, ?_, ?_, ?_, ?_⟩
  · rw [devcoredump_snapshot_eq]
    rfl
  · rw [devcoredump_snapshot_eq, devcoredump_snapshot_eq]
    rfl
  · rw [devcoredump_snapshot_eq, devcoredump_snapshot_eq]
    simp only [ss_add_calls, ss_set_ss]
    exact snapshot_captured_forcewake env0 env0.xe_force_wake_get (fun _ => false) _ _
  · refine ⟨_, snap_work_alloc_ok env0_nofw xe_captured gt0 (fun _ => '?') rfl rfl, ?_⟩
    simp only [calls_add_calls, calls_set_ss, snap_work_calls]
    simp [env0_nofw]

/-- An aggregate whose first `XE_NUM_HW_ENGINES` engine slots are empty has nothing but
empty slots among them. -/
theorem take_hwe_empty (n : Nat) (hwe : List (Option xe_hw_engine_snapshot))
    (h : ∀ i, i < n → i < hwe.length → hwe[i]? = some none) :
    hwe.take n = List.replicate (min n hwe.length) none := by
  apply List.ext_getElem?
  intro i
  by_cases hi : i < min n hwe.length
  · have h1 : i < n := by omega
    have h2 : i < hwe.length := by omega
    rw [List.getElem?_take_of_lt h1, h i h1 h2, List.getElem?_replicate, if_pos hi]
  · rw [List.getElem?_replicate, if_neg hi]
    apply List.getElem?_eq_none
    rw [List.length_take]
    omega

/-- Freeing an aggregate whose slots are already empty leaves the aggregate as it is. -/
theorem snapshot_freed_empty (env : Env) (ss : xe_devcoredump_snapshot)
    (hct : ss.ct = none) (hge : ss.ge = none) (hjob : ss.job = none) (hvm : ss.vm = none)
    (hhwe : ∀ i, i < env.XE_NUM_HW_ENGINES → i < ss.hwe.length → ss.hwe[i]? = some none) :
    snapshot_freed env ss = ss := by
  have ht := take_hwe_empty env.XE_NUM_HW_ENGINES ss.hwe hhwe
  have hsplit : List.replicate (min env.XE_NUM_HW_ENGINES ss.hwe.length) none
      ++ ss.hwe.drop env.XE_NUM_HW_ENGINES = ss.hwe := by
    rw [← ht]
    exact List.take_append_drop _ _
  cases ss with
  | mk t b p g w ct ge job hwe vm rs rb =>
    simp only at hct hge hjob hvm hsplit
    simp only [snapshot_freed, hsplit, hct, hge, hjob, hvm]

/-- Freeing an aggregate whose slots are already empty releases nothing. -/
theorem slot_releases_none (env : Env) (ss : xe_devcoredump_snapshot)
    (hct : ss.ct = none) (hge : ss.ge = none) (hjob : ss.job = none) (hvm : ss.vm = none)
    (hhwe : ∀ i, i < env.XE_NUM_HW_ENGINES → i < ss.hwe.length → ss.hwe[i]? = some none) :
    slot_releases env ss = [] := by
  unfold slot_releases
  rw [hct, hge, hjob, hvm, take_hwe_empty env.XE_NUM_HW_ENGINES ss.hwe hhwe]
  simp [opt_release, hwe_free_calls_replicate]

/-- The engine slots of a freed aggregate are empty. -/
theorem snapshot_freed_hwe (env : Env) (ss : xe_devcoredump_snapshot) (i : Nat)
    (h1 : i < env.XE_NUM_HW_ENGINES) (h2 : i < (snapshot_freed env ss).hwe.length) :
    (snapshot_freed env ss).hwe[i]? = some none := by
  have hlen : (snapshot_freed env ss).hwe.length
      = min env.XE_NUM_HW_ENGINES ss.hwe.length
        + (ss.hwe.drop env.XE_NUM_HW_ENGINES).length := by
    simp [snapshot_freed]
  have h3 : i < min env.XE_NUM_HW_ENGINES ss.hwe.length := by
    rw [hlen, List.length_drop] at h2
    omega
  show (List.replicate (min env.XE_NUM_HW_ENGINES ss.hwe.length) none
    ++ ss.hwe.drop env.XE_NUM_HW_ENGINES)[i]? = some none
  rw [List.getElem?_append_left (by simpa using h3), List.getElem?_replicate, if_pos h3]

/-- Freeing a device whose slots are already empty changes neither the coredump state
nor what has been released. -/
theorem snapshot_free_empty (env : Env) (y : xe_device)
    (hct : y.ss.ct = none) (hge : y.ss.ge = none) (hjob : y.ss.job = none)
    (hvm : y.ss.vm = none)
    (hhwe : ∀ i, i < env.XE_NUM_HW_ENGINES → i < y.ss.hwe.length → y.ss.hwe[i]? = some none) :
    (xe_devcoredump_snapshot_free env y).devcoredump = y.devcoredump ∧
    (xe_devcoredump_snapshot_free env y).primary_index = y.primary_index ∧
    released (xe_devcoredump_snapshot_free env y) = released y := by
  rw [xe_devcoredump_snapshot_free_eq, snapshot_freed_empty env y.ss hct hge hjob hvm hhwe]
  refine ⟨rfl, rfl, ?_⟩
  simp only [released, calls_add_calls, calls_set_ss, List.filter_append,
    snapshot_free_calls_released, slot_releases_none env y.ss hct hge hjob hvm hhwe,
    List.append_nil]

/-- C24 (slots after the worker): when `xe_devcoredump_deferred_snap_work` completes
with a successful allocation, the slots `ct`, `ge`, `job`, `vm` and every engine slot
`hwe[i]`, `i < XE_NUM_HW_ENGINES`, of the aggregate are empty, while `read.size` and
`read.buffer` hold the size and the bytes of the report; the freeing step
`xe_devcoredump_snapshot_free` leaves `read.buffer` and `read.size` of any device as
they are; and applied to a device whose slots are already empty, such as the one the
worker returns, it changes nothing in the coredump state and releases nothing. -/
theorem worker_leaves_slots_empty (env : Env) (xe : xe_device) (gt : xe_gt)
    (fresh : Nat → Char) (hgt : xe.ss.gt = some gt)
    (hk : env.kvmalloc (report_size env xe.ss gt) = some fresh) :
    (∃ r, xe_devcoredump_deferred_snap_work env xe = some r ∧
      r.ss.ct = none ∧ r.ss.ge = none ∧ r.ss.job = none ∧ r.ss.vm = none ∧
      (∀ i, i < env.XE_NUM_HW_ENGINES → i < r.ss.hwe.length → r.ss.hwe[i]? = some none) ∧
      r.ss.read_size = report_size env xe.ss gt ∧
      r.ss.read_buffer = some ((report_text env xe.ss gt).take INT_MAX) ∧
      (xe_devcoredump_snapshot_free env r).devcoredump = r.devcoredump ∧
      released (xe_devcoredump_snapshot_free env r) = released r) ∧
    (∀ y : xe_device,
      (xe_devcoredump_snapshot_free env y).ss.read_buffer = y.ss.read_buffer ∧
      (xe_devcoredump_snapshot_free env y).ss.read_size = y.ss.read_size) ∧
    (∀ y : xe_device, y.ss.ct = none → y.ss.ge = none → y.ss.job = none → y.ss.vm = none →
      (∀ i, i < env.XE_NUM_HW_ENGINES → i < y.ss.hwe.length → y.ss.hwe[i]? = some none) →
        (xe_devcoredump_snapshot_free env y).devcoredump = y.devcoredump ∧
        released (xe_devcoredump_snapshot_free env y) = released y) := by
  refine ⟨?_, snapshot_free_read_fields env, fun y h1 h2 h3 h4 h5 =>
    ⟨(snapshot_free_empty env y h1 h2 h3 h4 h5).1, (snapshot_free_empty env y h1 h2 h3 h4 h5).2.2⟩⟩
  refine ⟨_, snap_work_alloc_ok env xe gt fresh hgt hk, rfl, rfl, rfl, rfl, ?_, rfl, rfl, ?_⟩
  · intro i h1 h2
    exact snapshot_freed_hwe env _ i h1 h2
  · have hs := snapshot_free_empty env
      ((xe.set_ss (snapshot_freed env { snapshot_enriched env xe.ss with
                read_size := report_size env xe.ss gt
                read_buffer := some ((report_text env xe.ss gt).take INT_MAX) })).add_calls
              (snap_work_calls env gt (report_size env xe.ss gt)
                ++ snapshot_free_calls env (snapshot_enriched env xe.ss)))
      rfl rfl rfl rfl (fun i h1 h2 => snapshot_freed_hwe env _ i h1 h2)
    exact ⟨hs.1, hs.2.2⟩

/-- C24, exercised on the captured device `xe_captured`. -/
theorem worker_leaves_slots_empty_witness :
    xe_captured.ss.gt = some gt0 ∧
    env0.kvmalloc (report_size env0 xe_captured.ss gt0) = some (fun _ => '?') ∧
    ∃ r, xe_devcoredump_deferred_snap_work env0 xe_captured = some r ∧
      r.ss.ct = none ∧ r.ss.ge = none ∧ r.ss.job = none ∧ r.ss.vm = none ∧
      (∀ i, i < env0.XE_NUM_HW_ENGINES → i < r.ss.hwe.length → r.ss.hwe[i]? = some none) ∧
      r.ss.read_size = report_size env0 xe_captured.ss gt0 ∧
      r.ss.read_buffer = some ((report_text env0 xe_captured.ss gt0).take INT_MAX) ∧
      (xe_devcoredump_snapshot_free env0 r).devcoredump = r.devcoredump ∧
      released (xe_devcoredump_snapshot_free env0 r) = released r :=
  ⟨rfl, rfl, (worker_leaves_slots_empty env0 xe_captured gt0 (fun _ => '?') rfl rfl).1⟩

theorem expand_mask_loop_step (w wm max fuel i adj : Nat) :
    expand_mask_loop w wm max (fuel + 1) i adj =
      if w > 1 ∧ i < max then
        if adj &&& BIT i ≠ 0 then
          expand_mask_loop w wm max fuel (i + w) (u32 (adj ||| (wm <<< i)))
        else
          expand_mask_loop w wm max fuel (i + 1) adj
      else (i, adj) :=
  rfl

/-- Once the fuel covers the distance to `max`, one more unit changes nothing. -/
theorem expand_mask_loop_fuel_succ (w wm max : Nat) :
    ∀ (fuel i adj : Nat), max ≤ i + fuel →
      expand_mask_loop w wm max (fuel + 1) i adj = expand_mask_loop w wm max fuel i adj := by
  intro fuel
  induction fuel with
  | zero =>
    intro i adj h
    rw [expand_mask_loop_step, if_neg (by omega)]
    rfl
  | succ fuel ih =>
    intro i adj h
    rw [expand_mask_loop_step w wm max (fuel + 1) i adj,
      expand_mask_loop_step w wm max fuel i adj]
    by_cases hg : w > 1 ∧ i < max
    · rw [if_pos hg, if_pos hg]
      by_cases hb : adj &&& BIT i ≠ 0
      · rw [if_pos hb, if_pos hb]
        exact ih _ _ (by omega)
      · rw [if_neg hb, if_neg hb]
        exact ih _ _ (by omega)
    · rw [if_neg hg, if_neg hg]

theorem expand_mask_loop_fuel_add (w wm max : Nat) :
    ∀ (k fuel i adj : Nat), max ≤ i + fuel →
      expand_mask_loop w wm max (fuel + k) i adj = expand_mask_loop w wm max fuel i adj := by
  intro k
  induction k with
  | zero => intro fuel i adj _; rfl
  | succ k ih =>
    intro fuel i adj h
    rw [← Nat.add_assoc, expand_mask_loop_fuel_succ w wm max (fuel + k) i adj (by omega)]
    exact ih fuel i adj h

/-- With fuel covering the distance to `max`, the loop stops because its guard fails. -/
theorem expand_mask_loop_exit (w wm max : Nat) :
    ∀ (fuel i adj : Nat), max ≤ i + fuel →
      ¬ (w > 1 ∧ (expand_mask_loop w wm max fuel i adj).1 < max) := by
  intro fuel
  induction fuel with
  | zero =>
    intro i adj h
    show ¬ (w > 1 ∧ i < max)
    omega
  | succ fuel ih =>
    intro i adj h
    rw [expand_mask_loop_step]
    by_cases hg : w > 1 ∧ i < max
    · rw [if_pos hg]
      by_cases hb : adj &&& BIT i ≠ 0
      · rw [if_pos hb]
        exact ih _ _ (by omega)
      · rw [if_neg hb]
        exact ih _ _ (by omega)
    · rw [if_neg hg]
      exact hg

theorem testBit_u32 (x j : Nat) (h : (u32 x).testBit j = true) : x.testBit j = true := by
  unfold u32 at h
  rw [Nat.testBit_mod_two_pow] at h
  simp only [Bool.and_eq_true, decide_eq_true_eq] at h
  exact h.2

/-- C25 (the mask loop ends and adds no spurious engine): for every width and logical
mask the loop of `devcoredump_snapshot` stops within `XE_HW_ENGINE_MAX_INSTANCE`
iterations, with its guard `q->width > 1 && i < XE_HW_ENGINE_MAX_INSTANCE` false, and
any larger number of iterations allowed gives the same result; and every bit `j` of
the adjusted mask is a bit of the original mask or satisfies `b ≤ j < b + width` for
some bit `b` of the original mask. -/
theorem mask_loop_terminates (env : Env) (q : xe_exec_queue) :
    (∀ fuel, env.XE_HW_ENGINE_MAX_INSTANCE ≤ fuel →
      expand_mask_loop q.width (u32 ((1 <<< q.width) - 1)) env.XE_HW_ENGINE_MAX_INSTANCE
          fuel 0 (u32 q.logical_mask)
        = expand_mask_loop q.width (u32 ((1 <<< q.width) - 1))
            env.XE_HW_ENGINE_MAX_INSTANCE env.XE_HW_ENGINE_MAX_INSTANCE 0
            (u32 q.logical_mask)) ∧
    ¬ (q.width > 1 ∧
        (expand_mask_loop q.width (u32 ((1 <<< q.width) - 1)) env.XE_HW_ENGINE_MAX_INSTANCE
          env.XE_HW_ENGINE_MAX_INSTANCE 0 (u32 q.logical_mask)).1
          < env.XE_HW_ENGINE_MAX_INSTANCE) ∧
    adj_logical_mask env q
      = (expand_mask_loop q.width (u32 ((1 <<< q.width) - 1)) env.XE_HW_ENGINE_MAX_INSTANCE
          env.XE_HW_ENGINE_MAX_INSTANCE 0 (u32 q.logical_mask)).2 ∧
    ∀ j, (adj_logical_mask env q).testBit j = true →
      q.logical_mask.testBit j = true ∨
        ∃ b, q.logical_mask.testBit b = true ∧ b ≤ j ∧ j < b + q.width := by
  refine ⟨?_, expand_mask_loop_exit _ _ _ _ _ _ (by omega), rfl, ?_⟩
  · intro fuel hf
    obtain ⟨k, rfl⟩ := Nat.exists_eq_add_of_le hf
    exact expand_mask_loop_fuel_add _ _ _ k _ 0 _ (by omega)
  · intro j hj
    have hu := expand_mask_loop_upper q.width env.XE_HW_ENGINE_MAX_INSTANCE
      (u32 q.logical_mask) (Nat.mod_lt _ (by decide)) env.XE_HW_ENGINE_MAX_INSTANCE 0
      (u32 q.logical_mask) (fun _ _ => rfl) (fun j h => Or.inl h) j hj
    rcases hu with h | ⟨b, _, hb, h1, h2⟩
    · exact Or.inl (testBit_u32 _ _ h)
    · exact Or.inr ⟨b, testBit_u32 _ _ hb, h1, h2⟩

/-- C26, evaluated at offset 2, size 8: the offset diagnostic carries the size, 8, not
the offset. -/
theorem blob_offset_diagnostic_prints_size :
    2 % 4 ≠ 0 ∧
    (xe_print_blob_ascii85 blob_env0 none NUL blob0 2 8).out
      = [Emit.drm_printf "Offset not word aligned: %zu" 8,
         Emit.drm_puts ['z', '!', '!', '!', '!', '"']] ∧
    Emit.drm_printf "Offset not word aligned: %zu" 2
      ∉ (xe_print_blob_ascii85 blob_env0 none NUL blob0 2 8).out := by
  decide

end Xe

namespace SimpleCard

/-! ## simple-card-utils.c: clocks at stream startup -/

theorem fixed_rates_append (a b : List simple_util_dai) :
    fixed_rates (a ++ b) = fixed_rates a ++ fixed_rates b := by
  simp [fixed_rates]

theorem rates_consistent_append (a b : List Nat) :
    ∀ f, rates_consistent f (a ++ b)
      = (rates_consistent f a && rates_consistent (a.getLastD f) b) := by
  induction a with
  | nil => intro f; simp [rates_consistent]
  | cons r rs ih =>
    intro f
    rw [List.cons_append]
    simp only [rates_consistent, ih r, List.getLastD_cons, Bool.and_assoc]

/-- One scan whose clocks all enable and whose fixed rates are consistent: it runs to
the end with `ret` 0, the last fixed rate in `fixed_sysclk`, and logs only enables. -/
theorem startup_scan_consistent (env : ClkEnv) (mk : Nat → Dai) :
    ∀ (dais : List simple_util_dai) (i f : Nat) (log : List Ev),
      (∀ d ∈ dais, env.clk_prepare_enable d = 0) →
      rates_consistent f (fixed_rates dais) = true →
        (startup_scan env mk dais i f log).ret = 0 ∧
        (startup_scan env mk dais i f log).i = i + dais.length ∧
        (startup_scan env mk dais i f log).fixed_sysclk = (fixed_rates dais).getLastD f ∧
        ∀ e ∈ (startup_scan env mk dais i f log).log,
          e ∈ log ∨ ∃ d, e = Ev.clk_prepare_enable d 0 := by
  intro dais
  induction dais with
  | nil =>
    intro i f log _ _
    exact ⟨rfl, rfl, rfl, fun e he => Or.inl he⟩
  | cons dai rest ih =>
    intro i f log hen hc
    have h0 : env.clk_prepare_enable dai = 0 := hen dai (List.mem_cons_self _ _)
    have hrest : ∀ d ∈ rest, env.clk_prepare_enable d = 0 :=
      fun d hd => hen d (List.mem_cons_of_mem _ hd)
    unfold startup_scan
    simp only [h0, ne_eq, not_true_eq_false, if_false]
    by_cases hfix : dai.clk_fixed = true
    · have hr : fixed_rates (dai :: rest) = dai.sysclk :: fixed_rates rest := by
        simp [fixed_rates, hfix]
      rw [hr] at hc ⊢
      simp only [rates_consistent, Bool.and_eq_true, Bool.or_eq_true, beq_iff_eq] at hc
      have hno : ¬ (f ≠ 0 ∧ f ≠ dai.sysclk) := by
        intro h
        rcases hc.1 with h1 | h1
        · exact h.1 h1
        · exact h.2 h1
      simp only [simple_check_fixed_sysclk, hfix, hno, if_true, if_false, ne_eq,
        not_true_eq_false, List.append_nil, List.getLastD_cons]
      obtain ⟨h1, h2, h3, h4⟩ := ih (i + 1) dai.sysclk
        (log ++ [Ev.clk_prepare_enable (mk i) 0]) hrest hc.2
      refine ⟨h1, ?_, h3, ?_⟩
      · rw [h2, List.length_cons]
        omega
      · intro e he
        rcases h4 e he with h | h
        · rcases List.mem_append.mp h with h | h
          · exact Or.inl h
          · exact Or.inr ⟨mk i, List.mem_singleton.mp h⟩
        · exact Or.inr h
    · have hr : fixed_rates (dai :: rest) = fixed_rates rest := by
        simp [fixed_rates, hfix]
      rw [hr] at hc ⊢
      simp only [simple_check_fixed_sysclk, hfix, if_false, ne_eq, not_true_eq_false,
        List.append_nil, Bool.false_eq_true]
      obtain ⟨h1, h2, h3, h4⟩ := ih (i + 1) f
        (log ++ [Ev.clk_prepare_enable (mk i) 0]) hrest hc
      refine ⟨h1, ?_, h3, ?_⟩
      · rw [h2, List.length_cons]
        omega
      · intro e he
        rcases h4 e he with h | h
        · rcases List.mem_append.mp h with h | h
          · exact Or.inl h
          · exact Or.inr ⟨mk i, List.mem_singleton.mp h⟩
        · exact Or.inr h

/-- One scan whose clocks all enable and whose fixed rates are not consistent: it is
left with `-EINVAL` after logging the inconsistency. -/
theorem startup_scan_inconsistent (env : ClkEnv) (mk : Nat → Dai) :
    ∀ (dais : List simple_util_dai) (i f : Nat) (log : List Ev),
      (∀ d ∈ dais, env.clk_prepare_enable d = 0) →
      rates_consistent f (fixed_rates dais) = false →
        (startup_scan env mk dais i f log).ret = -EINVAL ∧
        ∃ a b, Ev.dev_err "inconsistent fixed sysclk rates (%u vs %u)\n" a b
          ∈ (startup_scan env mk dais i f log).log := by
  intro dais
  induction dais with
  | nil =>
    intro i f log _ hc
    simp [fixed_rates, rates_consistent] at hc
  | cons dai rest ih =>
    intro i f log hen hc
    have h0 : env.clk_prepare_enable dai = 0 := hen dai (List.mem_cons_self _ _)
    have hrest : ∀ d ∈ rest, env.clk_prepare_enable d = 0 :=
      fun d hd => hen d (List.mem_cons_of_mem _ hd)
    unfold startup_scan
    simp only [h0, ne_eq, not_true_eq_false, if_false]
    by_cases hfix : dai.clk_fixed = true
    · have hr : fixed_rates (dai :: rest) = dai.sysclk :: fixed_rates rest := by
        simp [fixed_rates, hfix]
      rw [hr] at hc
      by_cases hbad : f ≠ 0 ∧ f ≠ dai.sysclk
      · simp only [simple_check_fixed_sysclk, hfix, hbad, if_true, ne_eq, and_self,
          not_false_eq_true]
        have hE : ¬ (-EINVAL = 0) := by decide
        rw [if_pos hE]
        exact ⟨rfl, f, dai.sysclk, by simp⟩
      · have hc2 : rates_consistent dai.sysclk (fixed_rates rest) = false := by
          simp only [rates_consistent, Bool.and_eq_false_iff, Bool.or_eq_false_iff,
            beq_eq_false_iff_ne] at hc
          rcases hc with h | h
          · exact absurd h hbad
          · exact h
        simp only [simple_check_fixed_sysclk, hfix, hbad, if_true, if_false, ne_eq,
          not_true_eq_false, List.append_nil]
        exact ih (i + 1) dai.sysclk _ hrest hc2
    · have hr : fixed_rates (dai :: rest) = fixed_rates rest := by
        simp [fixed_rates, hfix]
      rw [hr] at hc
      simp only [simple_check_fixed_sysclk, hfix, if_false, ne_eq, not_true_eq_false,
        List.append_nil, Bool.false_eq_true]
      exact ih (i + 1) f _ hrest hc

theorem startup_unwind_no_err (mk : Nat → Dai) (n bound : Nat) (f : String) (a b : Nat) :
    Ev.dev_err f a b ∉ startup_unwind mk n bound := by
  unfold startup_unwind
  intro h
  obtain ⟨i, _, hi⟩ := List.mem_map.mp h
  cases hi

/-- Inconsistent fixed rates, all clocks enabling: `simple_util_startup` returns
`-EINVAL` after logging the inconsistency. -/
theorem startup_inconsistent (env : ClkEnv) (props : simple_dai_props)
    (hen : ∀ d ∈ props.cpu_dai ++ props.codec_dai, env.clk_prepare_enable d = 0)
    (hc : rates_consistent 0 (fixed_rates (props.cpu_dai ++ props.codec_dai)) = false) :
    (simple_util_startup env props).ret = -EINVAL ∧
    ∃ a b, Ev.dev_err "inconsistent fixed sysclk rates (%u vs %u)\n" a b
      ∈ (simple_util_startup env props).log := by
  have hcpu : ∀ d ∈ props.cpu_dai, env.clk_prepare_enable d = 0 :=
    fun d hd => hen d (List.mem_append_left _ hd)
  have hcodec : ∀ d ∈ props.codec_dai, env.clk_prepare_enable d = 0 :=
    fun d hd => hen d (List.mem_append_right _ hd)
  have hE : (-EINVAL : Int) ≠ 0 := by decide
  rw [fixed_rates_append, rates_consistent_append] at hc
  unfold simple_util_startup
  simp only []
  cases h1 : rates_consistent 0 (fixed_rates props.cpu_dai) with
  | false =>
    obtain ⟨hr, a, b, hm⟩ := startup_scan_inconsistent env .cpu props.cpu_dai 0 0 [] hcpu h1
    rw [if_pos (by rw [hr]; exact hE)]
    exact ⟨hr, a, b, List.mem_append_left _ hm⟩
  | true =>
    rw [h1, Bool.true_and] at hc
    obtain ⟨hr, _, hf, _⟩ := startup_scan_consistent env .cpu props.cpu_dai 0 0 [] hcpu h1
    rw [if_neg (by rw [hr]; exact fun h => h rfl)]
    rw [← hf] at hc
    obtain ⟨hr2, a, b, hm⟩ := startup_scan_inconsistent env .codec props.codec_dai 0
      (startup_scan env .cpu props.cpu_dai 0 0 []).fixed_sysclk
      (startup_scan env .cpu props.cpu_dai 0 0 []).log hcodec hc
    rw [if_pos (by rw [hr2]; exact hE)]
    exact ⟨hr2, a, b, List.mem_append_left _ (List.mem_append_left _ hm)⟩

/-- Consistent fixed rates, all clocks enabling: `simple_util_startup` gets past the
consistency check without logging an inconsistency, and returns 0 when `mclk_fs` is 0. -/
theorem startup_consistent (env : ClkEnv) (props : simple_dai_props)
    (hen : ∀ d ∈ props.cpu_dai ++ props.codec_dai, env.clk_prepare_enable d = 0)
    (hc : rates_consistent 0 (fixed_rates (props.cpu_dai ++ props.codec_dai)) = true) :
    (∀ a b, Ev.dev_err "inconsistent fixed sysclk rates (%u vs %u)\n" a b
      ∉ (simple_util_startup env props).log) ∧
    (props.mclk_fs = 0 → (simple_util_startup env props).ret = 0) := by
  have hcpu : ∀ d ∈ props.cpu_dai, env.clk_prepare_enable d = 0 :=
    fun d hd => hen d (List.mem_append_left _ hd)
  have hcodec : ∀ d ∈ props.codec_dai, env.clk_prepare_enable d = 0 :=
    fun d hd => hen d (List.mem_append_right _ hd)
  rw [fixed_rates_append, rates_consistent_append, Bool.and_eq_true] at hc
  obtain ⟨hr, _, hf, hl⟩ := startup_scan_consistent env .cpu props.cpu_dai 0 0 [] hcpu hc.1
  have hc2 := hc.2
  rw [← hf] at hc2
  obtain ⟨hr2, _, _, hl2⟩ := startup_scan_consistent env .codec props.codec_dai 0
    (startup_scan env .cpu props.cpu_dai 0 0 []).fixed_sysclk
    (startup_scan env .cpu props.cpu_dai 0 0 []).log hcodec hc2
  have hclean : ∀ a b, Ev.dev_err "inconsistent fixed sysclk rates (%u vs %u)\n" a b
      ∉ (startup_scan env .codec props.codec_dai 0
        (startup_scan env .cpu props.cpu_dai 0 0 []).fixed_sysclk
        (startup_scan env .cpu props.cpu_dai 0 0 []).log).log := by
    intro a b hm
    rcases hl2 _ hm with h | ⟨d, h⟩
    · rcases hl _ h with h | ⟨d, h⟩
      · cases h
      · cases h
    · cases h
  unfold simple_util_startup
  simp only []
  rw [if_neg (by rw [hr]; exact fun h => h rfl), if_neg (by rw [hr2]; exact fun h => h rfl)]
  refine ⟨?_, ?_⟩
  · intro a b hm
    split at hm
    · split at hm
      · rcases List.mem_append.mp hm with h | h
        · rcases List.mem_append.mp h with h | h
          · rcases List.mem_append.mp h with h | h
            · exact hclean a b h
            · rw [List.mem_singleton] at h
              exact absurd (Ev.dev_err.inj h).1 (by decide)
          · exact startup_unwind_no_err _ _ _ _ _ _ h
        · exact startup_unwind_no_err _ _ _ _ _ _ h
      · split at hm
        · rcases List.mem_append.mp hm with h | h
          · rcases List.mem_append.mp h with h | h
            · rcases List.mem_append.mp h with h | h
              · exact hclean a b h
              · rw [List.mem_singleton] at h
                cases h
            · exact startup_unwind_no_err _ _ _ _ _ _ h
          · exact startup_unwind_no_err _ _ _ _ _ _ h
        · rcases List.mem_append.mp hm with h | h
          · exact hclean a b h
          · rw [List.mem_singleton] at h
            cases h
    · exact hclean a b hm
  · intro hm
    rw [if_neg (by rw [hm]; exact fun h => h.2 rfl)]

/-- Among rates that are all set, the check passes exactly when all are equal. -/
theorem rates_consistent_equal (l : List Nat) (hnz : ∀ r ∈ l, r ≠ 0) :
    rates_consistent 0 l = true ↔ ∀ a ∈ l, ∀ b ∈ l, a = b := by
  have key : ∀ (l : List Nat) (f : Nat), f ≠ 0 → (∀ r ∈ l, r ≠ 0) →
      (rates_consistent f l = true ↔ ∀ a ∈ l, a = f) := by
    intro l
    induction l with
    | nil => intro f _ _; simp [rates_consistent]
    | cons r rs ih =>
      intro f hf hnz
      have hr : r ≠ 0 := hnz r (List.mem_cons_self _ _)
      have hrs : ∀ x ∈ rs, x ≠ 0 := fun x hx => hnz x (List.mem_cons_of_mem _ hx)
      simp only [rates_consistent, Bool.and_eq_true, Bool.or_eq_true, beq_iff_eq, ih r hr hrs,
        List.mem_cons, forall_eq_or_imp]
      constructor
      · rintro ⟨h1 | h1, h2⟩
        · exact absurd h1 hf
        · exact ⟨h1.symm, fun a ha => (h2 a ha).trans h1.symm⟩
      · rintro ⟨h1, h2⟩
        exact ⟨Or.inr h1.symm, fun a ha => (h2 a ha).trans h1.symm⟩
  cases l with
  | nil => simp [rates_consistent]
  | cons r rs =>
    have hr : r ≠ 0 := hnz r (List.mem_cons_self _ _)
    have hrs : ∀ x ∈ rs, x ≠ 0 := fun x hx => hnz x (List.mem_cons_of_mem _ hx)
    simp only [rates_consistent, beq_self_eq_true, Bool.true_or, Bool.true_and, key rs r hr hrs,
      List.mem_cons, forall_eq_or_imp]
    constructor
    · intro h
      refine ⟨⟨trivial, fun b hb => (h b hb).symm⟩, fun a ha => ⟨h a ha, fun b hb => ?_⟩⟩
      exact (h a ha).trans (h b hb).symm
    · intro h a ha
      exact (h.1.2 a ha).symm

/-- C27, evaluated on a link whose CPU DAI and codec DAI have clocks of fixed rates 100
and 200, all clocks enabling: `simple_util_startup` enables both clocks, fails the
consistency check at the codec DAI with `-EINVAL`, and on the way out disables the
clock of the CPU DAI only: the clock of codec DAI 0 stays enabled. -/
theorem startup_leaves_clock_enabled :
    (simple_util_startup clk_env0 props_mismatch).ret = -EINVAL ∧
    (simple_util_startup clk_env0 props_mismatch).log =
      [.clk_prepare_enable (.cpu 0) 0, .clk_prepare_enable (.codec 0) 0,
        .dev_err "inconsistent fixed sysclk rates (%u vs %u)\n" 100 200,
        .clk_disable_unprepare (.cpu 0)] ∧
    enabled (simple_util_startup clk_env0 props_mismatch).log = [.cpu 0, .codec 0] ∧
    disabled (simple_util_startup clk_env0 props_mismatch).log = [.cpu 0] := by
  decide

/-- C29, as amended (fixed sysclk check): when every clock of the link enables,
`simple_util_startup` returns `-EINVAL`, after logging the inconsistency, exactly when
among the `clk_fixed` DAIs taken in order, CPUs first and then codecs, one has a
`sysclk` different from the non-zero `sysclk` of the one before it (a rate of 0 counts
as not set and is not compared with the next); otherwise it gets past the consistency
check without logging an inconsistency, and returns 0 when `mclk_fs` is 0.  When all
`clk_fixed` DAIs have a non-zero rate, it gets past the check exactly when they all
share one rate. -/
theorem startup_fixed_sysclk_check (env : ClkEnv) (props : simple_dai_props)
    (hen : ∀ d ∈ props.cpu_dai ++ props.codec_dai, env.clk_prepare_enable d = 0) :
    (rates_consistent 0 (fixed_rates (props.cpu_dai ++ props.codec_dai)) = false →
      (simple_util_startup env props).ret = -EINVAL ∧
      ∃ a b, Ev.dev_err "inconsistent fixed sysclk rates (%u vs %u)\n" a b
        ∈ (simple_util_startup env props).log) ∧
    (rates_consistent 0 (fixed_rates (props.cpu_dai ++ props.codec_dai)) = true →
      (∀ a b, Ev.dev_err "inconsistent fixed sysclk rates (%u vs %u)\n" a b
        ∉ (simple_util_startup env props).log) ∧
      (props.mclk_fs = 0 → (simple_util_startup env props).ret = 0)) ∧
    ((∀ r ∈ fixed_rates (props.cpu_dai ++ props.codec_dai), r ≠ 0) →
      (rates_consistent 0 (fixed_rates (props.cpu_dai ++ props.codec_dai)) = true ↔
        ∀ a ∈ fixed_rates (props.cpu_dai ++ props.codec_dai),
          ∀ b ∈ fixed_rates (props.cpu_dai ++ props.codec_dai), a = b)) :=
  ⟨startup_inconsistent env props hen, startup_consistent env props hen,
    rates_consistent_equal _⟩

/-- C29 as amended, exercised on the link `props_mismatch` (rates 100 and 200). -/
theorem startup_fixed_sysclk_check_witness :
    (∀ d ∈ props_mismatch.cpu_dai ++ props_mismatch.codec_dai,
      clk_env0.clk_prepare_enable d = 0) ∧
    rates_consistent 0 (fixed_rates (props_mismatch.cpu_dai ++ props_mismatch.codec_dai))
      = false ∧
    (simple_util_startup clk_env0 props_mismatch).ret = -EINVAL :=
  ⟨fun _ _ => rfl, by decide,
    ((startup_fixed_sysclk_check clk_env0 props_mismatch (fun _ _ => rfl)).1
      (by decide)).1⟩

/-- C29 as stated fails: the CPU DAI and the codec DAI of `props_zero_rate` both have
`clk_fixed` set and have different rates, 0 and 100, and `simple_util_startup` returns 0
without logging an inconsistency. -/
theorem startup_fixed_sysclk_counterexample :
    fixed_rates (props_zero_rate.cpu_dai ++ props_zero_rate.codec_dai) = [0, 100] ∧
    (simple_util_startup clk_env0 props_zero_rate).ret = 0 ∧
    (simple_util_startup clk_env0 props_zero_rate).log =
      [.clk_prepare_enable (.cpu 0) 0, .clk_prepare_enable (.codec 0) 0] := by
  decide

/-! ## simple-card-utils.c: the arrays behind the links -/

theorem slices_end_append (a b : List (Nat × Nat)) :
    ∀ s, slices_end s (a ++ b) = (slices_end s a).bind fun m => slices_end m b := by
  induction a with
  | nil => intro s; rfl
  | cons x xs ih =>
    intro s
    obtain ⟨off, len⟩ := x
    rw [List.cons_append]
    simp only [slices_end]
    split
    · exact ih _
    · rfl

/-- Slices that follow one another from `s` to `e` lie between `s` and `e`, and each
ends at or before the start of every later one. -/
theorem slices_end_spec (l : List (Nat × Nat)) :
    ∀ s e, slices_end s l = some e →
      s ≤ e ∧ (∀ x ∈ l, s ≤ x.1 ∧ x.1 + x.2 ≤ e) ∧
      l.Pairwise fun a b => a.1 + a.2 ≤ b.1 := by
  induction l with
  | nil =>
    intro s e h
    simp only [slices_end, Option.some.injEq] at h
    exact ⟨by omega, fun x hx => (by cases hx), List.Pairwise.nil⟩
  | cons x xs ih =>
    intro s e h
    obtain ⟨off, len⟩ := x
    simp only [slices_end] at h
    split at h
    · rename_i hoff
      obtain ⟨h1, h2, h3⟩ := ih _ _ h
      refine ⟨by omega, ?_, ?_⟩
      · intro y hy
        rcases List.mem_cons.mp hy with hy | hy
        · rw [hy]
          exact ⟨(by simp only; omega), (by simp only; omega)⟩
        · exact ⟨(by have := (h2 y hy).1; omega), (h2 y hy).2⟩
      · refine List.Pairwise.cons ?_ h3
        intro y hy
        have := (h2 y hy).1
        simp only
        omega
    · cases h

theorem tiling_of_slices_end (l : List (Nat × Nat)) (len : Nat)
    (h : slices_end 0 l = some len) : tiling l len :=
  ⟨h, fun x hx => ((slices_end_spec l 0 len h).2.1 x hx).2, (slices_end_spec l 0 len h).2.2⟩

theorem dais_slices_append (a b : List dai_props_entry) :
    dais_slices (a ++ b) = dais_slices a ++ dais_slices b := by
  simp [dais_slices]

theorem dlcs_slices_append (a b : List snd_soc_dai_link) :
    dlcs_slices (a ++ b) = dlcs_slices a ++ dlcs_slices b := by
  simp [dlcs_slices]

theorem cconf_slices_append (a b : List dai_props_entry) :
    cconf_slices (a ++ b) = cconf_slices a ++ cconf_slices b := by
  simp [cconf_slices]

/-- One iteration of the second loop hands out slices that continue those handed out
so far, and advances the three running pointers by the counts of the link. -/
theorem init_link_spec (st : init_state) (n : prop_nums)
    (h1 : slices_end 0 (dais_slices st.dai_props) = some st.dais)
    (h2 : slices_end 0 (dlcs_slices st.dai_link) = some st.dlcs)
    (h3 : slices_end 0 (cconf_slices st.dai_props) = some st.cconf) :
    slices_end 0 (dais_slices (init_link st n).dai_props) = some (init_link st n).dais ∧
    slices_end 0 (dlcs_slices (init_link st n).dai_link) = some (init_link st n).dlcs ∧
    slices_end 0 (cconf_slices (init_link st n).dai_props) = some (init_link st n).cconf ∧
    (init_link st n).dais = st.dais + (n.cpus + n.codecs) ∧
    (init_link st n).dlcs = st.dlcs + (n.cpus + n.codecs + n.platforms) ∧
    (init_link st n).cconf = st.cconf + (if n.cpus = 0 then n.codecs else 0) ∧
    (init_link st n).dai_props.length = st.dai_props.length + 1 ∧
    (init_link st n).dai_link.length = st.dai_link.length + 1 := by
  unfold init_link
  simp only [dais_slices_append, dlcs_slices_append, cconf_slices_append,
    slices_end_append, h1, h2, h3, Option.some_bind, List.length_append,
    List.length_singleton]
  by_cases hc : n.cpus = 0 <;> by_cases hd : n.codecs = 0 <;> by_cases hp : n.platforms = 0 <;>
    simp [dais_slices, dlcs_slices, cconf_slices, slice_of, dlc_ref.index, slices_end,
      hc, hd, hp] <;> omega

/-- The second loop, from any state whose slices tile up to the running pointers. -/
theorem init_loop_spec (l : List prop_nums) :
    ∀ st : init_state,
      slices_end 0 (dais_slices st.dai_props) = some st.dais →
      slices_end 0 (dlcs_slices st.dai_link) = some st.dlcs →
      slices_end 0 (cconf_slices st.dai_props) = some st.cconf →
        slices_end 0 (dais_slices (l.foldl init_link st).dai_props)
          = some (l.foldl init_link st).dais ∧
        slices_end 0 (dlcs_slices (l.foldl init_link st).dai_link)
          = some (l.foldl init_link st).dlcs ∧
        slices_end 0 (cconf_slices (l.foldl init_link st).dai_props)
          = some (l.foldl init_link st).cconf ∧
        (l.foldl init_link st).dais = st.dais + (l.map fun n => n.cpus + n.codecs).sum ∧
        (l.foldl init_link st).dlcs
          = st.dlcs + (l.map fun n => n.cpus + n.codecs + n.platforms).sum ∧
        (l.foldl init_link st).cconf
          = st.cconf + (l.map fun n => if n.cpus = 0 then n.codecs else 0).sum ∧
        (l.foldl init_link st).dai_props.length = st.dai_props.length + l.length ∧
        (l.foldl init_link st).dai_link.length = st.dai_link.length + l.length := by
  induction l with
  | nil =>
    intro st h1 h2 h3
    simp [h1, h2, h3]
  | cons n ns ih =>
    intro st h1 h2 h3
    obtain ⟨a1, a2, a3, a4, a5, a6, a7, a8⟩ := init_link_spec st n h1 h2 h3
    obtain ⟨b1, b2, b3, b4, b5, b6, b7, b8⟩ := ih (init_link st n) a1 a2 a3
    rw [List.foldl_cons]
    refine ⟨b1, b2, b3, ?_, ?_, ?_, ?_, ?_⟩
    · rw [b4, a4, List.map_cons, List.sum_cons]; omega
    · rw [b5, a5, List.map_cons, List.sum_cons]; omega
    · rw [b6, a6, List.map_cons, List.sum_cons]; omega
    · rw [b7, a7, List.length_cons]; omega
    · rw [b8, a8, List.length_cons]; omega

/-- The totals computed by the first loop. -/
theorem count_loop_spec (l : List prop_nums) :
    ∀ t : init_totals,
      (l.foldl count_link t).dai_num = t.dai_num + (l.map fun n => n.cpus + n.codecs).sum ∧
      (l.foldl count_link t).dlc_num
        = t.dlc_num + (l.map fun n => n.cpus + n.codecs + n.platforms).sum ∧
      (l.foldl count_link t).cnf_num
        = t.cnf_num + (l.map fun n => if n.cpus = 0 then n.codecs else 0).sum := by
  induction l with
  | nil => intro t; simp
  | cons n ns ih =>
    intro t
    obtain ⟨b1, b2, b3⟩ := ih (count_link t n)
    rw [List.foldl_cons]
    refine ⟨?_, ?_, ?_⟩
    · rw [b1, List.map_cons, List.sum_cons]; simp only [count_link]; omega
    · rw [b2, List.map_cons, List.sum_cons]; simp only [count_link]; omega
    · rw [b3, List.map_cons, List.sum_cons]; simp only [count_link]
      split <;> omega

/-- C28 (slices of the arrays): for every `link_info` whose counts sum within `int`,
when `simple_util_init_priv` returns 0 the slices of `dais` it has handed to the links
(`cpu_dai` then `codec_dai` of each link, in link order) follow one another from index
0 to `dai_num` without gap or overlap, so that they are pairwise disjoint and inside
the array, and likewise the slices of `dlcs` (`cpus`, `codecs`, `platforms`) up to
`dlc_num` and the slices of `codec_conf` up to `cnf_num`; `dai_num` is the sum of
`cpus + codecs`, `dlc_num` the sum of `cpus + codecs + platforms`, and `cnf_num` the
sum of `codecs` over the links with no CPU.  It returns 0 whenever the allocations
succeed, and otherwise `-ENOMEM`. -/
theorem init_priv_slices (env : AllocEnv) (li : link_info)
    (_hfit : total (fun n => n.cpus + n.codecs + n.platforms) li < 2 ^ 31) :
    (∀ priv, simple_util_init_priv env li = .ok priv →
      tiling (dais_slices priv.dai_props) priv.dais ∧
      tiling (dlcs_slices priv.dai_link) priv.dlcs ∧
      tiling (cconf_slices priv.dai_props) priv.num_configs ∧
      priv.dais = total (fun n => n.cpus + n.codecs) li ∧
      priv.dlcs = total (fun n => n.cpus + n.codecs + n.platforms) li ∧
      priv.num_configs = total (fun n => if n.cpus = 0 then n.codecs else 0) li ∧
      priv.dai_props.length = li.num.length ∧
      priv.dai_link.length = li.num.length) ∧
    ((∀ k n, env.devm_kcalloc k n = true) →
      ∃ priv, simple_util_init_priv env li = .ok priv) ∧
    (∀ e, simple_util_init_priv env li = .error e → e = -ENOMEM) := by
  have hs := init_loop_spec li.num
    { dai_link := [], dai_props := [], dais := 0, dlcs := 0, cconf := 0 } rfl rfl rfl
  have ht := count_loop_spec li.num { dai_num := 0, dlc_num := 0, cnf_num := 0 }
  simp only [Nat.zero_add, List.length_nil] at hs ht
  obtain ⟨s1, s2, s3, s4, s5, s6, s7, s8⟩ := hs
  obtain ⟨t1, t2, t3⟩ := ht
  refine ⟨?_, ?_, ?_⟩
  · intro priv h
    unfold simple_util_init_priv at h
    simp only [] at h
    split at h
    · cases h
    · split at h
      · cases h
      · split at h
        · cases h
        · cases h
          simp only [total]
          refine ⟨tiling_of_slices_end _ _ ?_, tiling_of_slices_end _ _ ?_,
            tiling_of_slices_end _ _ ?_, t1, t2, t3, s7, s8⟩
          · rw [s1, s4, t1]
          · rw [s2, s5, t2]
          · rw [s3, s6, t3]
  · intro hall
    unfold simple_util_init_priv
    simp only [hall, Bool.not_true, Bool.or_self, Bool.false_eq_true, if_false, and_false]
    exact ⟨_, rfl⟩
  · intro e h
    unfold simple_util_init_priv at h
    simp only [] at h
    split at h
    · cases h
      rfl
    · split at h
      · cases h
        rfl
      · split at h
        · cases h
          rfl
        · cases h

/-- C28, exercised on the sample card `li0`: the slices of `dais` are
`[0,1) [1,3) [3,4) [4,6)`, those of `dlcs` run up to 7, those of `codec_conf` up to 2. -/
theorem init_priv_slices_witness :
    total (fun n => n.cpus + n.codecs + n.platforms) li0 < 2 ^ 31 ∧
    (∃ priv, simple_util_init_priv alloc_ok li0 = .ok priv ∧
      dais_slices priv.dai_props = [(0, 1), (1, 2), (3, 1), (4, 2)] ∧
      priv.dais = 6 ∧ priv.dlcs = 7 ∧ priv.num_configs = 2) ∧
    ∀ priv, simple_util_init_priv alloc_ok li0 = .ok priv →
      tiling (dais_slices priv.dai_props) priv.dais ∧
      tiling (dlcs_slices priv.dai_link) priv.dlcs ∧
      tiling (cconf_slices priv.dai_props) priv.num_configs :=
  ⟨by decide, ⟨_, rfl, by decide, rfl, rfl, rfl⟩, fun priv h =>
    ⟨((init_priv_slices alloc_ok li0 (by decide)).1 priv h).1,
      ((init_priv_slices alloc_ok li0 (by decide)).1 priv h).2.1,
      ((init_priv_slices alloc_ok li0 (by decide)).1 priv h).2.2.1⟩⟩

end SimpleCard

namespace Meson8b

open Xe (BIT u32)
open SimpleCard (EINVAL)

/-! ## dwmac-meson8b.c: the RGMII delays -/

/-- The fields written in `PRG_ETH0`: bits 5, 6 and 13 to 24. -/
theorem delay_mask_value :
    PRG_ETH0_TXDLY_MASK ||| PRG_ETH0_ADJ_ENABLE ||| PRG_ETH0_ADJ_SETUP
      ||| PRG_ETH0_ADJ_DELAY ||| PRG_ETH0_ADJ_SKEW = 0x1FFE060 := by
  decide

theorem delay_mask_not :
    u32_not (PRG_ETH0_TXDLY_MASK ||| PRG_ETH0_ADJ_ENABLE ||| PRG_ETH0_ADJ_SETUP
      ||| PRG_ETH0_ADJ_DELAY ||| PRG_ETH0_ADJ_SKEW) = 0xFE001F9F := by
  decide

/-- The value of `PRG_ETH0` after the end of `meson8b_init_rgmii_delays`. -/
theorem write_delays_regs (dwmac : meson8b_dwmac) (delay_config cfg_rxclk_dly : Nat) :
    (write_delays dwmac delay_config cfg_rxclk_dly).1 = 0 ∧
    (write_delays dwmac delay_config cfg_rxclk_dly).2.regs PRG_ETH0
      = (dwmac.regs PRG_ETH0 &&& 0xFE001F9F) ||| (delay_config &&& 0x1FFE060) := by
  refine ⟨rfl, ?_⟩
  have h : (write_delays dwmac delay_config cfg_rxclk_dly).2.regs PRG_ETH0
      = (dwmac.regs PRG_ETH0 &&& u32_not (PRG_ETH0_TXDLY_MASK ||| PRG_ETH0_ADJ_ENABLE
          ||| PRG_ETH0_ADJ_SETUP ||| PRG_ETH0_ADJ_DELAY ||| PRG_ETH0_ADJ_SKEW))
        ||| (delay_config &&& (PRG_ETH0_TXDLY_MASK ||| PRG_ETH0_ADJ_ENABLE
          ||| PRG_ETH0_ADJ_SETUP ||| PRG_ETH0_ADJ_DELAY ||| PRG_ETH0_ADJ_SKEW)) := rfl
  rw [h, delay_mask_not, delay_mask_value]

/-- A run of the part after the `switch` that returns 0 has written `PRG_ETH0`. -/
theorem enable_and_write_regs (env : MesonEnv) (d r : meson8b_dwmac) (dc cr : Nat)
    (h : enable_and_write env d dc cr = (0, r)) :
    r.regs PRG_ETH0 = (d.regs PRG_ETH0 &&& 0xFE001F9F) ||| (dc &&& 0x1FFE060) := by
  have hfin : ∀ (x : meson8b_dwmac), write_delays x dc cr = (0, r) → x.regs = d.regs →
      r.regs PRG_ETH0 = (d.regs PRG_ETH0 &&& 0xFE001F9F) ||| (dc &&& 0x1FFE060) := by
    intro x hw hx
    have h2 := (write_delays_regs x dc cr).2
    rw [hw, hx] at h2
    exact h2
  have hE : (-EINVAL : Int) ≠ 0 := by decide
  unfold enable_and_write at h
  by_cases hadj : dc &&& PRG_ETH0_ADJ_ENABLE ≠ 0
  · rw [if_pos hadj] at h
    simp only [] at h
    cases hclk : d.timing_adj_clk with
    | none =>
      have hc : (d.say [.dev_info ("DEVMFC: %s Old fashioned RX delay selected, "
          ++ "configuring timing adjustment clock\n")]).timing_adj_clk = none := hclk
      rw [hc] at h
      exact absurd (congrArg Prod.fst h) hE
    | some clk =>
      have hc : (d.say [.dev_info ("DEVMFC: %s Old fashioned RX delay selected, "
          ++ "configuring timing adjustment clock\n")]).timing_adj_clk = some clk := hclk
      rw [hc] at h
      simp only [] at h
      by_cases hr : meson8b_devm_clk_prepare_enable env clk ≠ 0
      · rw [if_pos hr] at h
        exact absurd (congrArg Prod.fst h) hr
      · rw [if_neg hr] at h
        exact hfin _ h rfl
  · rw [if_neg hadj] at h
    exact hfin _ h rfl

/-- A run that returns 0 in mode RGMII or RGMII_RXID has written `PRG_ETH0` from the TX
delay and, in mode RGMII, the RX adjustment bits. -/
theorem init_rgmii_delays_regs (env : MesonEnv) (dwmac r : meson8b_dwmac)
    (hmode : dwmac.phy_mode = .RGMII ∨ dwmac.phy_mode = .RGMII_RXID)
    (hret : meson8b_init_rgmii_delays env dwmac = (0, r)) :
    ∃ rx, (rx = 0 ∨ rx = PRG_ETH0_ADJ_ENABLE ||| PRG_ETH0_ADJ_SETUP) ∧
      r.regs PRG_ETH0 = (dwmac.regs PRG_ETH0 &&& 0xFE001F9F)
        ||| ((u32 (FIELD_PREP PRG_ETH0_TXDLY_MASK (dwmac.tx_delay_ns >>> 1)) ||| rx)
          &&& 0x1FFE060) := by
  unfold meson8b_init_rgmii_delays at hret
  simp only [] at hret
  rcases hmode with hm | hm
  · rw [hm] at hret
    simp only [delay_switch] at hret
    have hw := enable_and_write_regs env _ r _ _ hret
    refine ⟨_, ?_, hw⟩
    split
    · exact Or.inl rfl
    · split
      · exact Or.inr rfl
      · exact Or.inl rfl
  · rw [hm] at hret
    simp only [delay_switch] at hret
    refine ⟨0, Or.inl rfl, ?_⟩
    have := enable_and_write_regs env _ r _ _ hret
    rw [this, Nat.or_zero]
    rfl

/-- A register update with the delay mask leaves the bits outside the mask alone. -/
theorem delay_mask_outside (data v j : Nat) (hreg : data < 2 ^ 32)
    (hj : j < 5 ∨ (6 < j ∧ j < 13) ∨ 24 < j) :
    ((data &&& 0xFE001F9F) ||| (v &&& 0x1FFE060)).testBit j = data.testBit j := by
  rw [Nat.testBit_or, Nat.testBit_and, Nat.testBit_and]
  by_cases h32 : j < 32
  · have h1 : Nat.testBit 0xFE001F9F j = true := by
      rcases hj with h | h | h
      · interval_cases j <;> decide
      · obtain ⟨h5, h6⟩ := h
        interval_cases j <;> decide
      · interval_cases j <;> decide
    have h2 : Nat.testBit 0x1FFE060 j = false := by
      rcases hj with h | h | h
      · interval_cases j <;> decide
      · obtain ⟨h5, h6⟩ := h
        interval_cases j <;> decide
      · interval_cases j <;> decide
    rw [h1, h2, Bool.and_true, Bool.and_false, Bool.or_false]
  · have hp : 2 ^ 32 ≤ 2 ^ j := Nat.pow_le_pow_right (by decide) (by omega)
    have h1 : data.testBit j = false := Nat.testBit_lt_two_pow (Nat.lt_of_lt_of_le hreg hp)
    have h2 : Nat.testBit 0x1FFE060 j = false :=
      Nat.testBit_lt_two_pow (Nat.lt_of_lt_of_le (by decide) hp)
    rw [h1, h2, Bool.false_and, Bool.and_false, Bool.or_false]

/-- A register update with the delay mask puts bits 6:5 of the value in bits 6:5. -/
theorem delay_mask_txdly (data v : Nat) :
    (((data &&& 0xFE001F9F) ||| (v &&& 0x1FFE060)) >>> 5) % 4 = (v >>> 5) % 4 := by
  show _ % 2 ^ 2 = _ % 2 ^ 2
  apply Nat.eq_of_testBit_eq
  intro i
  rw [Nat.testBit_mod_two_pow, Nat.testBit_mod_two_pow, Nat.testBit_shiftRight,
    Nat.testBit_shiftRight, Nat.testBit_or, Nat.testBit_and, Nat.testBit_and]
  by_cases hi : i < 2
  · have h1 : Nat.testBit 0xFE001F9F (5 + i) = false := by
      interval_cases i <;> decide
    have h2 : Nat.testBit 0x1FFE060 (5 + i) = true := by
      interval_cases i <;> decide
    rw [h1, h2, Bool.and_false, Bool.and_true, Bool.false_or]
  · simp [hi]

/-- C30 (TX delay field): in the PHY modes RGMII and RGMII_RXID, for every
`tx_delay_ns` among 0, 2, 4 and 6 and every 32-bit content of `PRG_ETH0`, a run of
`meson8b_init_rgmii_delays` that returns 0 leaves the TX delay field, bits 6:5 of
`PRG_ETH0`, equal to `tx_delay_ns / 2`, and leaves every bit of `PRG_ETH0` outside
bits 6:5 (TXDLY) and bits 24:13 (the ADJ fields) as it was. -/
theorem rgmii_tx_delay (env : MesonEnv) (dwmac r : meson8b_dwmac)
    (hmode : dwmac.phy_mode = .RGMII ∨ dwmac.phy_mode = .RGMII_RXID)
    (htx : dwmac.tx_delay_ns = 0 ∨ dwmac.tx_delay_ns = 2 ∨ dwmac.tx_delay_ns = 4
      ∨ dwmac.tx_delay_ns = 6)
    (hreg : dwmac.regs PRG_ETH0 < 2 ^ 32)
    (hret : meson8b_init_rgmii_delays env dwmac = (0, r)) :
    (r.regs PRG_ETH0 >>> 5) % 4 = dwmac.tx_delay_ns / 2 ∧
    ∀ j, (j < 5 ∨ (6 < j ∧ j < 13) ∨ 24 < j) →
      (r.regs PRG_ETH0).testBit j = (dwmac.regs PRG_ETH0).testBit j := by
  obtain ⟨rx, hrx, hval⟩ := init_rgmii_delays_regs env dwmac r hmode hret
  rw [hval]
  refine ⟨?_, fun j hj => delay_mask_outside _ _ j hreg hj⟩
  rw [delay_mask_txdly]
  rcases htx with h | h | h | h <;> rcases hrx with h2 | h2 <;> rw [h, h2] <;> decide

/-- C30, exercised on the sample device `dwmac0`: RGMII mode, 4 ns, `PRG_ETH0` going
from `0x1621` to `0x7641`. -/
theorem rgmii_tx_delay_witness :
    (dwmac0.phy_mode = .RGMII ∨ dwmac0.phy_mode = .RGMII_RXID) ∧
    dwmac0.regs PRG_ETH0 < 2 ^ 32 ∧
    (meson8b_init_rgmii_delays meson_env0 dwmac0).1 = 0 ∧
    (meson8b_init_rgmii_delays meson_env0 dwmac0).2.regs PRG_ETH0 = 0x7641 ∧
    ((meson8b_init_rgmii_delays meson_env0 dwmac0).2.regs PRG_ETH0 >>> 5) % 4
      = dwmac0.tx_delay_ns / 2 :=
  ⟨Or.inl rfl, by decide, by decide, by decide,
    (rgmii_tx_delay meson_env0 dwmac0 (meson8b_init_rgmii_delays meson_env0 dwmac0).2
      (Or.inl rfl) (Or.inr (Or.inr (Or.inl rfl))) (by decide)
      (Prod.ext (by decide) rfl)).1⟩

end Meson8b
